import Mathlib

/-!
BadgerDB buffer manager (`src/buffer.cpp`)

A shallow embedding of `BufMgr` and its operations, followed by the
properties proved about it.

Conventions of the embedding.

* A `File*` is a `FilePtr` (`none` is the null pointer); a file handle is a
  natural number, which also stands for the file's name.
* Every operation returns the buffer manager state it leaves behind together
  with either its result or the exception it raised, because an operation that
  throws still leaves its earlier writes in place.
* The page store (class `File`) is an external collaborator.  Its answers are
  given to each operation by a `PageStore` record, and every call made to it is
  appended to the `trace` field of the state.
* Behaviour that C++ leaves undefined (an array access outside the pool, a call
  through a null `File*`) is the exception `Exn.Undefined`.
-/

namespace badgerdb

/-- A handle of an open file of the page store. -/
abbrev File := Nat

/-- A `File*`: `none` is the null pointer. -/
abbrev FilePtr := Option File

/-- Page number inside a file. -/
abbrev PageId := Nat

/-- Frame identifier, an index in the buffer pool. -/
abbrev FrameId := Nat

/-- Modelled from the spec: the class `Page` (page.h is not part of src).  A page
carries its own page number (`page_number()`) and its bytes. -/
structure Page where
  page_number : PageId
  data : Nat
deriving DecidableEq, Repr

/-- Modelled from the spec: the frame descriptor `BufDesc` (buffer.h is not part of
src), with the fields named as `buffer.cpp` uses them.  `pinCnt` is a signed
integer: `unPinPage` tests `pinCnt <= 0`. -/
structure BufDesc where
  file : FilePtr
  pageNo : PageId
  frameNo : FrameId
  pinCnt : Int
  dirty : Bool
  valid : Bool
  refbit : Bool
deriving DecidableEq, Repr

/-- Modelled from the spec: `BufDesc::Clear` (buffer.h is not part of src): "reset to
invalid, pinCount = 0, refBit = false, dirty = false".  The file association is
dropped as well: section 4.6 treats an invalid frame that is still associated
with a file as an internal consistency violation. -/
def BufDesc.Clear (d : BufDesc) : BufDesc :=
  { d with pinCnt := 0, file := none, dirty := false, refbit := false, valid := false }

/-- Modelled from the spec: `BufDesc::Set` (buffer.h is not part of src): "valid =
true, pinCount = 1, refBit = true, dirty = false, recording file/pageNo". -/
def BufDesc.Set (d : BufDesc) (file : FilePtr) (pageNo : PageId) : BufDesc :=
  { d with file := file, pageNo := pageNo, pinCnt := 1, dirty := false, valid := true,
           refbit := true }

/-- Modelled from the spec: the descriptor a frame has before the constructor of
`BufMgr` touches it (the default constructor of `BufDesc`, buffer.h is not part
of src): a cleared descriptor. -/
def BufDesc.fresh : BufDesc :=
  { file := none, pageNo := 0, frameNo := 0, pinCnt := 0, dirty := false, valid := false,
    refbit := false }

/-- Key of the page index: `(file, pageNo)`. -/
abbrev Key := FilePtr × PageId

/-- Modelled from the spec: the page index `BufHashTbl` (bufHashTbl.cpp is not part
of src): a finite map from `(file, pageNo)` to a frame identifier with at most
one entry per key. -/
structure BufHashTbl where
  entries : List (Key × FrameId)
deriving DecidableEq, Repr

/-- Modelled from the spec: `BufHashTbl::lookup`, which "fails distinctly when
absent" (`none` is `HashNotFoundException`). -/
def BufHashTbl.lookup (h : BufHashTbl) (k : Key) : Option FrameId :=
  (h.entries.find? (fun e => decide (e.1 = k))).map (fun e => e.2)

/-- Modelled from the spec: `BufHashTbl::insert`; the index keeps at most one entry
per key. -/
def BufHashTbl.insert (h : BufHashTbl) (k : Key) (v : FrameId) : BufHashTbl :=
  { entries := (k, v) :: h.entries.filter (fun e => decide (e.1 ≠ k)) }

/-- Modelled from the spec: `BufHashTbl::remove`, which "fails distinctly when
absent" (`none` is `HashNotFoundException`). -/
def BufHashTbl.remove (h : BufHashTbl) (k : Key) : Option BufHashTbl :=
  match h.lookup k with
  | none => none
  | some _ => some { entries := h.entries.filter (fun e => decide (e.1 ≠ k)) }

/-- Exceptions raised by the operations of the buffer manager. -/
inductive Exn where
  | BufferExceededException
  | PageNotPinnedException (name : File) (pageNo : PageId) (frameNo : FrameId)
  | PagePinnedException (name : File) (pageNo : PageId) (frameNo : FrameId)
  | BadBufferException (frameNo : FrameId) (dirty valid refbit : Bool)
  | HashNotFoundException
  | StoreException
  | Undefined
deriving DecidableEq, Repr

deriving instance DecidableEq for Except

/-- A call made to the page store. -/
inductive StoreCall where
  | readPage (file : File) (pageNo : PageId)
  | writePage (file : File) (page : Page)
  | allocatePage (file : File)
  | deletePage (file : File) (pageNo : PageId)
deriving DecidableEq, Repr

/-- Modelled from the spec: the page store (class `File`, not part of src), section 6.
The record gives the answer of the store to each call an operation makes:
`readPage` and `allocatePage` return a page or fail (`none`), `writePage` and
`deletePage` succeed (`true`) or fail. -/
structure PageStore where
  readPage : File → PageId → Option Page
  writePage : File → Page → Bool
  allocatePage : File → Option Page
  deletePage : File → PageId → Bool

/-- State of a `BufMgr`.  `trace` is the list of calls made to the page store so
far, oldest first. -/
structure BufMgr where
  numBufs : Nat
  bufDescTable : List BufDesc
  bufPool : List Page
  hashTable : BufHashTbl
  clockHand : Nat
  trace : List StoreCall
deriving DecidableEq, Repr

/-- The constructor `BufMgr::BufMgr(bufs)`: every frame gets its number and is
invalid, the index is empty and the hand is `bufs - 1` in 32-bit arithmetic
(subtracting one is adding `2^32 - 1` modulo `2^32`). -/
def BufMgr.construct (bufs : Nat) : BufMgr :=
  { numBufs := bufs
    bufDescTable := (List.range bufs).map (fun i => { BufDesc.fresh with frameNo := i, valid := false })
    bufPool := List.replicate bufs { page_number := 0, data := 0 }
    hashTable := { entries := [] }
    clockHand := (2 ^ 32 - 1 + bufs) % 2 ^ 32
    trace := [] }

/-- The method `BufMgr::advanceClock`. -/
def BufMgr.advanceClock (s : BufMgr) : BufMgr :=
  { s with clockHand := ((s.clockHand + 1) % 2 ^ 32) % s.numBufs }

/-- The last branch of the loop of `allocBuf`, after the write-back: remove the
index entry of the victim, clear its descriptor and leave the loop. -/
def BufMgr.allocBufEvict (s : BufMgr) (d : BufDesc) : BufMgr × Option (Except Exn FrameId) :=
  match s.hashTable.remove (d.file, d.pageNo) with
  | none => (s, some (.error .HashNotFoundException))
  | some h =>
    ({ s with hashTable := h, bufDescTable := s.bufDescTable.set s.clockHand d.Clear },
      some (.ok d.frameNo))

/-- One iteration of the loop of `BufMgr::allocBuf`.  The second component is
`none` when the loop goes on, and the outcome of `allocBuf` when the iteration
leaves the loop (by `break` or by an exception). -/
def BufMgr.allocBufIter (s : BufMgr) (st : PageStore) : BufMgr × Option (Except Exn FrameId) :=
  match s.bufDescTable[s.clockHand]? with
  | none => (s, some (.error .Undefined))
  | some d =>
    if d.valid = false then (s, some (.ok d.frameNo))
    else if d.refbit = true then
      (BufMgr.advanceClock
        { s with bufDescTable := s.bufDescTable.set s.clockHand { d with refbit := false } }, none)
    else if d.pinCnt > 0 then (s.advanceClock, none)
    else if d.dirty = true then
      match d.file, s.bufPool[d.frameNo]? with
      | some f, some pg =>
        if st.writePage f pg = true then
          BufMgr.allocBufEvict { s with trace := s.trace ++ [.writePage f pg] } d
        else ({ s with trace := s.trace ++ [.writePage f pg] }, some (.error .StoreException))
      | _, _ => (s, some (.error .Undefined))
    else s.allocBufEvict d

/-- The loop of `BufMgr::allocBuf`, run for at most `n` iterations; when they are
used up `flag` is still false and `BufferExceededException` is thrown. -/
def BufMgr.allocBufLoop (st : PageStore) : Nat → BufMgr → BufMgr × Except Exn FrameId
  | 0, s => (s, .error .BufferExceededException)
  | n + 1, s =>
    match s.allocBufIter st with
    | (s1, none) => BufMgr.allocBufLoop st n s1
    | (s1, some r) => (s1, r)

/-- The bound `worst_num_rota = numBufs*2-1` of `allocBuf`, in 32-bit arithmetic:
subtracting one is adding `2^32 - 1` modulo `2^32`. -/
def BufMgr.worst_num_rota (s : BufMgr) : Nat :=
  (2 ^ 32 - 1 + s.numBufs * 2) % 2 ^ 32

/-- The method `BufMgr::allocBuf`: the frame it selects, or the exception. -/
def BufMgr.allocBuf (s : BufMgr) (st : PageStore) : BufMgr × Except Exn FrameId :=
  BufMgr.allocBufLoop st s.worst_num_rota s

/-- The tail shared by the miss path of `readPage` and by `allocPage`: store the
page in frame `fid`, insert the index entry and `Set` the descriptor. -/
def BufMgr.install (s : BufMgr) (file : File) (pageNo : PageId) (fid : FrameId) (pg : Page) :
    Option BufMgr :=
  match s.bufPool[fid]?, s.bufDescTable[fid]? with
  | some _, some d =>
    some { s with bufPool := s.bufPool.set fid pg,
                  hashTable := s.hashTable.insert (some file, pageNo) fid,
                  bufDescTable := s.bufDescTable.set fid (d.Set (some file) pageNo) }
  | _, _ => none

/-- The handler of `HashNotFoundException` in `BufMgr::readPage` (the page is not
in the pool): obtain a frame from `allocBuf`, read the page from the file into
it, insert the index entry and `Set` the descriptor. -/
def BufMgr.readPageMiss (s : BufMgr) (st : PageStore) (file : File) (pageNo : PageId) :
    BufMgr × Except Exn FrameId :=
  match s.allocBuf st with
  | (s1, .error e) => (s1, .error e)
  | (s1, .ok fid) =>
    match st.readPage file pageNo with
    | none => ({ s1 with trace := s1.trace ++ [.readPage file pageNo] }, .error .StoreException)
    | some pg =>
      match BufMgr.install { s1 with trace := s1.trace ++ [.readPage file pageNo] }
          file pageNo fid pg with
      | none => ({ s1 with trace := s1.trace ++ [.readPage file pageNo] }, .error .Undefined)
      | some s2 => (s2, .ok fid)

/-- The method `BufMgr::readPage`; the result is the frame whose bytes `page` points to. -/
def BufMgr.readPage (s : BufMgr) (st : PageStore) (file : File) (pageNo : PageId) :
    BufMgr × Except Exn FrameId :=
  match s.hashTable.lookup (some file, pageNo) with
  | some fid =>
    match s.bufDescTable[fid]? with
    | none => (s, .error .Undefined)
    | some d =>
      ({ s with bufDescTable :=
          s.bufDescTable.set fid ({ d with refbit := true, pinCnt := d.pinCnt + 1 }) }, .ok fid)
  | none => s.readPageMiss st file pageNo

/-- The method `BufMgr::unPinPage`. -/
def BufMgr.unPinPage (s : BufMgr) (file : File) (pageNo : PageId) (dirty : Bool) :
    BufMgr × Except Exn Unit :=
  match s.hashTable.lookup (some file, pageNo) with
  | none => (s, .ok ())
  | some fid =>
    match s.bufDescTable[fid]? with
    | none => (s, .error .Undefined)
    | some d =>
      if d.pinCnt ≤ 0 then (s, .error (.PageNotPinnedException file pageNo fid))
      else
        ({ s with bufDescTable := s.bufDescTable.set fid ({ d with
              pinCnt := d.pinCnt - 1, dirty := if dirty = true then true else d.dirty }) },
          .ok ())

/-- The steps (b) and (c) of the loop of `flushFile`: remove the index entry of
frame `i` and clear its descriptor `d`. -/
def BufMgr.flushFileClear (s : BufMgr) (i : Nat) (d : BufDesc) : BufMgr × Option Exn :=
  match s.hashTable.remove (d.file, d.pageNo) with
  | none => (s, some .HashNotFoundException)
  | some h => ({ s with hashTable := h, bufDescTable := s.bufDescTable.set i d.Clear }, none)

/-- One iteration of the loop of `BufMgr::flushFile`, for frame `i`.  The second
component is the exception that ends the loop, if any. -/
def BufMgr.flushFileIter (s : BufMgr) (st : PageStore) (file : FilePtr) (i : Nat) :
    BufMgr × Option Exn :=
  match s.bufDescTable[i]? with
  | none => (s, some .Undefined)
  | some d =>
    if d.file = file then
      if d.pinCnt > 0 then
        match file with
        | some f => (s, some (.PagePinnedException f d.pageNo d.frameNo))
        | none => (s, some .Undefined)
      else if d.valid = false then
        (s, some (.BadBufferException d.frameNo d.dirty d.valid d.refbit))
      else if d.dirty = true then
        match d.file, s.bufPool[i]? with
        | some f, some pg =>
          if st.writePage f pg = true then
            BufMgr.flushFileClear
              { s with trace := s.trace ++ [.writePage f pg],
                       bufDescTable := s.bufDescTable.set i { d with dirty := false } }
              i { d with dirty := false }
          else ({ s with trace := s.trace ++ [.writePage f pg] }, some .StoreException)
        | _, _ => (s, some .Undefined)
      else s.flushFileClear i d
    else (s, none)

/-- The loop of `BufMgr::flushFile`: `n` iterations starting at frame `i`. -/
def BufMgr.flushFileLoop (st : PageStore) (file : FilePtr) :
    Nat → Nat → BufMgr → BufMgr × Except Exn Unit
  | 0, _, s => (s, .ok ())
  | n + 1, i, s =>
    match s.flushFileIter st file i with
    | (s1, some e) => (s1, .error e)
    | (s1, none) => BufMgr.flushFileLoop st file n (i + 1) s1

/-- The method `BufMgr::flushFile`. -/
def BufMgr.flushFile (s : BufMgr) (st : PageStore) (file : FilePtr) : BufMgr × Except Exn Unit :=
  BufMgr.flushFileLoop st file s.numBufs 0 s

/-- The method `BufMgr::allocPage`; the result is the new page number and the
frame whose bytes `page` points to. -/
def BufMgr.allocPage (s : BufMgr) (st : PageStore) (file : File) :
    BufMgr × Except Exn (PageId × FrameId) :=
  match st.allocatePage file with
  | none => ({ s with trace := s.trace ++ [.allocatePage file] }, .error .StoreException)
  | some new_page =>
    match BufMgr.allocBuf { s with trace := s.trace ++ [.allocatePage file] } st with
    | (s1, .error e) => (s1, .error e)
    | (s1, .ok frameNo) =>
      match s1.install file new_page.page_number frameNo new_page with
      | none => (s1, .error .Undefined)
      | some s2 => (s2, .ok (new_page.page_number, frameNo))

/-- The method `BufMgr::disposePage`. -/
def BufMgr.disposePage (s : BufMgr) (st : PageStore) (file : File) (PageNo : PageId) :
    BufMgr × Except Exn Unit :=
  match s.hashTable.lookup (some file, PageNo) with
  | none => (s, .error .HashNotFoundException)
  | some frameNo =>
    match s.bufDescTable[frameNo]? with
    | none => (s, .error .Undefined)
    | some d =>
      match s.hashTable.remove (some file, PageNo) with
      | none =>
        ({ s with bufDescTable := s.bufDescTable.set frameNo d.Clear },
          .error .HashNotFoundException)
      | some h =>
        if st.deletePage file PageNo = true then
          ({ s with bufDescTable := s.bufDescTable.set frameNo d.Clear, hashTable := h,
                    trace := s.trace ++ [.deletePage file PageNo] }, .ok ())
        else
          ({ s with bufDescTable := s.bufDescTable.set frameNo d.Clear, hashTable := h,
                    trace := s.trace ++ [.deletePage file PageNo] }, .error .StoreException)

/-- A call of a public operation of the buffer manager, with the answers of the
page store during the call. -/
inductive Op where
  | readPage (st : PageStore) (file : File) (pageNo : PageId)
  | unPinPage (file : File) (pageNo : PageId) (dirty : Bool)
  | allocPage (st : PageStore) (file : File)
  | disposePage (st : PageStore) (file : File) (PageNo : PageId)
  | flushFile (st : PageStore) (file : FilePtr)

/-- The state a call leaves behind, whether it returns or throws. -/
def BufMgr.step (s : BufMgr) : Op → BufMgr
  | .readPage st file pageNo => (s.readPage st file pageNo).1
  | .unPinPage file pageNo dirty => (s.unPinPage file pageNo dirty).1
  | .allocPage st file => (s.allocPage st file).1
  | .disposePage st file PageNo => (s.disposePage st file PageNo).1
  | .flushFile st file => (s.flushFile st file).1

/-- The state after a sequence of calls. -/
def BufMgr.run (s : BufMgr) (ops : List Op) : BufMgr :=
  ops.foldl BufMgr.step s

/-- The states reachable from the construction of a pool of `bufs` frames by
public operations, succeeding or failing. -/
inductive Reachable (bufs : Nat) : BufMgr → Prop where
  | init : Reachable bufs (BufMgr.construct bufs)
  | step {s : BufMgr} (h : Reachable bufs s) (op : Op) : Reachable bufs (s.step op)

/-- The representation invariant of a `BufMgr`: the table and the pool have
`numBufs` entries, the hand is a frame of the pool, every descriptor carries its
own index as `frameNo`, every index entry points to a valid frame holding that
key, and pin counts are non-negative and positive only on valid frames. -/
structure BufMgr.Inv (s : BufMgr) : Prop where
  len_table : s.bufDescTable.length = s.numBufs
  len_pool : s.bufPool.length = s.numBufs
  hand : 0 < s.numBufs → s.clockHand < s.numBufs
  frameNo : ∀ (i : Nat) (d : BufDesc), s.bufDescTable[i]? = some d → d.frameNo = i
  index_sound : ∀ k g, s.hashTable.lookup k = some g →
    ∃ d, s.bufDescTable[g]? = some d ∧ d.valid = true ∧ (d.file, d.pageNo) = k
  pin_nonneg : ∀ (i : Nat) (d : BufDesc), s.bufDescTable[i]? = some d → 0 ≤ d.pinCnt
  pin_valid : ∀ (i : Nat) (d : BufDesc), s.bufDescTable[i]? = some d → 0 < d.pinCnt → d.valid = true

/-- Postcondition of a sweep on its outcome: a selected frame is where the hand
is, and it is invalid when `allocBuf` returns. -/
def BufMgr.Selected (s : BufMgr) (r : Except Exn FrameId) : Prop :=
  ∀ f, r = .ok f → f = s.clockHand ∧ ∃ d, s.bufDescTable[f]? = some d ∧ d.valid = false

/-- A page store in which every page can be read (page `p` holds the bytes
`100 + p`), every write and delete succeeds and `allocatePage` hands out page
number 7.  It is the store of the concrete scenarios below. -/
def PageStore.sample : PageStore :=
  { readPage := fun _ p => some { page_number := p, data := 100 + p }
    writePage := fun _ _ => true
    allocatePage := fun _ => some { page_number := 7, data := 0 }
    deletePage := fun _ _ => true }

/-- The state in which the loop of `allocBuf`, run for at most `n` iterations from
`s`, starts the iteration in which it is left (or the state after `n` iterations
when none of them leaves the loop): the instant at which the sweep selects. -/
def BufMgr.allocBufLastIter (st : PageStore) : Nat → BufMgr → BufMgr
  | 0, s => s
  | n + 1, s =>
    match s.allocBufIter st with
    | (s1, none) => BufMgr.allocBufLastIter st n s1
    | (_, some _) => s

/-- The assumption made on the page store for index consistency: the page number
that `allocatePage` returns during an `allocPage` call is not in the index for
that file when the call is made. -/
def Op.Fresh (s : BufMgr) : Op → Prop
  | .allocPage st file =>
    ∀ pg, st.allocatePage file = some pg →
      s.hashTable.lookup (some file, pg.page_number) = none
  | _ => True

/-- The states reachable from the construction of a pool of `bufs` frames by
public operations, succeeding or failing, when every `allocPage` call gets a
page number that is not resident (`Op.Fresh`). -/
inductive ReachableFresh (bufs : Nat) : BufMgr → Prop where
  | init : ReachableFresh bufs (BufMgr.construct bufs)
  | step {s : BufMgr} (h : ReachableFresh bufs s) (op : Op) (hf : op.Fresh s) :
      ReachableFresh bufs (s.step op)

/-- The part of the consistency of index and descriptor table that needs the
assumption on `allocatePage`: every valid frame is found in the index under its
`(file, pageNo)`, and no key has two entries. -/
structure BufMgr.Idx (s : BufMgr) : Prop where
  indexed : ∀ (i : Nat) (d : BufDesc), s.bufDescTable[i]? = some d → d.valid = true →
    s.hashTable.lookup (d.file, d.pageNo) = some i
  nodup : (s.hashTable.entries.map Prod.fst).Nodup

/-- Mutual consistency of the page index and the frame descriptor table: a frame
is valid exactly when the index maps its `(file, pageNo)` to it, every entry of
the index points to a valid frame holding the key of the entry, no key has two
entries, and no two valid frames hold the same `(file, pageNo)`. -/
structure BufMgr.Consistent (s : BufMgr) : Prop where
  valid_iff : ∀ (i : Nat) (d : BufDesc), s.bufDescTable[i]? = some d →
    (d.valid = true ↔ s.hashTable.lookup (d.file, d.pageNo) = some i)
  entry_sound : ∀ e ∈ s.hashTable.entries,
    ∃ d, s.bufDescTable[e.2]? = some d ∧ d.valid = true ∧ (d.file, d.pageNo) = e.1
  one_entry : (s.hashTable.entries.map Prod.fst).Nodup
  one_frame : ∀ (i j : Nat) (di dj : BufDesc), s.bufDescTable[i]? = some di →
    s.bufDescTable[j]? = some dj → di.valid = true → dj.valid = true →
    di.file = dj.file → di.pageNo = dj.pageNo → i = j

/-- Whether a call is `disposePage(file, p)`. -/
def Op.isDisposeOf (file : File) (p : PageId) : Op → Bool
  | .disposePage _ f q => decide (f = file ∧ q = p)
  | _ => false

/-- The change a call makes to the number of pins held on `(file, p)`: a
`readPage(file, p)` takes one, an `unPinPage(file, p)` releases one. -/
def Op.pinDelta (file : File) (p : PageId) : Op → Int
  | .readPage _ f q => if f = file ∧ q = p then 1 else 0
  | .unPinPage f q _ => if f = file ∧ q = p then -1 else 0
  | _ => 0

/-- Starting with `b` pins held on `(file, p)`, the pins have not all been
released at any point of the sequence of calls. -/
def Op.held (file : File) (p : PageId) : Int → List Op → Prop
  | _, [] => True
  | b, op :: ops => 0 < b + op.pinDelta file p ∧ Op.held file p (b + op.pinDelta file p) ops

/-- Frame `f` holds `(file, p)`, is valid and pinned, and when the index maps
`(file, p)` to it, it carries at least `b` pins. -/
def BufMgr.Holds (s : BufMgr) (file : File) (p : PageId) (f : FrameId) (b : Int) : Prop :=
  ∃ d, s.bufDescTable[f]? = some d ∧ d.valid = true ∧ d.file = some file ∧ d.pageNo = p ∧
    0 < d.pinCnt ∧ (s.hashTable.lookup (some file, p) = some f → b ≤ d.pinCnt)

/-- The invalid frames of the table have no file association. -/
def BufMgr.Free (s : BufMgr) : Prop :=
  ∀ (i : Nat) (d : BufDesc), s.bufDescTable[i]? = some d → d.valid = false → d.file = none

/-- The call `flushFile(file)` makes to the page store for frame `i` in state `s`:
a write of the bytes of the frame when it holds a dirty page of `file`, no call
otherwise. -/
def BufMgr.flushWrite (s : BufMgr) (file : File) (i : Nat) : Option StoreCall :=
  match s.bufDescTable[i]?, s.bufPool[i]? with
  | some d, some pg =>
    if d.file = some file ∧ d.dirty = true then some (.writePage file pg) else none
  | _, _ => none

/-- State `s1` is state `s` with the frames of `file` among the frames `lo ≤ j < hi`
flushed: each of them is cleared and has lost its index entry, the dirty ones
have been written to the page store, one write each in the order of the
frames, and nothing else has changed. -/
structure BufMgr.Flushed (s s1 : BufMgr) (file : File) (lo hi : Nat) : Prop where
  numBufs : s1.numBufs = s.numBufs
  clockHand : s1.clockHand = s.clockHand
  bufPool : s1.bufPool = s.bufPool
  length : s1.bufDescTable.length = s.bufDescTable.length
  cleared : ∀ (j : Nat) (d : BufDesc), s.bufDescTable[j]? = some d → lo ≤ j → j < hi →
    d.file = some file → s1.bufDescTable[j]? = some d.Clear
  kept : ∀ (j : Nat) (d : BufDesc), s.bufDescTable[j]? = some d →
    (j < lo ∨ hi ≤ j ∨ d.file ≠ some file) → s1.bufDescTable[j]? = some d
  index_sub : ∀ k g, s1.hashTable.lookup k = some g → s.hashTable.lookup k = some g
  index_kept : ∀ k, (∀ (j : Nat) (d : BufDesc), s.bufDescTable[j]? = some d → lo ≤ j → j < hi →
    d.file = some file → (d.file, d.pageNo) ≠ k) → s1.hashTable.lookup k = s.hashTable.lookup k
  index_removed : ∀ (j : Nat) (d : BufDesc), s.bufDescTable[j]? = some d → lo ≤ j → j < hi →
    d.file = some file → s1.hashTable.lookup (d.file, d.pageNo) = none
  trace : s1.trace = s.trace ++ (List.range' lo (hi - lo)).filterMap (s.flushWrite file)

/-- The store `PageStore.sample` with a write path that fails: every `writePage`
is refused. -/
def PageStore.failingWrites : PageStore :=
  { PageStore.sample with writePage := fun _ _ => false }

/-! ## Lemmas -/

theorem find_filter_ne (l : List (Key × FrameId)) (k k' : Key) :
    (l.filter (fun e => decide (e.1 ≠ k))).find? (fun e => decide (e.1 = k')) =
      if k' = k then none else l.find? (fun e => decide (e.1 = k')) := by
  induction l with
  | nil => simp
  | cons e t ih =>
    rw [List.filter_cons]
    by_cases h1 : e.1 = k
    · have hd : decide (e.1 ≠ k) = false := by simp [h1]
      rw [hd, if_neg (by simp), ih, List.find?_cons]
      by_cases h2 : k' = k
      · simp [h2]
      · have h3 : decide (e.1 = k') = false := by
          simp only [decide_eq_false_iff_not]; intro h; exact h2 (h ▸ h1)
        simp [h2, h3]
    · have hd : decide (e.1 ≠ k) = true := by simp [h1]
      rw [hd, if_pos rfl, List.find?_cons, List.find?_cons, ih]
      by_cases h2 : k' = k
      · subst h2
        have h3 : decide (e.1 = k') = false := by
          simp only [decide_eq_false_iff_not]; exact h1
        simp [h3]
      · simp [h2]

theorem BufHashTbl.lookup_insert (h : BufHashTbl) (k : Key) (v : FrameId) (k' : Key) :
    (h.insert k v).lookup k' = if k' = k then some v else h.lookup k' := by
  unfold BufHashTbl.lookup BufHashTbl.insert
  by_cases h2 : k' = k
  · subst h2; simp [List.find?_cons]
  · have h3 : decide (k = k') = false := by
      simp only [decide_eq_false_iff_not]; exact fun h => h2 h.symm
    rw [List.find?_cons]
    simp only [h3, find_filter_ne, if_neg h2]

theorem BufHashTbl.lookup_remove {h h' : BufHashTbl} {k : Key} (hr : h.remove k = some h')
    (k' : Key) : h'.lookup k' = if k' = k then none else h.lookup k' := by
  unfold BufHashTbl.remove at hr
  split at hr
  · cases hr
  · cases hr
    simp only [BufHashTbl.lookup, find_filter_ne]
    split <;> simp

theorem BufHashTbl.remove_eq_none {h : BufHashTbl} {k : Key} :
    h.remove k = none ↔ h.lookup k = none := by
  unfold BufHashTbl.remove
  split <;> simp_all

theorem BufHashTbl.remove_of_lookup {h : BufHashTbl} {k : Key} {g : FrameId}
    (hl : h.lookup k = some g) : ∃ h', h.remove k = some h' := by
  cases hr : h.remove k with
  | none => rw [BufHashTbl.remove_eq_none] at hr; rw [hr] at hl; cases hl
  | some h' => exact ⟨h', rfl⟩


theorem BufMgr.Inv.inv_set_desc {s s' : BufMgr} (hs : s.Inv) {i : Nat} {d d' : BufDesc}
    (hi : s.bufDescTable[i]? = some d) (et : s'.bufDescTable = s.bufDescTable.set i d')
    (hf : d'.frameNo = d.frameNo) (hv : d'.valid = d.valid) (hfile : d'.file = d.file)
    (hp : d'.pageNo = d.pageNo) (h0 : 0 ≤ d'.pinCnt) (h1 : 0 < d'.pinCnt → d'.valid = true)
    (en : s'.numBufs = s.numBufs)
    (ep : s'.bufPool.length = s.bufPool.length) (eh : s'.hashTable = s.hashTable)
    (ec : 0 < s.numBufs → s'.clockHand < s.numBufs) : s'.Inv := by
  have hlt : i < s.bufDescTable.length := by
    rcases List.getElem?_eq_some.1 hi with ⟨h, _⟩; exact h
  have key : ∀ j e, s'.bufDescTable[j]? = some e →
      (j = i ∧ e = d') ∨ (j ≠ i ∧ s.bufDescTable[j]? = some e) := by
    intro j e he
    rw [et, List.getElem?_set] at he
    by_cases hji : i = j
    · subst hji; simp [hlt] at he; exact Or.inl ⟨rfl, he.symm⟩
    · simp [hji] at he; exact Or.inr ⟨fun h => hji h.symm, he⟩
  refine ⟨?_, ?_, ?_, ?_, ?_, ?_, ?_⟩
  · rw [et, en, List.length_set]; exact hs.len_table
  · rw [ep, en]; exact hs.len_pool
  · rw [en]; exact ec
  · intro j e he
    rcases key j e he with ⟨rfl, rfl⟩ | ⟨_, h⟩
    · rw [hf]; exact hs.frameNo _ _ hi
    · exact hs.frameNo _ _ h
  · intro k g hk
    rw [eh] at hk
    obtain ⟨e, he, hev, hek⟩ := hs.index_sound k g hk
    by_cases hgi : g = i
    · subst hgi
      rw [hi] at he; cases he
      refine ⟨d', ?_, ?_, ?_⟩
      · rw [et]; simp [List.getElem?_set, hlt]
      · rw [hv]; exact hev
      · rw [hfile, hp]; exact hek
    · refine ⟨e, ?_, hev, hek⟩
      rw [et, List.getElem?_set_ne (fun h => hgi h.symm)]; exact he
  · intro j e he
    rcases key j e he with ⟨rfl, rfl⟩ | ⟨_, h⟩
    · exact h0
    · exact hs.pin_nonneg _ _ h
  · intro j e he
    rcases key j e he with ⟨rfl, rfl⟩ | ⟨_, h⟩
    · exact h1
    · exact hs.pin_valid _ _ h

theorem BufMgr.Inv.inv_evict {s s' : BufMgr} (hs : s.Inv) {i : Nat} {d : BufDesc} {h : BufHashTbl}
    (hi : s.bufDescTable[i]? = some d)
    (hr : s.hashTable.remove (d.file, d.pageNo) = some h)
    (en : s'.numBufs = s.numBufs) (et : s'.bufDescTable = s.bufDescTable.set i d.Clear)
    (ep : s'.bufPool.length = s.bufPool.length) (eh : s'.hashTable = h)
    (ec : 0 < s.numBufs → s'.clockHand < s.numBufs) : s'.Inv := by
  have hlt : i < s.bufDescTable.length := by
    rcases List.getElem?_eq_some.1 hi with ⟨h, _⟩; exact h
  have key : ∀ j e, s'.bufDescTable[j]? = some e →
      (j = i ∧ e = d.Clear) ∨ (j ≠ i ∧ s.bufDescTable[j]? = some e) := by
    intro j e he
    rw [et, List.getElem?_set] at he
    by_cases hji : i = j
    · subst hji; simp [hlt] at he; exact Or.inl ⟨rfl, he.symm⟩
    · simp [hji] at he; exact Or.inr ⟨fun h => hji h.symm, he⟩
  refine ⟨?_, ?_, ?_, ?_, ?_, ?_, ?_⟩
  · rw [et, en, List.length_set]; exact hs.len_table
  · rw [ep, en]; exact hs.len_pool
  · rw [en]; exact ec
  · intro j e he
    rcases key j e he with ⟨rfl, rfl⟩ | ⟨_, h⟩
    · exact hs.frameNo _ d hi
    · exact hs.frameNo _ _ h
  · intro k g hk
    rw [eh, BufHashTbl.lookup_remove hr] at hk
    by_cases hkk : k = (d.file, d.pageNo)
    · simp [hkk] at hk
    · rw [if_neg hkk] at hk
      obtain ⟨e, he, hev, hek⟩ := hs.index_sound k g hk
      have hgi : g ≠ i := by
        rintro rfl
        rw [hi] at he; cases he
        exact hkk hek.symm
      refine ⟨e, ?_, hev, hek⟩
      rw [et, List.getElem?_set_ne (fun h => hgi h.symm)]; exact he
  · intro j e he
    rcases key j e he with ⟨rfl, rfl⟩ | ⟨_, h⟩
    · simp [BufDesc.Clear]
    · exact hs.pin_nonneg _ _ h
  · intro j e he
    rcases key j e he with ⟨rfl, rfl⟩ | ⟨_, h⟩
    · simp [BufDesc.Clear]
    · exact hs.pin_valid _ _ h

theorem BufMgr.Inv.inv_install {s s' : BufMgr} (hs : s.Inv) {fid : Nat} {d : BufDesc}
    (file : FilePtr) (pageNo : PageId) (pg : Page)
    (hi : s.bufDescTable[fid]? = some d) (hinv : d.valid = false)
    (en : s'.numBufs = s.numBufs)
    (et : s'.bufDescTable = s.bufDescTable.set fid (d.Set file pageNo))
    (ep : s'.bufPool = s.bufPool.set fid pg)
    (eh : s'.hashTable = s.hashTable.insert (file, pageNo) fid)
    (ec : 0 < s.numBufs → s'.clockHand < s.numBufs) : s'.Inv := by
  have hlt : fid < s.bufDescTable.length := by
    rcases List.getElem?_eq_some.1 hi with ⟨h, _⟩; exact h
  have key : ∀ j e, s'.bufDescTable[j]? = some e →
      (j = fid ∧ e = d.Set file pageNo) ∨ (j ≠ fid ∧ s.bufDescTable[j]? = some e) := by
    intro j e he
    rw [et, List.getElem?_set] at he
    by_cases hji : fid = j
    · subst hji; simp [hlt] at he; exact Or.inl ⟨rfl, he.symm⟩
    · simp [hji] at he; exact Or.inr ⟨fun h => hji h.symm, he⟩
  refine ⟨?_, ?_, ?_, ?_, ?_, ?_, ?_⟩
  · rw [et, en, List.length_set]; exact hs.len_table
  · rw [ep, en, List.length_set]; exact hs.len_pool
  · rw [en]; exact ec
  · intro j e he
    rcases key j e he with ⟨rfl, rfl⟩ | ⟨_, h⟩
    · exact hs.frameNo _ d hi
    · exact hs.frameNo _ _ h
  · intro k g hk
    rw [eh, BufHashTbl.lookup_insert] at hk
    by_cases hkk : k = (file, pageNo)
    · rw [if_pos hkk] at hk
      cases hk
      refine ⟨d.Set file pageNo, ?_, rfl, hkk.symm⟩
      rw [et]; simp [List.getElem?_set, hlt]
    · rw [if_neg hkk] at hk
      obtain ⟨e, he, hev, hek⟩ := hs.index_sound k g hk
      have hgi : g ≠ fid := by
        rintro rfl
        rw [hi] at he; cases he
        rw [hinv] at hev; cases hev
      refine ⟨e, ?_, hev, hek⟩
      rw [et, List.getElem?_set_ne (fun h => hgi h.symm)]; exact he
  · intro j e he
    rcases key j e he with ⟨rfl, rfl⟩ | ⟨_, h⟩
    · simp [BufDesc.Set]
    · exact hs.pin_nonneg _ _ h
  · intro j e he
    rcases key j e he with ⟨rfl, rfl⟩ | ⟨_, h⟩
    · simp [BufDesc.Set]
    · exact hs.pin_valid _ _ h

theorem BufMgr.Inv.inv_frame {s s' : BufMgr} (hs : s.Inv)
    (en : s'.numBufs = s.numBufs) (et : s'.bufDescTable = s.bufDescTable)
    (ep : s'.bufPool.length = s.bufPool.length) (eh : s'.hashTable = s.hashTable)
    (ec : 0 < s.numBufs → s'.clockHand < s.numBufs) : s'.Inv := by
  refine ⟨?_, ?_, ?_, ?_, ?_, ?_, ?_⟩
  · rw [et, en]; exact hs.len_table
  · rw [ep, en]; exact hs.len_pool
  · rw [en]; exact ec
  · rw [et]; exact hs.frameNo
  · rw [et, eh]; exact hs.index_sound
  · rw [et]; exact hs.pin_nonneg
  · rw [et]; exact hs.pin_valid

theorem BufMgr.Inv.inv_construct (bufs : Nat) : (BufMgr.construct bufs).Inv := by
  have key : ∀ (i : Nat) (d : BufDesc), (BufMgr.construct bufs).bufDescTable[i]? = some d →
      d = { BufDesc.fresh with frameNo := i, valid := false } := by
    intro i d h
    simp only [BufMgr.construct, List.getElem?_map] at h
    by_cases hi : i < bufs
    · rw [List.getElem?_range hi] at h; simp at h; exact h.symm
    · rw [List.getElem?_eq_none (by simp; omega)] at h; simp at h
  refine ⟨?_, ?_, ?_, ?_, ?_, ?_, ?_⟩
  · simp [BufMgr.construct]
  · simp [BufMgr.construct]
  · intro h
    simp only [BufMgr.construct] at h ⊢
    have : (2 ^ 32 - 1 + bufs) % 2 ^ 32 ≤ bufs - 1 := by
      have e : 2 ^ 32 - 1 + bufs = (bufs - 1) + 2 ^ 32 := by omega
      rw [e, Nat.add_mod_right]; exact Nat.mod_le _ _
    omega
  · intro i d h; rw [key i d h]
  · intro k g h; simp [BufMgr.construct, BufHashTbl.lookup] at h
  · intro i d h; rw [key i d h]; simp [BufDesc.fresh]
  · intro i d h; rw [key i d h]; simp [BufDesc.fresh]

theorem BufMgr.allocBufEvict_spec {s s1 : BufMgr} {d : BufDesc} {o : Option (Except Exn FrameId)}
    (h : s.allocBufEvict d = (s1, o)) :
    (o = some (.error .HashNotFoundException) ∧ s1 = s) ∨
    (∃ h', s.hashTable.remove (d.file, d.pageNo) = some h' ∧ o = some (.ok d.frameNo) ∧
      s1 = { s with hashTable := h', bufDescTable := s.bufDescTable.set s.clockHand d.Clear }) := by
  unfold BufMgr.allocBufEvict at h
  split at h
  · cases h; exact Or.inl ⟨rfl, rfl⟩
  · next h' hr => cases h; exact Or.inr ⟨h', hr, rfl, rfl⟩

theorem BufMgr.allocBufIter_none {s s1 : BufMgr} {st : PageStore}
    (h : s.allocBufIter st = (s1, none)) :
    ∃ d, s.bufDescTable[s.clockHand]? = some d ∧ d.valid = true ∧
      ((d.refbit = true ∧ s1 = BufMgr.advanceClock
          { s with bufDescTable := s.bufDescTable.set s.clockHand { d with refbit := false } }) ∨
       (d.refbit = false ∧ 0 < d.pinCnt ∧ s1 = s.advanceClock)) := by
  unfold BufMgr.allocBufIter at h
  split at h
  · cases h
  · next d hd =>
    refine ⟨d, hd, ?_⟩
    by_cases hv : d.valid = false
    · rw [if_pos hv] at h; cases h
    · rw [if_neg hv] at h
      have hv' : d.valid = true := by simpa using hv
      refine ⟨hv', ?_⟩
      by_cases hr : d.refbit = true
      · rw [if_pos hr] at h; cases h; exact Or.inl ⟨hr, rfl⟩
      · rw [if_neg hr] at h
        have hr' : d.refbit = false := by simpa using hr
        by_cases hp : d.pinCnt > 0
        · rw [if_pos hp] at h; cases h; exact Or.inr ⟨hr', hp, rfl⟩
        · rw [if_neg hp] at h
          exfalso
          by_cases hdirty : d.dirty = true
          · rw [if_pos hdirty] at h
            split at h
            · split at h
              · rcases BufMgr.allocBufEvict_spec h with ⟨ho, _⟩ | ⟨_, _, ho, _⟩ <;> cases ho
              · cases h
            · cases h
          · rw [if_neg hdirty] at h
            rcases BufMgr.allocBufEvict_spec h with ⟨ho, _⟩ | ⟨_, _, ho, _⟩ <;> cases ho

theorem BufMgr.allocBufIter_some {s s1 : BufMgr} {st : PageStore} {r : Except Exn FrameId}
    (h : s.allocBufIter st = (s1, some r)) :
    (s.bufDescTable[s.clockHand]? = none ∧ s1 = s ∧ r = .error .Undefined) ∨
    ∃ d, s.bufDescTable[s.clockHand]? = some d ∧
      ((d.valid = false ∧ s1 = s ∧ r = .ok d.frameNo) ∨
       (d.valid = true ∧ d.refbit = false ∧ d.pinCnt ≤ 0 ∧
         ∃ t, (t = s.trace ∨ ∃ f pg, t = s.trace ++ [.writePage f pg]) ∧
          ((∃ e, r = .error e ∧ s1 = { s with trace := t }) ∨
           (∃ h', s.hashTable.remove (d.file, d.pageNo) = some h' ∧ r = .ok d.frameNo ∧
              s1 = { s with trace := t, hashTable := h',
                            bufDescTable := s.bufDescTable.set s.clockHand d.Clear })))) := by
  unfold BufMgr.allocBufIter at h
  split at h
  · next hd => cases h; exact Or.inl ⟨hd, rfl, rfl⟩
  · next d hd =>
    refine Or.inr ⟨d, hd, ?_⟩
    by_cases hv : d.valid = false
    · rw [if_pos hv] at h; cases h; exact Or.inl ⟨hv, rfl, rfl⟩
    · rw [if_neg hv] at h
      have hv' : d.valid = true := by simpa using hv
      by_cases hr : d.refbit = true
      · rw [if_pos hr] at h; cases h
      · rw [if_neg hr] at h
        have hr' : d.refbit = false := by simpa using hr
        by_cases hp : d.pinCnt > 0
        · rw [if_pos hp] at h; cases h
        · rw [if_neg hp] at h
          refine Or.inr ⟨hv', hr', not_lt.1 hp, ?_⟩
          by_cases hdirty : d.dirty = true
          · rw [if_pos hdirty] at h
            split at h
            · next f pg _ _ =>
              split at h
              · refine ⟨s.trace ++ [.writePage f pg], Or.inr ⟨f, pg, rfl⟩, ?_⟩
                rcases BufMgr.allocBufEvict_spec h with ⟨ho, hs1⟩ | ⟨h', hrm, ho, hs1⟩
                · cases ho; exact Or.inl ⟨_, rfl, hs1⟩
                · cases ho; exact Or.inr ⟨h', hrm, rfl, hs1⟩
              · cases h
                exact ⟨s.trace ++ [.writePage f pg], Or.inr ⟨f, pg, rfl⟩, Or.inl ⟨_, rfl, rfl⟩⟩
            · cases h; exact ⟨s.trace, Or.inl rfl, Or.inl ⟨_, rfl, rfl⟩⟩
          · rw [if_neg hdirty] at h
            refine ⟨s.trace, Or.inl rfl, ?_⟩
            rcases BufMgr.allocBufEvict_spec h with ⟨ho, hs1⟩ | ⟨h', hrm, ho, hs1⟩
            · cases ho; exact Or.inl ⟨_, rfl, hs1⟩
            · cases ho; exact Or.inr ⟨h', hrm, rfl, hs1⟩

theorem BufMgr.allocBufLoop_rule (st : PageStore) (Q : BufMgr → Prop)
    (R : BufMgr → Except Exn FrameId → Prop)
    (hnone : ∀ s s1, Q s → s.allocBufIter st = (s1, none) → Q s1)
    (hsome : ∀ s s1 r, Q s → s.allocBufIter st = (s1, some r) → R s1 r)
    (hexc : ∀ s, Q s → R s (.error .BufferExceededException)) :
    ∀ n s, Q s → R (BufMgr.allocBufLoop st n s).1 (BufMgr.allocBufLoop st n s).2 := by
  intro n
  induction n with
  | zero => intro s hs; exact hexc s hs
  | succ n ih =>
    intro s hs
    unfold BufMgr.allocBufLoop
    cases hit : s.allocBufIter st with
    | mk s1 o =>
      cases o with
      | none => exact ih s1 (hnone s s1 hs hit)
      | some r => exact hsome s s1 r hs hit


theorem BufMgr.advanceClock_lt (s : BufMgr) (h : 0 < s.numBufs) :
    s.advanceClock.clockHand < s.numBufs := by
  simp only [BufMgr.advanceClock]; exact Nat.mod_lt _ h

theorem BufMgr.Inv.inv_allocBufIter_none {s s1 : BufMgr} {st : PageStore} (hs : s.Inv)
    (h : s.allocBufIter st = (s1, none)) : s1.Inv := by
  obtain ⟨d, hd, hv, ⟨hr, rfl⟩ | ⟨hr, hp, rfl⟩⟩ := BufMgr.allocBufIter_none h
  · exact hs.inv_set_desc hd rfl rfl rfl rfl rfl (hs.pin_nonneg _ d hd) (hs.pin_valid _ d hd) rfl rfl rfl
      (fun h0 => Nat.mod_lt _ h0)
  · exact hs.inv_frame rfl rfl rfl rfl (fun h0 => Nat.mod_lt _ h0)

theorem BufMgr.Inv.inv_allocBufIter_some {s s1 : BufMgr} {st : PageStore} {r : Except Exn FrameId}
    (hs : s.Inv) (h : s.allocBufIter st = (s1, some r)) : s1.Inv ∧ s1.Selected r := by
  rcases BufMgr.allocBufIter_some h with ⟨_, rfl, rfl⟩ | ⟨d, hd, h2⟩
  · exact ⟨hs, fun f hf => by cases hf⟩
  · rcases h2 with ⟨hv, rfl, rfl⟩ | ⟨hv, hr, hp, t, _, h3⟩
    · refine ⟨hs, fun f hf => ?_⟩
      cases hf
      have := hs.frameNo _ _ hd
      rw [this]; exact ⟨rfl, d, hd, hv⟩
    · rcases h3 with ⟨e, rfl, rfl⟩ | ⟨h', hrm, rfl, rfl⟩
      · exact ⟨hs.inv_frame rfl rfl rfl rfl hs.hand, fun f hf => by cases hf⟩
      · refine ⟨hs.inv_evict hd hrm rfl rfl rfl rfl hs.hand, fun f hf => ?_⟩
        cases hf
        have hlt : s.clockHand < s.bufDescTable.length := by
          rcases List.getElem?_eq_some.1 hd with ⟨h, _⟩; exact h
        have := hs.frameNo _ _ hd
        rw [this]
        refine ⟨rfl, d.Clear, ?_, rfl⟩
        simp [List.getElem?_set, hlt]

theorem BufMgr.Inv.inv_allocBuf {s : BufMgr} (st : PageStore) (hs : s.Inv) :
    (s.allocBuf st).1.Inv ∧ (s.allocBuf st).1.Selected (s.allocBuf st).2 :=
  BufMgr.allocBufLoop_rule st BufMgr.Inv (fun s r => s.Inv ∧ s.Selected r)
    (fun _ _ hs h => hs.inv_allocBufIter_none h) (fun _ _ _ hs h => hs.inv_allocBufIter_some h)
    (fun _ hs => ⟨hs, fun f hf => by cases hf⟩) _ s hs


theorem BufMgr.install_spec {s s2 : BufMgr} {file : File} {pageNo : PageId} {fid : FrameId}
    {pg : Page} (h : s.install file pageNo fid pg = some s2) :
    ∃ d, s.bufDescTable[fid]? = some d ∧ fid < s.bufPool.length ∧
      s2 = { s with bufPool := s.bufPool.set fid pg,
                    hashTable := s.hashTable.insert (some file, pageNo) fid,
                    bufDescTable := s.bufDescTable.set fid (d.Set (some file) pageNo) } := by
  unfold BufMgr.install at h
  split at h
  · next p d hp hd =>
    cases h
    refine ⟨d, hd, ?_, rfl⟩
    rcases List.getElem?_eq_some.1 hp with ⟨h, _⟩; exact h
  · cases h

theorem BufMgr.Inv.inv_install_some {s s2 : BufMgr} {file : File} {pageNo : PageId} {fid : FrameId}
    {pg : Page} (hs : s.Inv) (hsel : ∃ d, s.bufDescTable[fid]? = some d ∧ d.valid = false)
    (h : s.install file pageNo fid pg = some s2) : s2.Inv := by
  obtain ⟨d, hd, _, rfl⟩ := BufMgr.install_spec h
  obtain ⟨d0, hd0, hv⟩ := hsel
  rw [hd] at hd0; cases hd0
  exact hs.inv_install (some file) pageNo pg hd hv rfl rfl rfl rfl hs.hand

theorem BufMgr.install_isSome {s : BufMgr} (hs : s.Inv) {fid : FrameId}
    (hsel : ∃ d, s.bufDescTable[fid]? = some d ∧ d.valid = false)
    (file : File) (pageNo : PageId) (pg : Page) :
    ∃ s2, s.install file pageNo fid pg = some s2 := by
  obtain ⟨d, hd, _⟩ := hsel
  have hlt : fid < s.bufDescTable.length := by
    rcases List.getElem?_eq_some.1 hd with ⟨h, _⟩; exact h
  have hlp : fid < s.bufPool.length := by rw [hs.len_pool, ← hs.len_table]; exact hlt
  unfold BufMgr.install
  rw [hd, List.getElem?_eq_getElem hlp]
  exact ⟨_, rfl⟩


theorem BufMgr.readPage_hit {s : BufMgr} (st : PageStore) {file : File} {pageNo : PageId}
    {fid : FrameId} {d : BufDesc} (hl : s.hashTable.lookup (some file, pageNo) = some fid)
    (hd : s.bufDescTable[fid]? = some d) :
    s.readPage st file pageNo =
      ({ s with bufDescTable :=
          s.bufDescTable.set fid ({ d with refbit := true, pinCnt := d.pinCnt + 1 }) }, .ok fid) := by
  unfold BufMgr.readPage
  rw [hl]; simp only [hd]

theorem BufMgr.readPage_miss {s : BufMgr} (st : PageStore) {file : File} {pageNo : PageId}
    (hl : s.hashTable.lookup (some file, pageNo) = none) :
    s.readPage st file pageNo = s.readPageMiss st file pageNo := by
  unfold BufMgr.readPage
  rw [hl]

theorem BufMgr.Inv.inv_readPageMiss {s : BufMgr} (hs : s.Inv) (st : PageStore) (file : File)
    (pageNo : PageId) : (s.readPageMiss st file pageNo).1.Inv := by
  obtain ⟨h1, h2⟩ := hs.inv_allocBuf st
  unfold BufMgr.readPageMiss
  cases hab : s.allocBuf st with
  | mk s1 r =>
    rw [hab] at h1 h2
    cases r with
    | error e => exact h1
    | ok fid =>
      have h1' : BufMgr.Inv { s1 with trace := s1.trace ++ [.readPage file pageNo] } :=
        h1.inv_frame rfl rfl rfl rfl h1.hand
      cases hrd : st.readPage file pageNo with
      | none => exact h1'
      | some pg =>
        simp only
        cases hin : BufMgr.install { s1 with trace := s1.trace ++ [.readPage file pageNo] }
            file pageNo fid pg with
        | none => exact h1'
        | some s2 => exact h1'.inv_install_some (h2 fid rfl).2 hin

theorem BufMgr.Inv.inv_readPage {s : BufMgr} (hs : s.Inv) (st : PageStore) (file : File)
    (pageNo : PageId) : (s.readPage st file pageNo).1.Inv := by
  cases hl : s.hashTable.lookup (some file, pageNo) with
  | some fid =>
    obtain ⟨d, hd, hv, _⟩ := hs.index_sound _ _ hl
    rw [BufMgr.readPage_hit st hl hd]
    have h0 := hs.pin_nonneg _ d hd
    exact hs.inv_set_desc hd rfl rfl rfl rfl rfl (by show 0 ≤ d.pinCnt + 1; omega) (fun _ => hv)
      rfl rfl rfl hs.hand
  | none =>
    rw [BufMgr.readPage_miss st hl]
    exact hs.inv_readPageMiss st file pageNo


theorem BufMgr.Inv.inv_unPinPage {s : BufMgr} (hs : s.Inv) (file : File) (pageNo : PageId)
    (dirty : Bool) : (s.unPinPage file pageNo dirty).1.Inv := by
  unfold BufMgr.unPinPage
  split
  · exact hs
  · next fid hl =>
    split
    · exact hs
    · next d hd =>
      split
      · exact hs
      · next hp =>
        have hv : d.valid = true := hs.pin_valid _ d hd (by omega)
        exact hs.inv_set_desc hd rfl rfl rfl rfl rfl (by show 0 ≤ d.pinCnt - 1; omega)
          (fun _ => hv) rfl rfl rfl hs.hand

theorem BufMgr.Inv.inv_disposePage {s : BufMgr} (hs : s.Inv) (st : PageStore) (file : File)
    (PageNo : PageId) : (s.disposePage st file PageNo).1.Inv := by
  unfold BufMgr.disposePage
  split
  · exact hs
  · next frameNo hl =>
    split
    · exact hs
    · next d hd =>
      obtain ⟨d0, hd0, _, hk⟩ := hs.index_sound _ _ hl
      rw [hd] at hd0; cases hd0
      split
      · next hr =>
        rw [BufHashTbl.remove_eq_none, hl] at hr; cases hr
      · next h hr =>
        rw [← hk] at hr
        split
        · exact hs.inv_evict hd hr rfl rfl rfl rfl hs.hand
        · exact hs.inv_evict hd hr rfl rfl rfl rfl hs.hand

theorem BufMgr.Inv.inv_allocPage {s : BufMgr} (hs : s.Inv) (st : PageStore) (file : File) :
    (s.allocPage st file).1.Inv := by
  have hs0 : BufMgr.Inv { s with trace := s.trace ++ [.allocatePage file] } :=
    hs.inv_frame rfl rfl rfl rfl hs.hand
  obtain ⟨h1, h2⟩ := hs0.inv_allocBuf st
  unfold BufMgr.allocPage
  split
  · exact hs0
  · next new_page _ =>
    split
    · next s1 e hab => rw [hab] at h1; exact h1
    · next s1 fid hab =>
      rw [hab] at h1 h2
      split
      · exact h1
      · next s2 hin => exact h1.inv_install_some (h2 fid rfl).2 hin


theorem BufMgr.flushFileClear_spec {s s1 : BufMgr} {i : Nat} {d : BufDesc} {o : Option Exn}
    (h : s.flushFileClear i d = (s1, o)) :
    (o = some .HashNotFoundException ∧ s1 = s ∧ s.hashTable.remove (d.file, d.pageNo) = none) ∨
    (∃ h', s.hashTable.remove (d.file, d.pageNo) = some h' ∧ o = none ∧
      s1 = { s with hashTable := h', bufDescTable := s.bufDescTable.set i d.Clear }) := by
  unfold BufMgr.flushFileClear at h
  split at h
  · next hr => cases h; exact Or.inl ⟨rfl, rfl, hr⟩
  · next h' hr => cases h; exact Or.inr ⟨h', hr, rfl, rfl⟩

/-- What one iteration of the loop of `flushFile` that goes on has done. -/
theorem BufMgr.flushFileIter_none {s s1 : BufMgr} {st : PageStore} {file : FilePtr} {i : Nat}
    (h : s.flushFileIter st file i = (s1, none)) :
    ∃ d, s.bufDescTable[i]? = some d ∧
      ((d.file ≠ file ∧ s1 = s) ∨
       (d.file = file ∧ d.pinCnt ≤ 0 ∧ d.valid = true ∧
         ∃ h' t, s.hashTable.remove (d.file, d.pageNo) = some h' ∧
           ((d.dirty = false ∧ t = s.trace) ∨
            (d.dirty = true ∧ ∃ f pg, d.file = some f ∧ s.bufPool[i]? = some pg ∧
              st.writePage f pg = true ∧ t = s.trace ++ [.writePage f pg])) ∧
           s1 = { s with trace := t, hashTable := h',
                         bufDescTable := s.bufDescTable.set i d.Clear })) := by
  unfold BufMgr.flushFileIter at h
  split at h
  · cases h
  · next d hd =>
    refine ⟨d, hd, ?_⟩
    by_cases hf : d.file = file
    · rw [if_pos hf] at h
      by_cases hp : d.pinCnt > 0
      · rw [if_pos hp] at h
        split at h <;> cases h
      · rw [if_neg hp] at h
        by_cases hv : d.valid = false
        · rw [if_pos hv] at h; cases h
        · rw [if_neg hv] at h
          have hv' : d.valid = true := by simpa using hv
          refine Or.inr ⟨hf, not_lt.1 hp, hv', ?_⟩
          by_cases hdirty : d.dirty = true
          · rw [if_pos hdirty] at h
            split at h
            · next f pg hdf hpg =>
              split at h
              · next hw =>
                rcases BufMgr.flushFileClear_spec h with ⟨ho, _, _⟩ | ⟨h', hrm, _, hs1⟩
                · cases ho
                · refine ⟨h', s.trace ++ [.writePage f pg], hrm,
                    Or.inr ⟨hdirty, f, pg, hdf, hpg, hw, rfl⟩, ?_⟩
                  rw [hs1]
                  simp only [List.set_set]
                  rfl
              · cases h
            · cases h
          · rw [if_neg hdirty] at h
            have hdirty' : d.dirty = false := by simpa using hdirty
            rcases BufMgr.flushFileClear_spec h with ⟨ho, _, _⟩ | ⟨h', hrm, _, hs1⟩
            · cases ho
            · exact ⟨h', s.trace, hrm, Or.inl ⟨hdirty', rfl⟩, hs1⟩
    · rw [if_neg hf] at h; cases h; exact Or.inl ⟨hf, rfl⟩

/-- What one iteration of the loop of `flushFile` that throws has done: nothing
but a write to the page store, or the reset of the dirty bit of frame `i` when
its index entry is missing. -/
theorem BufMgr.flushFileIter_some {s s1 : BufMgr} {st : PageStore} {file : FilePtr} {i : Nat}
    {e : Exn} (h : s.flushFileIter st file i = (s1, some e)) :
    s1.numBufs = s.numBufs ∧ s1.bufPool = s.bufPool ∧ s1.hashTable = s.hashTable ∧
    s1.clockHand = s.clockHand ∧
    (s1.bufDescTable = s.bufDescTable ∨
      ∃ d, s.bufDescTable[i]? = some d ∧ d.valid = true ∧ d.pinCnt ≤ 0 ∧
        s.hashTable.remove (d.file, d.pageNo) = none ∧
        s1.bufDescTable = s.bufDescTable.set i { d with dirty := false }) := by
  unfold BufMgr.flushFileIter at h
  split at h
  · cases h; exact ⟨rfl, rfl, rfl, rfl, Or.inl rfl⟩
  · next d hd =>
    by_cases hf : d.file = file
    · rw [if_pos hf] at h
      by_cases hp : d.pinCnt > 0
      · rw [if_pos hp] at h
        split at h <;> cases h <;> exact ⟨rfl, rfl, rfl, rfl, Or.inl rfl⟩
      · rw [if_neg hp] at h
        by_cases hv : d.valid = false
        · rw [if_pos hv] at h; cases h; exact ⟨rfl, rfl, rfl, rfl, Or.inl rfl⟩
        · rw [if_neg hv] at h
          have hv' : d.valid = true := by simpa using hv
          by_cases hdirty : d.dirty = true
          · rw [if_pos hdirty] at h
            split at h
            · next f pg hdf hpg =>
              split at h
              · rcases BufMgr.flushFileClear_spec h with ⟨_, hs1, hrm⟩ | ⟨h', _, ho, _⟩
                · rw [hs1]
                  exact ⟨rfl, rfl, rfl, rfl, Or.inr ⟨d, hd, hv', not_lt.1 hp, hrm, rfl⟩⟩
                · cases ho
              · cases h; exact ⟨rfl, rfl, rfl, rfl, Or.inl rfl⟩
            · cases h; exact ⟨rfl, rfl, rfl, rfl, Or.inl rfl⟩
          · rw [if_neg hdirty] at h
            rcases BufMgr.flushFileClear_spec h with ⟨_, hs1, _⟩ | ⟨h', _, ho, _⟩
            · rw [hs1]; exact ⟨rfl, rfl, rfl, rfl, Or.inl rfl⟩
            · cases ho
    · rw [if_neg hf] at h; cases h

theorem BufMgr.flushFileLoop_rule (st : PageStore) (file : FilePtr) (Q : BufMgr → Prop)
    (hnone : ∀ s s1 i, Q s → s.flushFileIter st file i = (s1, none) → Q s1)
    (hsome : ∀ s s1 i e, Q s → s.flushFileIter st file i = (s1, some e) → Q s1) :
    ∀ n i s, Q s → Q (BufMgr.flushFileLoop st file n i s).1 := by
  intro n
  induction n with
  | zero => intro i s hs; exact hs
  | succ n ih =>
    intro i s hs
    unfold BufMgr.flushFileLoop
    cases hit : s.flushFileIter st file i with
    | mk s1 o =>
      cases o with
      | none => exact ih (i + 1) s1 (hnone s s1 i hs hit)
      | some e => exact hsome s s1 i e hs hit


theorem BufMgr.Inv.inv_flushFileIter {s s1 : BufMgr} {st : PageStore} {file : FilePtr} {i : Nat}
    {o : Option Exn} (hs : s.Inv) (h : s.flushFileIter st file i = (s1, o)) : s1.Inv := by
  cases o with
  | none =>
    obtain ⟨d, hd, ⟨_, rfl⟩ | ⟨_, _, _, h', t, hrm, _, rfl⟩⟩ := BufMgr.flushFileIter_none h
    · exact hs
    · exact hs.inv_evict hd hrm rfl rfl rfl rfl hs.hand
  | some e =>
    obtain ⟨en, ep, eh, ec, et | ⟨d, hd, hv, hp, _, et⟩⟩ := BufMgr.flushFileIter_some h
    · exact hs.inv_frame en et (by rw [ep]) eh (by rw [ec]; exact hs.hand)
    · exact hs.inv_set_desc hd et rfl rfl rfl rfl (hs.pin_nonneg _ d hd) (fun _ => hv) en
        (by rw [ep]) eh (by rw [ec]; exact hs.hand)

theorem BufMgr.Inv.inv_flushFile {s : BufMgr} (hs : s.Inv) (st : PageStore) (file : FilePtr) :
    (s.flushFile st file).1.Inv :=
  BufMgr.flushFileLoop_rule st file BufMgr.Inv (fun _ _ _ hs h => hs.inv_flushFileIter h)
    (fun _ _ _ _ hs h => hs.inv_flushFileIter h) _ _ s hs

theorem BufMgr.Inv.inv_step {s : BufMgr} (hs : s.Inv) (op : Op) : (s.step op).Inv := by
  cases op with
  | readPage st file pageNo => exact hs.inv_readPage st file pageNo
  | unPinPage file pageNo dirty => exact hs.inv_unPinPage file pageNo dirty
  | allocPage st file => exact hs.inv_allocPage st file
  | disposePage st file PageNo => exact hs.inv_disposePage st file PageNo
  | flushFile st file => exact hs.inv_flushFile st file

theorem Reachable.inv {bufs : Nat} {s : BufMgr} (h : Reachable bufs s) : s.Inv := by
  induction h with
  | init => exact BufMgr.Inv.inv_construct bufs
  | step _ op ih => exact ih.inv_step op

theorem Reachable.run {bufs : Nat} {s : BufMgr} (h : Reachable bufs s) (ops : List Op) :
    Reachable bufs (s.run ops) := by
  induction ops generalizing s with
  | nil => exact h
  | cons op ops ih => exact ih (h.step op)

theorem BufMgr.allPinned_set {l : List BufDesc} {i : Nat} {d' : BufDesc}
    (hall : ∀ e ∈ l, e.valid = true ∧ 0 < e.pinCnt) (hv : d'.valid = true) (hp : 0 < d'.pinCnt) :
    ∀ e ∈ l.set i d', e.valid = true ∧ 0 < e.pinCnt := by
  intro e he
  rcases List.mem_or_eq_of_mem_set he with h | h
  · exact hall e h
  · rw [h]; exact ⟨hv, hp⟩

theorem BufMgr.allocBufLoop_allPinned (st : PageStore) (n : Nat) (s : BufMgr)
    (hlen : s.bufDescTable.length = s.numBufs) (hhand : s.clockHand < s.numBufs)
    (hall : ∀ d ∈ s.bufDescTable, d.valid = true ∧ 0 < d.pinCnt) :
    (BufMgr.allocBufLoop st n s).2 = .error .BufferExceededException := by
  refine BufMgr.allocBufLoop_rule st
    (fun t => t.bufDescTable.length = t.numBufs ∧ t.clockHand < t.numBufs ∧
      ∀ d ∈ t.bufDescTable, d.valid = true ∧ 0 < d.pinCnt)
    (fun _ r => r = .error .BufferExceededException) ?_ ?_ ?_ n s ⟨hlen, hhand, hall⟩
  · rintro t t1 ⟨h1, h2, h3⟩ hit
    obtain ⟨d, hd, hv, ⟨hr, rfl⟩ | ⟨hr, hp, rfl⟩⟩ := BufMgr.allocBufIter_none hit
    · refine ⟨by simpa [BufMgr.advanceClock] using h1, ?_, ?_⟩
      · exact Nat.mod_lt _ (show 0 < t.numBufs by omega)
      · exact BufMgr.allPinned_set h3 hv (h3 d (List.getElem?_mem hd)).2
    · exact ⟨h1, Nat.mod_lt _ (show 0 < t.numBufs by omega), h3⟩
  · rintro t t1 r ⟨h1, h2, h3⟩ hit
    rcases BufMgr.allocBufIter_some hit with ⟨hn, _, _⟩ | ⟨d, hd, h4⟩
    · rw [List.getElem?_eq_none_iff] at hn; omega
    · have hd' := h3 d (List.getElem?_mem hd)
      rcases h4 with ⟨hv, _, _⟩ | ⟨_, _, hp, _⟩
      · rw [hd'.1] at hv; cases hv
      · omega
  · intro t _; rfl


theorem BufMgr.allocBufLastIter_spec (st : PageStore) (n : Nat) (s s' : BufMgr) (f : FrameId)
    (h : BufMgr.allocBufLoop st n s = (s', .ok f)) :
    (BufMgr.allocBufLastIter st n s).allocBufIter st = (s', some (.ok f)) := by
  induction n generalizing s with
  | zero => unfold BufMgr.allocBufLoop at h; cases h
  | succ n ih =>
    unfold BufMgr.allocBufLoop at h
    unfold BufMgr.allocBufLastIter
    cases hit : s.allocBufIter st with
    | mk s1 o =>
      rw [hit] at h
      cases o with
      | none => exact ih s1 h
      | some r =>
        simp only at h ⊢
        cases h
        exact hit

theorem BufMgr.allocBufLastIter_rule (st : PageStore) (Q : BufMgr → Prop)
    (hnone : ∀ s s1, Q s → s.allocBufIter st = (s1, none) → Q s1) :
    ∀ n s, Q s → Q (BufMgr.allocBufLastIter st n s) := by
  intro n
  induction n with
  | zero => intro s hs; exact hs
  | succ n ih =>
    intro s hs
    unfold BufMgr.allocBufLastIter
    cases hit : s.allocBufIter st with
    | mk s1 o =>
      cases o with
      | none => exact ih s1 (hnone s s1 hs hit)
      | some r => exact hs

/-- What the sweep of `allocBuf` does to the descriptors and to the index: a
descriptor is left alone, or loses its reference bit, or (only when it is
valid, unpinned and under the hand at the end) is cleared; the index loses
entries at most. -/
theorem BufMgr.allocBufLoop_rel (st : PageStore) (n : Nat) (s : BufMgr) :
    (BufMgr.allocBufLoop st n s).1.numBufs = s.numBufs ∧
    (BufMgr.allocBufLoop st n s).1.bufPool = s.bufPool ∧
    (∀ k g, (BufMgr.allocBufLoop st n s).1.hashTable.lookup k = some g →
      s.hashTable.lookup k = some g) ∧
    (∀ (j : Nat) (d : BufDesc), s.bufDescTable[j]? = some d →
      ∃ d', (BufMgr.allocBufLoop st n s).1.bufDescTable[j]? = some d' ∧
        ((d' = d ∨ d' = { d with refbit := false }) ∨
          (d.valid = true ∧ d.pinCnt ≤ 0 ∧ d' = d.Clear))) := by
  have key := BufMgr.allocBufLoop_rule st
    (fun t => t.numBufs = s.numBufs ∧ t.bufPool = s.bufPool ∧ t.hashTable = s.hashTable ∧
      ∀ (j : Nat) (d : BufDesc), s.bufDescTable[j]? = some d →
        ∃ d', t.bufDescTable[j]? = some d' ∧ (d' = d ∨ d' = { d with refbit := false }))
    (fun t _ => t.numBufs = s.numBufs ∧ t.bufPool = s.bufPool ∧
      (∀ k g, t.hashTable.lookup k = some g → s.hashTable.lookup k = some g) ∧
      ∀ (j : Nat) (d : BufDesc), s.bufDescTable[j]? = some d →
        ∃ d', t.bufDescTable[j]? = some d' ∧
          ((d' = d ∨ d' = { d with refbit := false }) ∨
            (d.valid = true ∧ d.pinCnt ≤ 0 ∧ d' = d.Clear)))
    ?_ ?_ ?_ n s ⟨rfl, rfl, rfl, fun j d hd => ⟨d, hd, Or.inl rfl⟩⟩
  · exact key
  · rintro t t1 ⟨h1, h2, h3, h4⟩ hit
    obtain ⟨e, he, hv, ⟨hr, rfl⟩ | ⟨hr, hp, rfl⟩⟩ := BufMgr.allocBufIter_none hit
    · refine ⟨h1, h2, h3, fun j d hd => ?_⟩
      obtain ⟨d', hd', hrel⟩ := h4 j d hd
      by_cases hj : t.clockHand = j
      · subst hj
        have hlt : t.clockHand < t.bufDescTable.length := by
          rcases List.getElem?_eq_some.1 he with ⟨h, _⟩; exact h
        rw [he] at hd'; cases hd'
        refine ⟨{ e with refbit := false }, ?_, ?_⟩
        · show (t.bufDescTable.set t.clockHand { e with refbit := false })[t.clockHand]? = _
          simp only [List.getElem?_set, hlt, if_true]
        · rcases hrel with rfl | rfl
          · exact Or.inr rfl
          · exact Or.inr rfl
      · refine ⟨d', ?_, hrel⟩
        show (t.bufDescTable.set t.clockHand { e with refbit := false })[j]? = _
        rw [List.getElem?_set_ne hj]; exact hd'
    · exact ⟨h1, h2, h3, h4⟩
  · rintro t t1 r ⟨h1, h2, h3, h4⟩ hit
    rcases BufMgr.allocBufIter_some hit with ⟨_, rfl, _⟩ | ⟨e, he, h5⟩
    · exact ⟨h1, h2, fun k g h => h3 ▸ h, fun j d hd =>
        (h4 j d hd).imp fun d' h => ⟨h.1, Or.inl h.2⟩⟩
    · rcases h5 with ⟨_, rfl, _⟩ | ⟨hv, hr, hp, tr, _, h6⟩
      · exact ⟨h1, h2, fun k g h => h3 ▸ h, fun j d hd =>
          (h4 j d hd).imp fun d' h => ⟨h.1, Or.inl h.2⟩⟩
      · rcases h6 with ⟨_, _, rfl⟩ | ⟨h', hrm, _, rfl⟩
        · exact ⟨h1, h2, fun k g h => h3 ▸ h, fun j d hd =>
            (h4 j d hd).imp fun d' h => ⟨h.1, Or.inl h.2⟩⟩
        · refine ⟨h1, h2, ?_, fun j d hd => ?_⟩
          · intro k g hk
            have hk' : h'.lookup k = some g := hk
            rw [BufHashTbl.lookup_remove hrm] at hk'
            by_cases hkk : k = (e.file, e.pageNo)
            · rw [if_pos hkk] at hk'; cases hk'
            · rw [if_neg hkk] at hk'; rw [← h3]; exact hk'
          · obtain ⟨d', hd', hrel⟩ := h4 j d hd
            by_cases hj : t.clockHand = j
            · subst hj
              have hlt : t.clockHand < t.bufDescTable.length := by
                rcases List.getElem?_eq_some.1 he with ⟨h, _⟩; exact h
              rw [he] at hd'; cases hd'
              refine ⟨e.Clear, ?_, Or.inr ?_⟩
              · show (t.bufDescTable.set t.clockHand e.Clear)[t.clockHand]? = _
                simp only [List.getElem?_set, hlt, if_true]
              · rcases hrel with rfl | rfl
                · exact ⟨hv, hp, rfl⟩
                · exact ⟨hv, hp, rfl⟩
            · refine ⟨d', ?_, Or.inl hrel⟩
              show (t.bufDescTable.set t.clockHand e.Clear)[j]? = _
              rw [List.getElem?_set_ne hj]; exact hd'
  · rintro t ⟨h1, h2, h3, h4⟩
    exact ⟨h1, h2, fun k g h => h3 ▸ h, fun j d hd =>
      (h4 j d hd).imp fun d' h => ⟨h.1, Or.inl h.2⟩⟩


theorem BufHashTbl.nodup_filter (l : List (Key × FrameId)) (k : Key)
    (h : (l.map Prod.fst).Nodup) :
    ((l.filter (fun e => decide (e.1 ≠ k))).map Prod.fst).Nodup :=
  h.sublist ((List.filter_sublist l).map Prod.fst)

theorem BufHashTbl.nodup_insert (h : BufHashTbl) (k : Key) (v : FrameId)
    (hn : (h.entries.map Prod.fst).Nodup) : ((h.insert k v).entries.map Prod.fst).Nodup := by
  unfold BufHashTbl.insert
  simp only [List.map_cons, List.nodup_cons]
  refine ⟨?_, BufHashTbl.nodup_filter _ k hn⟩
  intro hmem
  rw [List.mem_map] at hmem
  obtain ⟨e, he, hek⟩ := hmem
  rw [List.mem_filter] at he
  simpa [hek] using he.2

theorem BufHashTbl.nodup_remove {h h' : BufHashTbl} {k : Key} (hr : h.remove k = some h')
    (hn : (h.entries.map Prod.fst).Nodup) : (h'.entries.map Prod.fst).Nodup := by
  unfold BufHashTbl.remove at hr
  split at hr
  · cases hr
  · cases hr; exact BufHashTbl.nodup_filter _ k hn

theorem BufHashTbl.lookup_of_mem (h : BufHashTbl) (hn : (h.entries.map Prod.fst).Nodup)
    (e : Key × FrameId) (he : e ∈ h.entries) : h.lookup e.1 = some e.2 := by
  unfold BufHashTbl.lookup
  cases h with
  | mk l =>
    simp only at hn he ⊢
    induction l with
    | nil => cases he
    | cons a t ih =>
      simp only [List.map_cons, List.nodup_cons] at hn
      rw [List.find?_cons]
      rcases List.mem_cons.1 he with rfl | hmem
      · simp
      · have hne : a.1 ≠ e.1 := by
          intro heq
          exact hn.1 (heq ▸ List.mem_map_of_mem Prod.fst hmem)
        have hd : decide (a.1 = e.1) = false := by simpa using hne
        rw [hd]
        exact ih hn.2 hmem

theorem BufMgr.Idx.idx_frame {s s' : BufMgr} (hx : s.Idx)
    (et : s'.bufDescTable = s.bufDescTable) (eh : s'.hashTable = s.hashTable) : s'.Idx :=
  ⟨by rw [et, eh]; exact hx.indexed, by rw [eh]; exact hx.nodup⟩

theorem BufMgr.Idx.idx_set_desc {s s' : BufMgr} (hx : s.Idx) {i : Nat} {d d' : BufDesc}
    (hi : s.bufDescTable[i]? = some d) (et : s'.bufDescTable = s.bufDescTable.set i d')
    (hv : d'.valid = d.valid) (hfile : d'.file = d.file) (hp : d'.pageNo = d.pageNo)
    (eh : s'.hashTable = s.hashTable) : s'.Idx := by
  have hlt : i < s.bufDescTable.length := by
    rcases List.getElem?_eq_some.1 hi with ⟨h, _⟩; exact h
  refine ⟨fun j e he hev => ?_, by rw [eh]; exact hx.nodup⟩
  rw [et, List.getElem?_set] at he
  rw [eh]
  by_cases hji : i = j
  · subst hji
    simp [hlt] at he
    subst he
    rw [hfile, hp]
    exact hx.indexed _ d hi (hv ▸ hev)
  · simp [hji] at he
    exact hx.indexed _ e he hev

theorem BufMgr.Idx.idx_evict {s s' : BufMgr} (hx : s.Idx) {i : Nat} {d : BufDesc}
    {h : BufHashTbl} (hi : s.bufDescTable[i]? = some d) (hdv : d.valid = true)
    (hr : s.hashTable.remove (d.file, d.pageNo) = some h)
    (et : s'.bufDescTable = s.bufDescTable.set i d.Clear) (eh : s'.hashTable = h) :
    s'.Idx := by
  have hlt : i < s.bufDescTable.length := by
    rcases List.getElem?_eq_some.1 hi with ⟨h, _⟩; exact h
  refine ⟨fun j e he hev => ?_, by rw [eh]; exact BufHashTbl.nodup_remove hr hx.nodup⟩
  rw [et, List.getElem?_set] at he
  rw [eh, BufHashTbl.lookup_remove hr]
  by_cases hji : i = j
  · subst hji
    simp [hlt] at he
    subst he
    cases hev
  · simp [hji] at he
    have hj := hx.indexed _ e he hev
    by_cases hk : (e.file, e.pageNo) = (d.file, d.pageNo)
    · rw [hk, hx.indexed _ d hi hdv] at hj
      exact absurd (Option.some.inj hj) hji
    · rw [if_neg hk]; exact hj

theorem BufMgr.Idx.idx_install {s s' : BufMgr} (hx : s.Idx) {fid : Nat} {d : BufDesc}
    (file : FilePtr) (pageNo : PageId) (hi : s.bufDescTable[fid]? = some d)
    (hfresh : s.hashTable.lookup (file, pageNo) = none)
    (et : s'.bufDescTable = s.bufDescTable.set fid (d.Set file pageNo))
    (eh : s'.hashTable = s.hashTable.insert (file, pageNo) fid) : s'.Idx := by
  have hlt : fid < s.bufDescTable.length := by
    rcases List.getElem?_eq_some.1 hi with ⟨h, _⟩; exact h
  refine ⟨fun j e he hev => ?_, by rw [eh]; exact BufHashTbl.nodup_insert _ _ _ hx.nodup⟩
  rw [et, List.getElem?_set] at he
  rw [eh, BufHashTbl.lookup_insert]
  by_cases hji : fid = j
  · subst hji
    simp [hlt] at he
    subst he
    simp [BufDesc.Set]
  · simp [hji] at he
    have hj := hx.indexed _ e he hev
    by_cases hk : (e.file, e.pageNo) = (file, pageNo)
    · rw [hk, hfresh] at hj; cases hj
    · rw [if_neg hk]; exact hj

theorem BufMgr.Idx.idx_construct (bufs : Nat) : (BufMgr.construct bufs).Idx := by
  refine ⟨fun i d h hv => ?_, by simp [BufMgr.construct]⟩
  simp only [BufMgr.construct, List.getElem?_map] at h
  by_cases hi : i < bufs
  · rw [List.getElem?_range hi] at h; simp at h; subst h; cases hv
  · rw [List.getElem?_eq_none (by simp; omega)] at h; simp at h


theorem BufMgr.Idx.idx_allocBuf {s : BufMgr} (st : PageStore) (hs : s.Inv) (hx : s.Idx) :
    (s.allocBuf st).1.Idx := by
  refine BufMgr.allocBufLoop_rule st (fun t => t.Inv ∧ t.Idx) (fun t _ => t.Idx)
    ?_ ?_ (fun _ h => h.2) _ s ⟨hs, hx⟩
  · rintro t t1 ⟨h1, h2⟩ hit
    refine ⟨h1.inv_allocBufIter_none hit, ?_⟩
    obtain ⟨d, hd, hv, ⟨hr, rfl⟩ | ⟨hr, hp, rfl⟩⟩ := BufMgr.allocBufIter_none hit
    · exact h2.idx_set_desc hd rfl rfl rfl rfl rfl
    · exact h2.idx_frame rfl rfl
  · rintro t t1 r ⟨h1, h2⟩ hit
    rcases BufMgr.allocBufIter_some hit with ⟨_, rfl, _⟩ | ⟨d, hd, h3⟩
    · exact h2
    · rcases h3 with ⟨_, rfl, _⟩ | ⟨hv, _, _, tr, _, h4⟩
      · exact h2
      · rcases h4 with ⟨_, _, rfl⟩ | ⟨h', hrm, _, rfl⟩
        · exact h2.idx_frame rfl rfl
        · exact h2.idx_evict hd hv hrm rfl rfl

theorem BufMgr.allocBuf_lookup_none {s : BufMgr} (st : PageStore) {k : Key}
    (h : s.hashTable.lookup k = none) : (s.allocBuf st).1.hashTable.lookup k = none := by
  obtain ⟨_, _, hmono, _⟩ := BufMgr.allocBufLoop_rel st s.worst_num_rota s
  cases hl : (s.allocBuf st).1.hashTable.lookup k with
  | none => rfl
  | some g =>
    have := hmono k g hl
    rw [h] at this; cases this

theorem BufMgr.Idx.idx_install_some {s s2 : BufMgr} {file : File} {pageNo : PageId} {fid : FrameId}
    {pg : Page} (hx : s.Idx) (hfresh : s.hashTable.lookup (some file, pageNo) = none)
    (h : s.install file pageNo fid pg = some s2) : s2.Idx := by
  obtain ⟨d, hd, _, rfl⟩ := BufMgr.install_spec h
  exact hx.idx_install (some file) pageNo hd hfresh rfl rfl

theorem BufMgr.Idx.idx_readPage {s : BufMgr} (hs : s.Inv) (hx : s.Idx) (st : PageStore)
    (file : File) (pageNo : PageId) : (s.readPage st file pageNo).1.Idx := by
  cases hl : s.hashTable.lookup (some file, pageNo) with
  | some fid =>
    obtain ⟨d, hd, hv, _⟩ := hs.index_sound _ _ hl
    rw [BufMgr.readPage_hit st hl hd]
    exact hx.idx_set_desc hd rfl rfl rfl rfl rfl
  | none =>
    rw [BufMgr.readPage_miss st hl]
    have h1 := hx.idx_allocBuf st hs
    have h2 := BufMgr.allocBuf_lookup_none st hl
    unfold BufMgr.readPageMiss
    split
    · next s1 e hab => rw [hab] at h1; exact h1
    · next s1 fid hab =>
      rw [hab] at h1 h2
      have h1' : BufMgr.Idx { s1 with trace := s1.trace ++ [.readPage file pageNo] } :=
        h1.idx_frame rfl rfl
      split
      · exact h1'
      · next pg _ =>
        split
        · exact h1'
        · next s2 hin => exact h1'.idx_install_some h2 hin

theorem BufMgr.Idx.idx_unPinPage {s : BufMgr} (hx : s.Idx) (file : File) (pageNo : PageId)
    (dirty : Bool) : (s.unPinPage file pageNo dirty).1.Idx := by
  unfold BufMgr.unPinPage
  split
  · exact hx
  · split
    · exact hx
    · next d hd =>
      split
      · exact hx
      · exact hx.idx_set_desc hd rfl rfl rfl rfl rfl

theorem BufMgr.Idx.idx_disposePage {s : BufMgr} (hs : s.Inv) (hx : s.Idx) (st : PageStore)
    (file : File) (PageNo : PageId) : (s.disposePage st file PageNo).1.Idx := by
  unfold BufMgr.disposePage
  split
  · exact hx
  · next frameNo hl =>
    split
    · exact hx
    · next d hd =>
      obtain ⟨d0, hd0, hv, hk⟩ := hs.index_sound _ _ hl
      rw [hd] at hd0; cases hd0
      split
      · next hr =>
        rw [BufHashTbl.remove_eq_none, hl] at hr; cases hr
      · next h hr =>
        rw [← hk] at hr
        split
        · exact hx.idx_evict hd hv hr rfl rfl
        · exact hx.idx_evict hd hv hr rfl rfl

theorem BufMgr.Idx.idx_allocPage {s : BufMgr} (hs : s.Inv) (hx : s.Idx) (st : PageStore)
    (file : File) (hf : (Op.allocPage st file).Fresh s) : (s.allocPage st file).1.Idx := by
  have hs0 : BufMgr.Inv { s with trace := s.trace ++ [.allocatePage file] } :=
    hs.inv_frame rfl rfl rfl rfl hs.hand
  have hx0 : BufMgr.Idx { s with trace := s.trace ++ [.allocatePage file] } :=
    hx.idx_frame rfl rfl
  have h1 := hx0.idx_allocBuf st hs0
  unfold BufMgr.allocPage
  split
  · exact hx0
  · next new_page hnp =>
    have hfresh : s.hashTable.lookup (some file, new_page.page_number) = none :=
      hf new_page hnp
    have h2 : (BufMgr.allocBuf { s with trace := s.trace ++ [.allocatePage file] }
        st).1.hashTable.lookup (some file, new_page.page_number) = none :=
      BufMgr.allocBuf_lookup_none st hfresh
    split
    · next s1 e hab => rw [hab] at h1; exact h1
    · next s1 fid hab =>
      rw [hab] at h1 h2
      split
      · exact h1
      · next s2 hin => exact h1.idx_install_some h2 hin

theorem BufMgr.Idx.idx_flushFileIter {s s1 : BufMgr} {st : PageStore} {file : FilePtr} {i : Nat}
    {o : Option Exn} (hx : s.Idx) (h : s.flushFileIter st file i = (s1, o)) : s1.Idx := by
  cases o with
  | none =>
    obtain ⟨d, hd, ⟨_, rfl⟩ | ⟨_, _, hv, h', t, hrm, _, rfl⟩⟩ := BufMgr.flushFileIter_none h
    · exact hx
    · exact hx.idx_evict hd hv hrm rfl rfl
  | some e =>
    obtain ⟨_, _, eh, _, et | ⟨d, hd, _, _, _, et⟩⟩ := BufMgr.flushFileIter_some h
    · exact hx.idx_frame et eh
    · exact hx.idx_set_desc hd et rfl rfl rfl eh

theorem BufMgr.Idx.idx_flushFile {s : BufMgr} (hx : s.Idx) (st : PageStore) (file : FilePtr) :
    (s.flushFile st file).1.Idx :=
  BufMgr.flushFileLoop_rule st file BufMgr.Idx (fun _ _ _ hx h => hx.idx_flushFileIter h)
    (fun _ _ _ _ hx h => hx.idx_flushFileIter h) _ _ s hx

theorem BufMgr.Idx.idx_step {s : BufMgr} (hs : s.Inv) (hx : s.Idx) (op : Op) (hf : op.Fresh s) :
    (s.step op).Idx := by
  cases op with
  | readPage st file pageNo => exact hx.idx_readPage hs st file pageNo
  | unPinPage file pageNo dirty => exact hx.idx_unPinPage file pageNo dirty
  | allocPage st file => exact hx.idx_allocPage hs st file hf
  | disposePage st file PageNo => exact hx.idx_disposePage hs st file PageNo
  | flushFile st file => exact hx.idx_flushFile st file

theorem ReachableFresh.inv_idx {bufs : Nat} {s : BufMgr} (h : ReachableFresh bufs s) :
    s.Inv ∧ s.Idx := by
  induction h with
  | init => exact ⟨BufMgr.Inv.inv_construct bufs, BufMgr.Idx.idx_construct bufs⟩
  | step _ op hf ih => exact ⟨ih.1.inv_step op, ih.2.idx_step ih.1 op hf⟩

theorem BufMgr.Consistent.of_inv_idx {s : BufMgr} (hs : s.Inv) (hx : s.Idx) : s.Consistent := by
  refine ⟨fun i d hd => ⟨hx.indexed i d hd, fun hl => ?_⟩, fun e he => ?_, hx.nodup,
    fun i j di dj hi hj hvi hvj hf hp => ?_⟩
  · obtain ⟨d', hd', hv, _⟩ := hs.index_sound _ _ hl
    rw [hd] at hd'; cases hd'; exact hv
  · exact hs.index_sound e.1 e.2 (BufHashTbl.lookup_of_mem _ hx.nodup e he)
  · have h1 := hx.indexed i di hi hvi
    have h2 := hx.indexed j dj hj hvj
    rw [hf, hp, h2] at h1
    exact (Option.some.inj h1).symm


theorem BufMgr.Holds.holds_mono {s : BufMgr} {file : File} {p : PageId} {f : FrameId} {b b' : Int}
    (h : s.Holds file p f b) (hb : b' ≤ b) : s.Holds file p f b' := by
  obtain ⟨d, hd, hv, hf, hp, hpin, hl⟩ := h
  exact ⟨d, hd, hv, hf, hp, hpin, fun h => le_trans hb (hl h)⟩

theorem BufMgr.Holds.holds_transfer {s s' : BufMgr} {file : File} {p : PageId} {f : FrameId}
    {b b' : Int} (h : s.Holds file p f b)
    (ht : ∀ d, s.bufDescTable[f]? = some d → ∃ d', s'.bufDescTable[f]? = some d' ∧
      d'.valid = d.valid ∧ d'.file = d.file ∧ d'.pageNo = d.pageNo ∧ d'.pinCnt = d.pinCnt)
    (hl : s'.hashTable.lookup (some file, p) = some f →
      s.hashTable.lookup (some file, p) = some f ∧ b' ≤ b) : s'.Holds file p f b' := by
  obtain ⟨d, hd, hv, hf, hp, hpin, hb⟩ := h
  obtain ⟨d', hd', h1, h2, h3, h4⟩ := ht d hd
  refine ⟨d', hd', by rw [h1]; exact hv, by rw [h2]; exact hf, by rw [h3]; exact hp,
    by rw [h4]; exact hpin, fun h => ?_⟩
  rw [h4]
  exact le_trans (hl h).2 (hb (hl h).1)

theorem BufMgr.Holds.holds_frame {s s' : BufMgr} {file : File} {p : PageId} {f : FrameId}
    {b : Int} (h : s.Holds file p f b) (et : s'.bufDescTable = s.bufDescTable)
    (eh : s'.hashTable = s.hashTable) : s'.Holds file p f b :=
  h.holds_transfer (fun d hd => ⟨d, by rw [et]; exact hd, rfl, rfl, rfl, rfl⟩)
    (fun hl => ⟨by rw [← eh]; exact hl, le_refl _⟩)

theorem BufMgr.Holds.holds_allocBuf {s : BufMgr} {file : File} {p : PageId} {f : FrameId} {b : Int}
    (h : s.Holds file p f b) (st : PageStore) : (s.allocBuf st).1.Holds file p f b := by
  obtain ⟨_, _, hmono, hrel⟩ := BufMgr.allocBufLoop_rel st s.worst_num_rota s
  refine h.holds_transfer (fun d hd => ?_) (fun hl => ⟨hmono _ _ hl, le_refl _⟩)
  obtain ⟨d0, hd0, _, _, _, hpin, _⟩ := h
  rw [hd0] at hd; cases hd
  obtain ⟨d', hd', hcase⟩ := hrel f _ hd0
  refine ⟨d', hd', ?_⟩
  rcases hcase with (rfl | rfl) | ⟨_, hp, _⟩
  · exact ⟨rfl, rfl, rfl, rfl⟩
  · exact ⟨rfl, rfl, rfl, rfl⟩
  · omega

theorem BufMgr.Holds.holds_install {s s2 : BufMgr} {file : File} {p : PageId} {f : FrameId}
    {b b' : Int} (h : s.Holds file p f b) {file' : File} {q : PageId} {fid : FrameId}
    {pg : Page} (hsel : ∃ d, s.bufDescTable[fid]? = some d ∧ d.valid = false)
    (hin : s.install file' q fid pg = some s2)
    (hb : ¬ (file' = file ∧ q = p) → b' ≤ b) : s2.Holds file p f b' := by
  obtain ⟨e, he, _, rfl⟩ := BufMgr.install_spec hin
  have hne : fid ≠ f := by
    rintro rfl
    obtain ⟨d0, hd0, hv0, _⟩ := h
    obtain ⟨d1, hd1, hv1⟩ := hsel
    rw [hd0] at hd1; cases hd1
    rw [hv0] at hv1; cases hv1
  refine h.holds_transfer (fun d hd => ⟨d, ?_, rfl, rfl, rfl, rfl⟩) (fun hl => ?_)
  · show (s.bufDescTable.set fid _)[f]? = some d
    rw [List.getElem?_set_ne hne]; exact hd
  · have hl' : (s.hashTable.insert (some file', q) fid).lookup (some file, p) = some f := hl
    rw [BufHashTbl.lookup_insert] at hl'
    by_cases hk : (some file, p) = ((some file', q) : Key)
    · rw [if_pos hk] at hl'
      exact absurd (Option.some.inj hl') hne
    · rw [if_neg hk] at hl'
      refine ⟨hl', hb ?_⟩
      rintro ⟨rfl, rfl⟩
      exact hk rfl


theorem BufMgr.Holds.holds_readPage {s : BufMgr} {file : File} {p : PageId} {f : FrameId} {b : Int}
    (hs : s.Inv) (h : s.Holds file p f b) (st : PageStore) (file' : File) (q : PageId) :
    (s.readPage st file' q).1.Holds file p f (b + (Op.readPage st file' q).pinDelta file p) := by
  have hδ : (Op.readPage st file' q).pinDelta file p = if file' = file ∧ q = p then 1 else 0 := rfl
  cases hl : s.hashTable.lookup (some file', q) with
  | some g =>
    obtain ⟨e, he, hev, hek⟩ := hs.index_sound _ _ hl
    rw [BufMgr.readPage_hit st hl he]
    have hlt : g < s.bufDescTable.length := by
      rcases List.getElem?_eq_some.1 he with ⟨h, _⟩; exact h
    by_cases hg : g = f
    · subst hg
      obtain ⟨d, hd, hv, hf, hp, hpin, hb⟩ := h
      rw [he] at hd; cases hd
      have hkey : file' = file ∧ q = p := by
        rw [hf, hp] at hek
        have := Prod.mk.inj hek
        exact ⟨(Option.some.inj this.1).symm, this.2.symm⟩
      rw [hδ, if_pos hkey]
      obtain ⟨rfl, rfl⟩ := hkey
      refine ⟨{ e with refbit := true, pinCnt := e.pinCnt + 1 }, ?_, hv, hf, hp, ?_, fun _ => ?_⟩
      · show (s.bufDescTable.set g _)[g]? = _
        simp only [List.getElem?_set, hlt, if_true]
      · show 0 < e.pinCnt + 1
        omega
      · show b + 1 ≤ e.pinCnt + 1
        have := hb hl
        omega
    · refine h.holds_transfer (fun d hd => ⟨d, ?_, rfl, rfl, rfl, rfl⟩) (fun hl' => ?_)
      · show (s.bufDescTable.set g _)[f]? = some d
        rw [List.getElem?_set_ne hg]; exact hd
      · have hl'' : s.hashTable.lookup (some file, p) = some f := hl'
        refine ⟨hl'', ?_⟩
        rw [hδ, if_neg]
        · omega
        · rintro ⟨rfl, rfl⟩
          rw [hl] at hl''; exact hg (Option.some.inj hl'')
  | none =>
    rw [BufMgr.readPage_miss st hl]
    have h1 := h.holds_allocBuf st
    obtain ⟨_, h2⟩ := hs.inv_allocBuf st
    have h3 := BufMgr.allocBuf_lookup_none st hl
    have hfin : ∀ t : BufMgr, t.bufDescTable = (s.allocBuf st).1.bufDescTable →
        t.hashTable = (s.allocBuf st).1.hashTable →
        t.Holds file p f (b + (Op.readPage st file' q).pinDelta file p) := by
      intro t et eh
      refine h1.holds_transfer (fun d hd => ⟨d, by rw [et]; exact hd, rfl, rfl, rfl, rfl⟩) (fun hl' => ?_)
      rw [eh] at hl'
      refine ⟨hl', ?_⟩
      rw [hδ, if_neg]
      · omega
      · rintro ⟨rfl, rfl⟩
        rw [h3] at hl'; cases hl'
    unfold BufMgr.readPageMiss
    split
    · next s1 e hab => rw [hab] at hfin; exact hfin s1 rfl rfl
    · next s1 fid hab =>
      rw [hab] at hfin h1 h2
      split
      · exact hfin _ rfl rfl
      · next pg _ =>
        split
        · exact hfin _ rfl rfl
        · next s2 hin =>
          have h1' : BufMgr.Holds { s1 with trace := s1.trace ++ [.readPage file' q] } file p f b :=
            h1.holds_frame rfl rfl
          refine h1'.holds_install (h2 fid rfl).2 hin (fun hne => ?_)
          rw [hδ, if_neg hne]; omega

theorem BufMgr.Holds.holds_unPinPage {s : BufMgr} {file : File} {p : PageId} {f : FrameId}
    {b : Int} (hs : s.Inv) (h : s.Holds file p f b) (file' : File) (q : PageId) (dirty : Bool)
    (hpos : 0 < b + (Op.unPinPage file' q dirty).pinDelta file p) :
    (s.unPinPage file' q dirty).1.Holds file p f
      (b + (Op.unPinPage file' q dirty).pinDelta file p) := by
  have hδ : (Op.unPinPage file' q dirty).pinDelta file p =
      if file' = file ∧ q = p then -1 else 0 := rfl
  have hle : (Op.unPinPage file' q dirty).pinDelta file p ≤ 0 := by
    rw [hδ]; split <;> omega
  have hsame : s.Holds file p f (b + (Op.unPinPage file' q dirty).pinDelta file p) :=
    h.holds_mono (by omega)
  unfold BufMgr.unPinPage
  split
  · exact hsame
  · next g hl =>
    split
    · exact hsame
    · next e he =>
      split
      · exact hsame
      · next hpe =>
        obtain ⟨e0, he0, _, hek⟩ := hs.index_sound _ _ hl
        rw [he] at he0; cases he0
        have hlt : g < s.bufDescTable.length := by
          rcases List.getElem?_eq_some.1 he with ⟨h, _⟩; exact h
        by_cases hg : g = f
        · subst hg
          obtain ⟨d, hd, hv, hf, hp, hpin, hb⟩ := h
          rw [he] at hd; cases hd
          have hkey : file' = file ∧ q = p := by
            rw [hf, hp] at hek
            have := Prod.mk.inj hek
            exact ⟨(Option.some.inj this.1).symm, this.2.symm⟩
          rw [hδ, if_pos hkey] at hpos ⊢
          obtain ⟨rfl, rfl⟩ := hkey
          have hbb := hb hl
          refine ⟨{ e with pinCnt := e.pinCnt - 1,
                           dirty := if dirty = true then true else e.dirty },
            ?_, hv, hf, hp, ?_, fun _ => ?_⟩
          · show (s.bufDescTable.set g _)[g]? = _
            simp only [List.getElem?_set, hlt, if_true]
          · show 0 < e.pinCnt - 1
            omega
          · show b + -1 ≤ e.pinCnt - 1
            omega
        · refine hsame.holds_transfer (fun d hd => ⟨d, ?_, rfl, rfl, rfl, rfl⟩)
            (fun hl' => ⟨hl', le_refl _⟩)
          show (s.bufDescTable.set g _)[f]? = some d
          rw [List.getElem?_set_ne hg]; exact hd


theorem BufMgr.Holds.holds_allocPage {s : BufMgr} {file : File} {p : PageId} {f : FrameId}
    {b : Int} (hs : s.Inv) (h : s.Holds file p f b) (st : PageStore) (file' : File) :
    (s.allocPage st file').1.Holds file p f b := by
  have hs0 : BufMgr.Inv { s with trace := s.trace ++ [.allocatePage file'] } :=
    hs.inv_frame rfl rfl rfl rfl hs.hand
  have h0 : BufMgr.Holds { s with trace := s.trace ++ [.allocatePage file'] } file p f b :=
    h.holds_frame rfl rfl
  have h1 := h0.holds_allocBuf st
  obtain ⟨_, h2⟩ := hs0.inv_allocBuf st
  unfold BufMgr.allocPage
  split
  · exact h0
  · next new_page _ =>
    split
    · next s1 e hab => rw [hab] at h1; exact h1
    · next s1 fid hab =>
      rw [hab] at h1 h2
      split
      · exact h1
      · next s2 hin => exact h1.holds_install (h2 fid rfl).2 hin (fun _ => le_refl _)

theorem BufMgr.Holds.holds_disposePage {s : BufMgr} {file : File} {p : PageId} {f : FrameId}
    {b : Int} (hs : s.Inv) (h : s.Holds file p f b) (st : PageStore) (file' : File)
    (q : PageId) (hne : ¬ (file' = file ∧ q = p)) :
    (s.disposePage st file' q).1.Holds file p f b := by
  unfold BufMgr.disposePage
  split
  · exact h
  · next g hl =>
    split
    · exact h
    · next e he =>
      obtain ⟨e0, he0, _, hek⟩ := hs.index_sound _ _ hl
      rw [he] at he0; cases he0
      have hg : g ≠ f := by
        rintro rfl
        obtain ⟨d, hd, _, hf, hp, _, _⟩ := h
        rw [he] at hd; cases hd
        rw [hf, hp] at hek
        have := Prod.mk.inj hek
        exact hne ⟨(Option.some.inj this.1).symm, this.2.symm⟩
      have htab : ∀ d, s.bufDescTable[f]? = some d →
          ∃ d', (s.bufDescTable.set g e.Clear)[f]? = some d' ∧ d'.valid = d.valid ∧
            d'.file = d.file ∧ d'.pageNo = d.pageNo ∧ d'.pinCnt = d.pinCnt := by
        intro d hd
        exact ⟨d, by rw [List.getElem?_set_ne hg]; exact hd, rfl, rfl, rfl, rfl⟩
      split
      · exact h.holds_transfer htab (fun hl' => ⟨hl', le_refl _⟩)
      · next h' hr =>
        have hidx : ∀ k x, h'.lookup k = some x → s.hashTable.lookup k = some x := by
          intro k x hk
          rw [BufHashTbl.lookup_remove hr] at hk
          split at hk
          · cases hk
          · exact hk
        split
        · exact h.holds_transfer htab (fun hl' => ⟨hidx _ _ hl', le_refl _⟩)
        · exact h.holds_transfer htab (fun hl' => ⟨hidx _ _ hl', le_refl _⟩)

theorem BufMgr.Holds.holds_flushFileIter {s s1 : BufMgr} {file : File} {p : PageId} {f : FrameId}
    {b : Int} {st : PageStore} {file' : FilePtr} {i : Nat} {o : Option Exn}
    (h : s.Holds file p f b) (hit : s.flushFileIter st file' i = (s1, o)) :
    s1.Holds file p f b := by
  have hpin : ∀ e, s.bufDescTable[i]? = some e → e.pinCnt ≤ 0 → i ≠ f := by
    rintro e he hp rfl
    obtain ⟨d, hd, _, _, _, hpos, _⟩ := h
    rw [he] at hd; cases hd
    omega
  cases o with
  | none =>
    obtain ⟨d, hd, ⟨_, rfl⟩ | ⟨_, hp, _, h', t, hrm, _, rfl⟩⟩ := BufMgr.flushFileIter_none hit
    · exact h
    · have hi := hpin d hd hp
      refine h.holds_transfer (fun e he => ⟨e, ?_, rfl, rfl, rfl, rfl⟩) (fun hl' => ⟨?_, le_refl _⟩)
      · show (s.bufDescTable.set i d.Clear)[f]? = some e
        rw [List.getElem?_set_ne hi]; exact he
      · have hk : h'.lookup (some file, p) = some f := hl'
        rw [BufHashTbl.lookup_remove hrm] at hk
        split at hk
        · cases hk
        · exact hk
  | some e =>
    obtain ⟨_, _, eh, _, et | ⟨d, hd, _, hp, _, et⟩⟩ := BufMgr.flushFileIter_some hit
    · exact h.holds_frame et eh
    · have hi := hpin d hd hp
      refine h.holds_transfer (fun e he => ⟨e, ?_, rfl, rfl, rfl, rfl⟩)
        (fun hl' => ⟨by rw [← eh]; exact hl', le_refl _⟩)
      rw [et, List.getElem?_set_ne hi]; exact he

theorem BufMgr.Holds.holds_flushFile {s : BufMgr} {file : File} {p : PageId} {f : FrameId}
    {b : Int} (h : s.Holds file p f b) (st : PageStore) (file' : FilePtr) :
    (s.flushFile st file').1.Holds file p f b :=
  BufMgr.flushFileLoop_rule st file' (fun t => t.Holds file p f b)
    (fun _ _ _ h hit => h.holds_flushFileIter hit) (fun _ _ _ _ h hit => h.holds_flushFileIter hit) _ _ s h

theorem BufMgr.Holds.holds_step {s : BufMgr} {file : File} {p : PageId} {f : FrameId} {b : Int}
    (hs : s.Inv) (h : s.Holds file p f b) (op : Op) (hnd : op.isDisposeOf file p = false)
    (hpos : 0 < b + op.pinDelta file p) :
    (s.step op).Holds file p f (b + op.pinDelta file p) := by
  cases op with
  | readPage st file' q => exact h.holds_readPage hs st file' q
  | unPinPage file' q dirty => exact h.holds_unPinPage hs file' q dirty hpos
  | allocPage st file' =>
    have e : (Op.allocPage st file').pinDelta file p = 0 := rfl
    rw [e, add_zero]; exact h.holds_allocPage hs st file'
  | disposePage st file' q =>
    have e : (Op.disposePage st file' q).pinDelta file p = 0 := rfl
    rw [e, add_zero]
    refine h.holds_disposePage hs st file' q ?_
    simpa [Op.isDisposeOf] using hnd
  | flushFile st file' =>
    have e : (Op.flushFile st file').pinDelta file p = 0 := rfl
    rw [e, add_zero]; exact h.holds_flushFile st file'

theorem BufMgr.Holds.holds_run {file : File} {p : PageId} {f : FrameId} (ops : List Op) :
    ∀ (s : BufMgr) (b : Int), s.Inv → s.Holds file p f b →
      (∀ op ∈ ops, op.isDisposeOf file p = false) → Op.held file p b ops →
      ∃ b', (s.run ops).Holds file p f b' := by
  induction ops with
  | nil => intro s b _ h _ _; exact ⟨b, h⟩
  | cons op ops ih =>
    intro s b hs h hnd hheld
    obtain ⟨hpos, hrest⟩ := hheld
    exact ih (s.step op) _ (hs.inv_step op)
      (h.holds_step hs op (hnd op (List.mem_cons_self _ _)) hpos)
      (fun o ho => hnd o (List.mem_cons_of_mem _ ho)) hrest

theorem BufMgr.Holds.holds_of_readPage {s s1 : BufMgr} (hs : s.Inv) {st : PageStore} {file : File}
    {p : PageId} {f : FrameId} (h : s.readPage st file p = (s1, .ok f)) :
    ∃ d, s1.bufDescTable[f]? = some d ∧ d.valid = true ∧ d.file = some file ∧ d.pageNo = p ∧
      0 < d.pinCnt := by
  cases hl : s.hashTable.lookup (some file, p) with
  | some g =>
    obtain ⟨e, he, hev, hek⟩ := hs.index_sound _ _ hl
    have h0 := hs.pin_nonneg _ e he
    rw [BufMgr.readPage_hit st hl he] at h
    have hlt : g < s.bufDescTable.length := by
      rcases List.getElem?_eq_some.1 he with ⟨h, _⟩; exact h
    cases h
    have hk := Prod.mk.inj hek
    refine ⟨{ e with refbit := true, pinCnt := e.pinCnt + 1 }, ?_, hev, hk.1, hk.2, ?_⟩
    · show (s.bufDescTable.set f _)[f]? = _
      simp only [List.getElem?_set, hlt, if_true]
    · show 0 < e.pinCnt + 1
      omega
  | none =>
    rw [BufMgr.readPage_miss st hl] at h
    unfold BufMgr.readPageMiss at h
    split at h
    · cases h
    · next s1' fid hab =>
      split at h
      · cases h
      · next pg _ =>
        split at h
        · cases h
        · next s2 hin =>
          cases h
          obtain ⟨d, hd, _, rfl⟩ := BufMgr.install_spec hin
          have hlt : f < s1'.bufDescTable.length := by
            rcases List.getElem?_eq_some.1 hd with ⟨h, _⟩; exact h
          refine ⟨d.Set (some file) p, ?_, rfl, rfl, rfl, by show (0 : Int) < 1; omega⟩
          show (s1'.bufDescTable.set f _)[f]? = _
          simp only [List.getElem?_set, hlt, if_true]

/-- What a successful `allocPage` has done: the store handed out a page, the sweep
selected a frame, and the page was installed there. -/
theorem BufMgr.allocPage_ok {s s1 : BufMgr} {st : PageStore} {file : File} {n : PageId}
    {f : FrameId} (h : s.allocPage st file = (s1, .ok (n, f))) :
    ∃ pg s0 d, st.allocatePage file = some pg ∧ pg.page_number = n ∧
      BufMgr.allocBuf { s with trace := s.trace ++ [.allocatePage file] } st = (s0, .ok f) ∧
      s0.bufDescTable[f]? = some d ∧ f < s0.bufPool.length ∧
      s1 = { s0 with bufPool := s0.bufPool.set f pg,
                     hashTable := s0.hashTable.insert (some file, n) f,
                     bufDescTable := s0.bufDescTable.set f (d.Set (some file) n) } := by
  unfold BufMgr.allocPage at h
  split at h
  · cases h
  · next pg hpg =>
    split at h
    · cases h
    · next s0 fid hab =>
      split at h
      · cases h
      · next s2 hin =>
        cases h
        obtain ⟨d, hd, hlt, rfl⟩ := BufMgr.install_spec hin
        exact ⟨pg, s0, d, hpg, rfl, hab, hd, hlt, rfl⟩

/-- What the iteration of the loop of `allocBuf` that selects a frame has done: the
frame under the hand was invalid and nothing changed, or it was a clean victim
and was evicted, or it was a dirty victim, was written to its file and then
evicted. -/
theorem BufMgr.allocBufIter_ok {s s1 : BufMgr} {st : PageStore} {f : FrameId}
    (h : s.allocBufIter st = (s1, some (.ok f))) :
    ∃ d, s.bufDescTable[s.clockHand]? = some d ∧ f = d.frameNo ∧
      ((d.valid = false ∧ s1 = s) ∨
       (d.valid = true ∧ d.dirty = false ∧ s.allocBufEvict d = (s1, some (.ok f))) ∨
       (d.valid = true ∧ d.dirty = true ∧ ∃ F pg, d.file = some F ∧
          s.bufPool[d.frameNo]? = some pg ∧ st.writePage F pg = true ∧
          BufMgr.allocBufEvict { s with trace := s.trace ++ [.writePage F pg] } d =
            (s1, some (.ok f)))) := by
  have hf : ∀ {t t1 : BufMgr} {d : BufDesc}, t.allocBufEvict d = (t1, some (.ok f)) →
      f = d.frameNo := by
    intro t t1 d ht
    rcases BufMgr.allocBufEvict_spec ht with ⟨ho, _⟩ | ⟨_, _, ho, _⟩
    · cases ho
    · cases ho; rfl
  unfold BufMgr.allocBufIter at h
  split at h
  · cases h
  · next d hd =>
    by_cases hv : d.valid = false
    · rw [if_pos hv] at h; cases h; exact ⟨d, hd, rfl, Or.inl ⟨hv, rfl⟩⟩
    · rw [if_neg hv] at h
      have hv' : d.valid = true := by simpa using hv
      by_cases hr : d.refbit = true
      · rw [if_pos hr] at h; cases h
      · rw [if_neg hr] at h
        by_cases hp : d.pinCnt > 0
        · rw [if_pos hp] at h; cases h
        · rw [if_neg hp] at h
          by_cases hdirty : d.dirty = true
          · rw [if_pos hdirty] at h
            split at h
            · next F pg hF hpg =>
              split at h
              · next hw =>
                exact ⟨d, hd, hf h, Or.inr (Or.inr ⟨hv', hdirty, F, pg, hF, hpg, hw, h⟩)⟩
              · cases h
            · cases h
          · rw [if_neg hdirty] at h
            have hd' : d.dirty = false := by simpa using hdirty
            exact ⟨d, hd, hf h, Or.inr (Or.inl ⟨hv', hd', h⟩)⟩

/-- The iterations of the loop of `allocBuf` that go on make no call to the page
store and leave the pool alone. -/
theorem BufMgr.allocBufLastIter_trace (st : PageStore) (n : Nat) (s : BufMgr) :
    (BufMgr.allocBufLastIter st n s).trace = s.trace ∧
    (BufMgr.allocBufLastIter st n s).bufPool = s.bufPool := by
  refine BufMgr.allocBufLastIter_rule st (fun t => t.trace = s.trace ∧ t.bufPool = s.bufPool)
    ?_ n s ⟨rfl, rfl⟩
  intro t t1 ht hit
  obtain ⟨d, _, _, h⟩ := BufMgr.allocBufIter_none hit
  rcases h with ⟨_, rfl⟩ | ⟨_, _, rfl⟩
  · exact ht
  · exact ht

theorem BufMgr.Free.free_frame {s s' : BufMgr} (hf : s.Free)
    (et : s'.bufDescTable = s.bufDescTable) : s'.Free := by
  intro j e he hv
  rw [et] at he
  exact hf j e he hv

theorem BufMgr.Free.free_set {s s' : BufMgr} (hf : s.Free) {i : Nat} {d' : BufDesc}
    (et : s'.bufDescTable = s.bufDescTable.set i d')
    (hd : d'.valid = false → d'.file = none) : s'.Free := by
  intro j e he hv
  rw [et, List.getElem?_set] at he
  by_cases hji : i = j
  · subst hji
    by_cases hlt : i < s.bufDescTable.length
    · simp [hlt] at he
      subst he
      exact hd hv
    · simp [hlt] at he
  · simp [hji] at he
    exact hf j e he hv

theorem BufMgr.Free.free_construct (bufs : Nat) : (BufMgr.construct bufs).Free := by
  intro i d h _
  simp only [BufMgr.construct, List.getElem?_map] at h
  by_cases hi : i < bufs
  · rw [List.getElem?_range hi] at h; simp at h; subst h; rfl
  · rw [List.getElem?_eq_none (by simp; omega)] at h; simp at h

theorem BufMgr.Free.free_allocBuf {s : BufMgr} (st : PageStore) (hf : s.Free) :
    (s.allocBuf st).1.Free := by
  refine BufMgr.allocBufLoop_rule st BufMgr.Free (fun t _ => t.Free)
    ?_ ?_ (fun _ h => h) _ s hf
  · intro t t1 h hit
    obtain ⟨d, hd, hv, ⟨hr, rfl⟩ | ⟨hr, hp, rfl⟩⟩ := BufMgr.allocBufIter_none hit
    · exact h.free_set (i := t.clockHand) rfl (fun hv' => by rw [hv] at hv'; cases hv')
    · exact h.free_frame rfl
  · intro t t1 r h hit
    rcases BufMgr.allocBufIter_some hit with ⟨_, rfl, _⟩ | ⟨d, hd, h3⟩
    · exact h
    · rcases h3 with ⟨_, rfl, _⟩ | ⟨hv, _, _, tr, _, h4⟩
      · exact h
      · rcases h4 with ⟨_, _, rfl⟩ | ⟨h', hrm, _, rfl⟩
        · exact h.free_frame rfl
        · exact h.free_set (i := t.clockHand) rfl (fun _ => rfl)

theorem BufMgr.Free.free_install_some {s s2 : BufMgr} {file : File} {pageNo : PageId}
    {fid : FrameId} {pg : Page} (hf : s.Free)
    (h : s.install file pageNo fid pg = some s2) : s2.Free := by
  obtain ⟨d, hd, _, rfl⟩ := BufMgr.install_spec h
  exact hf.free_set (i := fid) rfl (fun hv => by cases hv)

theorem BufMgr.Free.free_readPage {s : BufMgr} (hf : s.Free) (st : PageStore)
    (file : File) (pageNo : PageId) : (s.readPage st file pageNo).1.Free := by
  unfold BufMgr.readPage
  split
  · next fid hl =>
    split
    · exact hf
    · next d hd =>
      exact hf.free_set (i := fid) rfl (fun hv => hf fid d hd hv)
  · have h1 := hf.free_allocBuf st
    unfold BufMgr.readPageMiss
    split
    · next s1 e hab => rw [hab] at h1; exact h1
    · next s1 fid hab =>
      rw [hab] at h1
      have h1' : BufMgr.Free { s1 with trace := s1.trace ++ [.readPage file pageNo] } :=
        h1.free_frame rfl
      split
      · exact h1'
      · next pg _ =>
        split
        · exact h1'
        · next s2 hin => exact h1'.free_install_some hin

theorem BufMgr.Free.free_unPinPage {s : BufMgr} (hf : s.Free) (file : File) (pageNo : PageId)
    (dirty : Bool) : (s.unPinPage file pageNo dirty).1.Free := by
  unfold BufMgr.unPinPage
  split
  · exact hf
  · next fid _ =>
    split
    · exact hf
    · next d hd =>
      split
      · exact hf
      · exact hf.free_set (i := fid) rfl (fun hv => hf fid d hd hv)

theorem BufMgr.Free.free_disposePage {s : BufMgr} (hf : s.Free) (st : PageStore)
    (file : File) (PageNo : PageId) : (s.disposePage st file PageNo).1.Free := by
  unfold BufMgr.disposePage
  split
  · exact hf
  · next frameNo hl =>
    split
    · exact hf
    · next d hd =>
      split
      · exact hf.free_set (i := frameNo) rfl (fun _ => rfl)
      · split
        · exact hf.free_set (i := frameNo) rfl (fun _ => rfl)
        · exact hf.free_set (i := frameNo) rfl (fun _ => rfl)

theorem BufMgr.Free.free_allocPage {s : BufMgr} (hf : s.Free) (st : PageStore)
    (file : File) : (s.allocPage st file).1.Free := by
  have hf0 : BufMgr.Free { s with trace := s.trace ++ [.allocatePage file] } :=
    hf.free_frame rfl
  have h1 := hf0.free_allocBuf st
  unfold BufMgr.allocPage
  split
  · exact hf0
  · split
    · next s1 e hab => rw [hab] at h1; exact h1
    · next s1 fid hab =>
      rw [hab] at h1
      split
      · exact h1
      · next s2 hin => exact h1.free_install_some hin

theorem BufMgr.Free.free_flushFileIter {s s1 : BufMgr} {st : PageStore} {file : FilePtr}
    {i : Nat} {o : Option Exn} (hf : s.Free) (h : s.flushFileIter st file i = (s1, o)) :
    s1.Free := by
  cases o with
  | none =>
    obtain ⟨d, hd, ⟨_, rfl⟩ | ⟨_, _, hv, h', t, hrm, _, rfl⟩⟩ := BufMgr.flushFileIter_none h
    · exact hf
    · exact hf.free_set (i := i) rfl (fun _ => rfl)
  | some e =>
    obtain ⟨_, _, eh, _, et | ⟨d, hd, hv, _, _, et⟩⟩ := BufMgr.flushFileIter_some h
    · exact hf.free_frame et
    · exact hf.free_set et (fun hv' => by rw [hv] at hv'; cases hv')

theorem BufMgr.Free.free_flushFile {s : BufMgr} (hf : s.Free) (st : PageStore)
    (file : FilePtr) : (s.flushFile st file).1.Free :=
  BufMgr.flushFileLoop_rule st file BufMgr.Free (fun _ _ _ hf h => hf.free_flushFileIter h)
    (fun _ _ _ _ hf h => hf.free_flushFileIter h) _ _ s hf

theorem BufMgr.Free.free_step {s : BufMgr} (hf : s.Free) (op : Op) : (s.step op).Free := by
  cases op with
  | readPage st file pageNo => exact hf.free_readPage st file pageNo
  | unPinPage file pageNo dirty => exact hf.free_unPinPage file pageNo dirty
  | allocPage st file => exact hf.free_allocPage st file
  | disposePage st file PageNo => exact hf.free_disposePage st file PageNo
  | flushFile st file => exact hf.free_flushFile st file

theorem Reachable.free {bufs : Nat} {s : BufMgr} (h : Reachable bufs s) : s.Free := by
  induction h with
  | init => exact BufMgr.Free.free_construct bufs
  | step _ op ih => exact ih.free_step op

theorem ReachableFresh.reachable {bufs : Nat} {s : BufMgr} (h : ReachableFresh bufs s) :
    Reachable bufs s := by
  induction h with
  | init => exact Reachable.init
  | step _ op _ ih => exact ih.step op

/-- An iteration of the loop of `flushFile` on a frame of another file does nothing. -/
theorem BufMgr.flushFileIter_other {s : BufMgr} (st : PageStore) {file : FilePtr} {i : Nat}
    {d : BufDesc} (hd : s.bufDescTable[i]? = some d) (hf : d.file ≠ file) :
    s.flushFileIter st file i = (s, none) := by
  unfold BufMgr.flushFileIter
  simp only [hd, if_neg hf]

/-- An iteration of the loop of `flushFile` on a pinned frame of the file throws
`PagePinnedException` and changes nothing. -/
theorem BufMgr.flushFileIter_pinned {s : BufMgr} (st : PageStore) {file : File} {i : Nat}
    {d : BufDesc} (hd : s.bufDescTable[i]? = some d) (hf : d.file = some file)
    (hp : 0 < d.pinCnt) :
    s.flushFileIter st (some file) i =
      (s, some (.PagePinnedException file d.pageNo d.frameNo)) := by
  unfold BufMgr.flushFileIter
  simp only [hd, hf, if_true]
  rw [if_pos hp]

/-- An iteration of the loop of `flushFile` on a valid, unpinned frame of the file
whose index entry is there, when the store accepts the write: the page is
written if it is dirty, the entry is removed and the descriptor cleared. -/
theorem BufMgr.flushFileIter_flush {s : BufMgr} {st : PageStore} {file : File} {i : Nat}
    {d : BufDesc} {pg : Page} {h' : BufHashTbl} (hd : s.bufDescTable[i]? = some d)
    (hf : d.file = some file) (hp : d.pinCnt ≤ 0) (hv : d.valid = true)
    (hpg : s.bufPool[i]? = some pg) (hw : st.writePage file pg = true)
    (hr : s.hashTable.remove (some file, d.pageNo) = some h') :
    s.flushFileIter st (some file) i =
      ({ s with trace := if d.dirty = true then s.trace ++ [.writePage file pg] else s.trace,
                hashTable := h', bufDescTable := s.bufDescTable.set i d.Clear }, none) := by
  unfold BufMgr.flushFileIter
  simp only [hd, hf, if_true]
  rw [if_neg (not_lt.2 hp)]
  have hv' : ¬ d.valid = false := by rw [hv]; simp
  rw [if_neg hv']
  by_cases hdirty : d.dirty = true
  · rw [if_pos hdirty, if_pos hdirty]
    simp only [hpg, hw, if_true]
    unfold BufMgr.flushFileClear
    simp only [hf, hr, List.set_set]
    rfl
  · rw [if_neg hdirty, if_neg hdirty]
    unfold BufMgr.flushFileClear
    simp only [hf, hr]

theorem BufMgr.Flushed.flushed_refl (s : BufMgr) (file : File) (i : Nat) :
    s.Flushed s file i i := by
  refine ⟨rfl, rfl, rfl, rfl, ?_, fun _ _ h _ => h, fun _ _ h => h, fun _ _ => rfl, ?_, by simp⟩
  · intro j d _ h1 h2; omega
  · intro j d _ h1 h2; omega

/-- Flushing the frames `lo ≤ j < hi` leaves the descriptors from `hi` on alone. -/
theorem BufMgr.Flushed.getElem_ge {s s1 : BufMgr} {file : File} {lo hi : Nat}
    (h : s.Flushed s1 file lo hi) {j : Nat} (hj : hi ≤ j) :
    s1.bufDescTable[j]? = s.bufDescTable[j]? := by
  cases hd : s.bufDescTable[j]? with
  | some d => exact h.kept j d hd (Or.inr (Or.inl hj))
  | none =>
    rw [List.getElem?_eq_none_iff] at hd ⊢
    rw [h.length]; exact hd

/-- Flushing the frames `lo ≤ j < hi` leaves the descriptors below `lo` alone. -/
theorem BufMgr.Flushed.getElem_lt {s s1 : BufMgr} {file : File} {lo hi : Nat}
    (h : s.Flushed s1 file lo hi) {j : Nat} (hj : j < lo) :
    s1.bufDescTable[j]? = s.bufDescTable[j]? := by
  cases hd : s.bufDescTable[j]? with
  | some d => exact h.kept j d hd (Or.inl hj)
  | none =>
    rw [List.getElem?_eq_none_iff] at hd ⊢
    rw [h.length]; exact hd

theorem BufMgr.Flushed.flushWrite_ge {s s1 : BufMgr} {file : File} {lo hi : Nat}
    (h : s.Flushed s1 file lo hi) {j : Nat} (hj : hi ≤ j) :
    s1.flushWrite file j = s.flushWrite file j := by
  unfold BufMgr.flushWrite
  rw [h.getElem_ge hj, h.bufPool]

/-- Flushing the frames `lo ≤ j < mid` and then the frames `mid ≤ j < hi` is
flushing the frames `lo ≤ j < hi`. -/
theorem BufMgr.Flushed.flushed_trans {s s1 s2 : BufMgr} {file : File} {lo mid hi : Nat}
    (h1 : s.Flushed s1 file lo mid) (h2 : s1.Flushed s2 file mid hi)
    (hlo : lo ≤ mid) (hhi : mid ≤ hi) : s.Flushed s2 file lo hi := by
  refine ⟨h2.numBufs.trans h1.numBufs, h2.clockHand.trans h1.clockHand,
    h2.bufPool.trans h1.bufPool, h2.length.trans h1.length, ?_, ?_, ?_, ?_, ?_, ?_⟩
  · intro j d hd hj1 hj2 hF
    by_cases hm : j < mid
    · exact h2.kept j _ (h1.cleared j d hd hj1 hm hF) (Or.inl hm)
    · exact h2.cleared j d (h1.kept j d hd (Or.inr (Or.inl (by omega)))) (by omega) hj2 hF
  · intro j d hd hor
    refine h2.kept j d (h1.kept j d hd ?_) ?_
    · rcases hor with h | h | h
      · exact Or.inl h
      · exact Or.inr (Or.inl (by omega))
      · exact Or.inr (Or.inr h)
    · rcases hor with h | h | h
      · exact Or.inl (by omega)
      · exact Or.inr (Or.inl h)
      · exact Or.inr (Or.inr h)
  · intro k g hk
    exact h1.index_sub k g (h2.index_sub k g hk)
  · intro k hk
    rw [h2.index_kept k, h1.index_kept k]
    · intro j d hd hj1 hj2 hF
      exact hk j d hd hj1 (by omega) hF
    · intro j d hd hj1 hj2 hF
      rw [h1.getElem_ge hj1] at hd
      exact hk j d hd (by omega) hj2 hF
  · intro j d hd hj1 hj2 hF
    by_cases hm : j < mid
    · have h0 := h1.index_removed j d hd hj1 hm hF
      cases hl : s2.hashTable.lookup (d.file, d.pageNo) with
      | none => rfl
      | some g => rw [h2.index_sub _ g hl] at h0; cases h0
    · exact h2.index_removed j d (h1.kept j d hd (Or.inr (Or.inl (by omega)))) (by omega) hj2 hF
  · rw [h2.trace, h1.trace, List.append_assoc]
    congr 1
    have hc : (List.range' mid (hi - mid)).filterMap (s1.flushWrite file) =
        (List.range' mid (hi - mid)).filterMap (s.flushWrite file) := by
      apply List.filterMap_congr
      intro j hj
      rw [List.mem_range'_1] at hj
      exact h1.flushWrite_ge hj.1
    rw [hc, ← List.filterMap_append]
    congr 1
    have e1 : mid = lo + (mid - lo) := by omega
    have e2 : hi - lo = (hi - mid) + (mid - lo) := by omega
    rw [e2]
    nth_rewrite 2 [e1]
    exact List.range'_append_1 lo (mid - lo) (hi - mid)

/-- One iteration of the loop of `flushFile(file)` on frame `i`, which is not a
pinned frame of the file, in a consistent state and with a store that accepts
the writes: the loop goes on and frame `i` has been flushed. -/
theorem BufMgr.flushFileIter_flushed {s : BufMgr} {st : PageStore} {file : File} {i : Nat}
    (hs : s.Inv) (hx : s.Idx) (hf : s.Free) (hw : ∀ f pg, st.writePage f pg = true)
    (hi : i < s.numBufs)
    (hp : ∀ d, s.bufDescTable[i]? = some d → d.file = some file → d.pinCnt ≤ 0) :
    ∃ s1, s.flushFileIter st (some file) i = (s1, none) ∧ s.Flushed s1 file i (i + 1) := by
  have hlt : i < s.bufDescTable.length := by rw [hs.len_table]; exact hi
  have hlp : i < s.bufPool.length := by rw [hs.len_pool]; exact hi
  obtain ⟨d, hd⟩ : ∃ d, s.bufDescTable[i]? = some d := ⟨_, List.getElem?_eq_getElem hlt⟩
  obtain ⟨pg, hpg⟩ : ∃ pg, s.bufPool[i]? = some pg := ⟨_, List.getElem?_eq_getElem hlp⟩
  have hone : i + 1 - i = 1 := by omega
  by_cases hfile : d.file = some file
  · have hv : d.valid = true := by
      cases hv : d.valid with
      | true => rfl
      | false => rw [hf i d hd hv] at hfile; cases hfile
    have hl := hx.indexed i d hd hv
    rw [hfile] at hl
    obtain ⟨h', hr⟩ := BufHashTbl.remove_of_lookup hl
    have hlk := BufHashTbl.lookup_remove hr
    refine ⟨_, BufMgr.flushFileIter_flush hd hfile (hp d hd hfile) hv hpg (hw _ _) hr, ?_⟩
    refine ⟨rfl, rfl, rfl, by simp, ?_, ?_, ?_, ?_, ?_, ?_⟩
    · intro j e he hj1 hj2 _
      have hji : j = i := by omega
      subst hji
      rw [hd] at he; cases he
      show (s.bufDescTable.set _ _)[_]? = _
      simp only [List.getElem?_set, hlt, if_true]
    · intro j e he hor
      have hji : i ≠ j := by
        rintro rfl
        rw [hd] at he; cases he
        rcases hor with h | h | h
        · omega
        · omega
        · exact h hfile
      show (s.bufDescTable.set i d.Clear)[j]? = _
      rw [List.getElem?_set_ne hji]; exact he
    · intro k g hk
      have hk' : h'.lookup k = some g := hk
      rw [hlk] at hk'
      split at hk'
      · cases hk'
      · exact hk'
    · intro k hk
      show h'.lookup k = _
      rw [hlk, if_neg]
      intro hkk
      exact hk i d hd (le_refl _) (by omega) hfile (by rw [hfile]; exact hkk.symm)
    · intro j e he hj1 hj2 _
      have hji : j = i := by omega
      subst hji
      rw [hd] at he; cases he
      show h'.lookup _ = none
      rw [hlk, hfile, if_pos rfl]
    · show (if d.dirty = true then s.trace ++ [.writePage file pg] else s.trace) = _
      rw [hone, List.range'_one]
      simp only [List.filterMap_cons, List.filterMap_nil, BufMgr.flushWrite, hd, hpg, hfile,
        true_and]
      by_cases hdirty : d.dirty = true
      · simp [hdirty]
      · simp [hdirty]
  · refine ⟨s, BufMgr.flushFileIter_other st hd hfile, ?_⟩
    refine ⟨rfl, rfl, rfl, rfl, ?_, fun _ _ h _ => h, fun _ _ h => h, fun _ _ => rfl, ?_, ?_⟩
    · intro j e he hj1 hj2 hF
      have hji : j = i := by omega
      subst hji
      rw [hd] at he; cases he
      exact absurd hF hfile
    · intro j e he hj1 hj2 hF
      have hji : j = i := by omega
      subst hji
      rw [hd] at he; cases he
      exact absurd hF hfile
    · rw [hone, List.range'_one]
      simp [BufMgr.flushWrite, hd, hpg, hfile]

/-- The loop of `flushFile(file)` when frame `m` is the first pinned frame of the
file among the frames it visits: it throws `PagePinnedException` naming the
file, the page and the frame of `m`, having flushed the frames before `m`. -/
theorem BufMgr.flushFileLoop_pinned {st : PageStore} {file : File}
    (hw : ∀ f pg, st.writePage f pg = true) (m : Nat) (dm : BufDesc)
    (hF : dm.file = some file) (hpin : 0 < dm.pinCnt) :
    ∀ (n i : Nat) (s : BufMgr), s.Inv → s.Idx → s.Free → i + n ≤ s.numBufs →
      i ≤ m → m < i + n → s.bufDescTable[m]? = some dm →
      (∀ (j : Nat) (d : BufDesc), i ≤ j → j < m → s.bufDescTable[j]? = some d →
        d.file = some file → d.pinCnt ≤ 0) →
      (BufMgr.flushFileLoop st (some file) n i s).2 =
        .error (.PagePinnedException file dm.pageNo dm.frameNo) ∧
      s.Flushed (BufMgr.flushFileLoop st (some file) n i s).1 file i m := by
  intro n
  induction n with
  | zero =>
    intro i s _ _ _ _ h1 h2 _ _
    omega
  | succ n ih =>
    intro i s hs hx hf hle him hmn hdm hp
    by_cases hi : i = m
    · subst hi
      have hloop : BufMgr.flushFileLoop st (some file) (n + 1) i s =
          (s, .error (.PagePinnedException file dm.pageNo dm.frameNo)) := by
        show (match s.flushFileIter st (some file) i with
          | (s1, some e) => ((s1, Except.error e) : BufMgr × Except Exn Unit)
          | (s1, none) => BufMgr.flushFileLoop st (some file) n (i + 1) s1) = _
        rw [BufMgr.flushFileIter_pinned st hdm hF hpin]
      rw [hloop]
      exact ⟨rfl, BufMgr.Flushed.flushed_refl s file i⟩
    · obtain ⟨s1, hit, hfl⟩ := BufMgr.flushFileIter_flushed hs hx hf hw
        (show i < s.numBufs by omega)
        (fun d hd hF' => hp i d (le_refl _) (by omega) hd hF')
      have hloop : BufMgr.flushFileLoop st (some file) (n + 1) i s =
          BufMgr.flushFileLoop st (some file) n (i + 1) s1 := by
        show (match s.flushFileIter st (some file) i with
          | (s1, some e) => ((s1, Except.error e) : BufMgr × Except Exn Unit)
          | (s1, none) => BufMgr.flushFileLoop st (some file) n (i + 1) s1) = _
        rw [hit]
      rw [hloop]
      have h1 := ih (i + 1) s1 (hs.inv_flushFileIter hit) (hx.idx_flushFileIter hit)
        (hf.free_flushFileIter hit) (by rw [hfl.numBufs]; omega) (by omega) (by omega)
        (by rw [hfl.getElem_ge (show i + 1 ≤ m by omega)]; exact hdm)
        (fun j d hj1 hj2 hd hF' => by
          rw [hfl.getElem_ge hj1] at hd
          exact hp j d (by omega) hj2 hd hF')
      exact ⟨h1.1, hfl.flushed_trans h1.2 (by omega) (by omega)⟩

/-- When the invalid frames have no file association, an iteration of the loop of
`flushFile` on a real file does not throw `BadBufferException`. -/
theorem BufMgr.flushFileIter_not_bad {s s1 : BufMgr} {st : PageStore} {file : File} {i : Nat}
    {e : Exn} (hf : s.Free) (h : s.flushFileIter st (some file) i = (s1, some e))
    (a : FrameId) (b c d : Bool) : e ≠ .BadBufferException a b c d := by
  unfold BufMgr.flushFileIter at h
  split at h
  · cases h; intro he; cases he
  · next d0 hd0 =>
    by_cases hF : d0.file = some file
    · rw [if_pos hF] at h
      by_cases hp : d0.pinCnt > 0
      · rw [if_pos hp] at h; cases h; intro he; cases he
      · rw [if_neg hp] at h
        have hv : ¬ d0.valid = false := by
          intro hv
          rw [hf i d0 hd0 hv] at hF; cases hF
        rw [if_neg hv] at h
        by_cases hdirty : d0.dirty = true
        · rw [if_pos hdirty] at h
          split at h
          · split at h
            · rcases BufMgr.flushFileClear_spec h with ⟨ho, _⟩ | ⟨_, _, ho, _⟩
              · cases ho; intro he; cases he
              · cases ho
            · cases h; intro he; cases he
          · cases h; intro he; cases he
        · rw [if_neg hdirty] at h
          rcases BufMgr.flushFileClear_spec h with ⟨ho, _⟩ | ⟨_, _, ho, _⟩
          · cases ho; intro he; cases he
          · cases ho
    · rw [if_neg hF] at h; cases h

/-- When the invalid frames have no file association, the loop of `flushFile` on a
real file does not throw `BadBufferException`. -/
theorem BufMgr.flushFileLoop_not_bad (st : PageStore) (file : File) (a : FrameId)
    (b c d : Bool) : ∀ (n i : Nat) (s : BufMgr), s.Free →
      (BufMgr.flushFileLoop st (some file) n i s).2 ≠ .error (.BadBufferException a b c d) := by
  intro n
  induction n with
  | zero => intro i s _ he; cases he
  | succ n ih =>
    intro i s hf
    show (match s.flushFileIter st (some file) i with
      | (s1, some e) => ((s1, Except.error e) : BufMgr × Except Exn Unit)
      | (s1, none) => BufMgr.flushFileLoop st (some file) n (i + 1) s1).2 ≠ _
    cases hit : s.flushFileIter st (some file) i with
    | mk s1 o =>
      cases o with
      | none => exact ih (i + 1) s1 (hf.free_flushFileIter hit)
      | some e =>
        intro he
        exact BufMgr.flushFileIter_not_bad hf hit a b c d (Except.error.inj he)

/-- The loop of `flushFile` changes neither the number of frames nor the clock hand. -/
theorem BufMgr.flushFile_hand (s : BufMgr) (st : PageStore) (file : FilePtr) :
    (s.flushFile st file).1.numBufs = s.numBufs ∧
    (s.flushFile st file).1.clockHand = s.clockHand := by
  refine BufMgr.flushFileLoop_rule st file
    (fun t => t.numBufs = s.numBufs ∧ t.clockHand = s.clockHand) ?_ ?_ _ _ s ⟨rfl, rfl⟩
  · intro t t1 i ht hit
    obtain ⟨d, _, ⟨_, rfl⟩ | ⟨_, _, _, _, _, _, _, rfl⟩⟩ := BufMgr.flushFileIter_none hit
    · exact ht
    · exact ht
  · intro t t1 i e ht hit
    obtain ⟨h1, _, _, h2, _⟩ := BufMgr.flushFileIter_some hit
    exact ⟨h1.trans ht.1, h2.trans ht.2⟩

theorem BufMgr.unPinPage_hand (s : BufMgr) (file : File) (pageNo : PageId) (dirty : Bool) :
    (s.unPinPage file pageNo dirty).1.numBufs = s.numBufs ∧
    (s.unPinPage file pageNo dirty).1.clockHand = s.clockHand := by
  unfold BufMgr.unPinPage
  split
  · exact ⟨rfl, rfl⟩
  · split
    · exact ⟨rfl, rfl⟩
    · split <;> exact ⟨rfl, rfl⟩

theorem BufMgr.disposePage_hand (s : BufMgr) (st : PageStore) (file : File) (PageNo : PageId) :
    (s.disposePage st file PageNo).1.numBufs = s.numBufs ∧
    (s.disposePage st file PageNo).1.clockHand = s.clockHand := by
  unfold BufMgr.disposePage
  split
  · exact ⟨rfl, rfl⟩
  · split
    · exact ⟨rfl, rfl⟩
    · split
      · exact ⟨rfl, rfl⟩
      · split <;> exact ⟨rfl, rfl⟩

/-- A `readPage` that misses leaves the hand where its sweep left it. -/
theorem BufMgr.readPageMiss_hand (s : BufMgr) (st : PageStore) (file : File) (pageNo : PageId) :
    (s.readPageMiss st file pageNo).1.numBufs = s.numBufs ∧
    (s.readPageMiss st file pageNo).1.clockHand = (s.allocBuf st).1.clockHand := by
  have hn : (s.allocBuf st).1.numBufs = s.numBufs :=
    (BufMgr.allocBufLoop_rel st s.worst_num_rota s).1
  unfold BufMgr.readPageMiss
  split
  · next s1 e hab => rw [hab] at hn ⊢; exact ⟨hn, rfl⟩
  · next s1 fid hab =>
    rw [hab] at hn ⊢
    split
    · exact ⟨hn, rfl⟩
    · split
      · exact ⟨hn, rfl⟩
      · next s2 hin =>
        obtain ⟨d, _, _, rfl⟩ := BufMgr.install_spec hin
        exact ⟨hn, rfl⟩

/-- The hand after `allocPage` is where the sweep of the call left it, and is
unchanged when the store fails to allocate a page. -/
theorem BufMgr.allocPage_hand (s : BufMgr) (st : PageStore) (file : File) :
    (s.allocPage st file).1.numBufs = s.numBufs ∧
    (st.allocatePage file = none → (s.allocPage st file).1.clockHand = s.clockHand) ∧
    (st.allocatePage file ≠ none → (s.allocPage st file).1.clockHand =
      (BufMgr.allocBuf { s with trace := s.trace ++ [.allocatePage file] } st).1.clockHand) := by
  have hn : (BufMgr.allocBuf { s with trace := s.trace ++ [.allocatePage file] } st).1.numBufs
      = s.numBufs :=
    (BufMgr.allocBufLoop_rel st _ _).1
  unfold BufMgr.allocPage
  split
  · next hnone => exact ⟨rfl, fun _ => rfl, fun h => absurd hnone h⟩
  · next pg hpg =>
    have hne : ¬ st.allocatePage file = none := by rw [hpg]; simp
    split
    · next s1 e hab =>
      rw [hab] at hn ⊢
      exact ⟨hn, fun h => absurd h hne, fun _ => rfl⟩
    · next s1 fid hab =>
      rw [hab] at hn ⊢
      split
      · exact ⟨hn, fun h => absurd h hne, fun _ => rfl⟩
      · next s2 hin =>
        obtain ⟨d, _, _, rfl⟩ := BufMgr.install_spec hin
        exact ⟨hn, fun h => absurd h hne, fun _ => rfl⟩

theorem BufMgr.step_numBufs (s : BufMgr) (op : Op) : (s.step op).numBufs = s.numBufs := by
  cases op with
  | readPage st file pageNo =>
    show (s.readPage st file pageNo).1.numBufs = _
    unfold BufMgr.readPage
    split
    · split <;> rfl
    · exact (s.readPageMiss_hand st file pageNo).1
  | unPinPage file pageNo dirty => exact (s.unPinPage_hand file pageNo dirty).1
  | allocPage st file => exact (s.allocPage_hand st file).1
  | disposePage st file PageNo => exact (s.disposePage_hand st file PageNo).1
  | flushFile st file => exact (s.flushFile_hand st file).1

theorem Reachable.numBufs_eq {bufs : Nat} {s : BufMgr} (h : Reachable bufs s) :
    s.numBufs = bufs := by
  induction h with
  | init => rfl
  | step _ op ih => rw [BufMgr.step_numBufs, ih]

/-- The iterations of the loop of `allocBuf` that go on keep the number of frames. -/
theorem BufMgr.allocBufLastIter_numBufs (st : PageStore) (n : Nat) (s : BufMgr) :
    (BufMgr.allocBufLastIter st n s).numBufs = s.numBufs := by
  refine BufMgr.allocBufLastIter_rule st (fun t => t.numBufs = s.numBufs) ?_ n s rfl
  intro t t1 ht hit
  obtain ⟨d, _, _, h⟩ := BufMgr.allocBufIter_none hit
  rcases h with ⟨_, rfl⟩ | ⟨_, _, rfl⟩
  · exact ht
  · exact ht

/-- With fewer than `2^32` frames and the hand on a frame, `advanceClock` moves the
hand to the next frame, circularly. -/
theorem BufMgr.advanceClock_hand (s : BufMgr) (h32 : s.numBufs < 2 ^ 32)
    (hh : s.clockHand < s.numBufs) :
    s.advanceClock.clockHand = (s.clockHand + 1) % s.numBufs := by
  show ((s.clockHand + 1) % 2 ^ 32) % s.numBufs = _
  have e : (s.clockHand + 1) % 2 ^ 32 = s.clockHand + 1 := Nat.mod_eq_of_lt (by omega)
  rw [e]

theorem BufMgr.allocBufLoop_succ_none {s s1 : BufMgr} {st : PageStore} (n : Nat)
    (h : s.allocBufIter st = (s1, none)) :
    BufMgr.allocBufLoop st (n + 1) s = BufMgr.allocBufLoop st n s1 := by
  show (match s.allocBufIter st with
    | (s1, none) => BufMgr.allocBufLoop st n s1
    | (s1, some r) => (s1, r)) = _
  rw [h]

theorem BufMgr.allocBufLoop_succ_some {s s1 : BufMgr} {st : PageStore} (n : Nat)
    {r : Except Exn FrameId} (h : s.allocBufIter st = (s1, some r)) :
    BufMgr.allocBufLoop st (n + 1) s = (s1, r) := by
  show (match s.allocBufIter st with
    | (s1, none) => BufMgr.allocBufLoop st n s1
    | (s1, some r) => (s1, r)) = _
  rw [h]

theorem BufMgr.allocBuf_fuel (s : BufMgr) (st : PageStore) (n : Nat)
    (h : s.worst_num_rota = n) : s.allocBuf st = BufMgr.allocBufLoop st n s := by
  subst h; rfl

/-- The first step of scenario A: `readPage(F,1)` on a fresh pool of two frames. -/
theorem BufMgr.scenarioA_read1 (st : PageStore) (F : File) (pg1 : Page)
    (h1 : st.readPage F 1 = some pg1) :
    (BufMgr.construct 2).readPage st F 1 =
      ({ numBufs := 2,
         bufDescTable :=
          [{ file := none, pageNo := 0, frameNo := 0, pinCnt := 0, dirty := false,
             valid := false, refbit := false },
           { file := some F, pageNo := 1, frameNo := 1, pinCnt := 1, dirty := false,
             valid := true, refbit := true }],
         bufPool := [{ page_number := 0, data := 0 }, pg1],
         hashTable := { entries := [((some F, 1), 1)] },
         clockHand := 1,
         trace := [.readPage F 1] }, .ok 1) := by
  simp [BufMgr.construct, BufMgr.readPage, BufHashTbl.lookup, BufMgr.readPageMiss,
    BufMgr.allocBuf, BufMgr.worst_num_rota, BufMgr.allocBufLoop, BufMgr.allocBufIter,
    BufMgr.install, BufHashTbl.insert, BufDesc.Set, BufDesc.fresh, h1, List.range,
    List.range.loop]

/-- The second step of scenario A: `unPinPage(F,1,false)`. -/
theorem BufMgr.scenarioA_unpin1 (F : File) (pg1 : Page) :
    BufMgr.unPinPage
      ({ numBufs := 2,
         bufDescTable :=
          [{ file := none, pageNo := 0, frameNo := 0, pinCnt := 0, dirty := false,
             valid := false, refbit := false },
           { file := some F, pageNo := 1, frameNo := 1, pinCnt := 1, dirty := false,
             valid := true, refbit := true }],
         bufPool := [{ page_number := 0, data := 0 }, pg1],
         hashTable := { entries := [((some F, 1), 1)] },
         clockHand := 1,
         trace := [.readPage F 1] } : BufMgr) F 1 false =
     (({ numBufs := 2,
         bufDescTable :=
          [{ file := none, pageNo := 0, frameNo := 0, pinCnt := 0, dirty := false,
             valid := false, refbit := false },
           { file := some F, pageNo := 1, frameNo := 1, pinCnt := 0, dirty := false,
             valid := true, refbit := true }],
         bufPool := [{ page_number := 0, data := 0 }, pg1],
         hashTable := { entries := [((some F, 1), 1)] },
         clockHand := 1,
         trace := [.readPage F 1] } : BufMgr), .ok ()) := by
  simp [BufMgr.unPinPage, BufHashTbl.lookup]

/-- A `readPage` that misses, when the sweep selects frame `fid` and the store
returns the page: the page is installed in frame `fid`. -/
theorem BufMgr.readPageMiss_ok {s s1 : BufMgr} {st : PageStore} {file : File} {p : PageId}
    {fid : FrameId} {pg : Page} (hab : s.allocBuf st = (s1, .ok fid))
    (hrd : st.readPage file p = some pg) (d : BufDesc)
    (hd : s1.bufDescTable[fid]? = some d) (hlt : fid < s1.bufPool.length) :
    s.readPageMiss st file p =
      ({ s1 with trace := s1.trace ++ [.readPage file p],
                 bufPool := s1.bufPool.set fid pg,
                 hashTable := s1.hashTable.insert (some file, p) fid,
                 bufDescTable := s1.bufDescTable.set fid (d.Set (some file) p) }, .ok fid) := by
  have hpg : s1.bufPool[fid]? = some s1.bufPool[fid] := List.getElem?_eq_getElem hlt
  unfold BufMgr.readPageMiss
  rw [hab]
  simp only [hrd, BufMgr.install, hpg, hd]

/-- The third step of scenario A: `readPage(F,2)`; the sweep clears the reference
bit of frame 1 and selects frame 0. -/
theorem BufMgr.scenarioA_read2 (st : PageStore) (F : File) (pg1 pg2 : Page)
    (h2 : st.readPage F 2 = some pg2) :
    BufMgr.readPage
      ({ numBufs := 2,
         bufDescTable :=
          [{ file := none, pageNo := 0, frameNo := 0, pinCnt := 0, dirty := false,
             valid := false, refbit := false },
           { file := some F, pageNo := 1, frameNo := 1, pinCnt := 0, dirty := false,
             valid := true, refbit := true }],
         bufPool := [{ page_number := 0, data := 0 }, pg1],
         hashTable := { entries := [((some F, 1), 1)] },
         clockHand := 1,
         trace := [.readPage F 1] } : BufMgr) st F 2 =
     (({ numBufs := 2,
         bufDescTable :=
          [{ file := some F, pageNo := 2, frameNo := 0, pinCnt := 1, dirty := false,
             valid := true, refbit := true },
           { file := some F, pageNo := 1, frameNo := 1, pinCnt := 0, dirty := false,
             valid := true, refbit := false }],
         bufPool := [pg2, pg1],
         hashTable := { entries := [((some F, 2), 0), ((some F, 1), 1)] },
         clockHand := 0,
         trace := [.readPage F 1, .readPage F 2] } : BufMgr), .ok 0) := by
  have hi1 : BufMgr.allocBufIter
      ({ numBufs := 2,
         bufDescTable :=
          [{ file := none, pageNo := 0, frameNo := 0, pinCnt := 0, dirty := false,
             valid := false, refbit := false },
           { file := some F, pageNo := 1, frameNo := 1, pinCnt := 0, dirty := false,
             valid := true, refbit := true }],
         bufPool := [{ page_number := 0, data := 0 }, pg1],
         hashTable := { entries := [((some F, 1), 1)] },
         clockHand := 1,
         trace := [.readPage F 1] } : BufMgr) st =
     (({ numBufs := 2,
         bufDescTable :=
          [{ file := none, pageNo := 0, frameNo := 0, pinCnt := 0, dirty := false,
             valid := false, refbit := false },
           { file := some F, pageNo := 1, frameNo := 1, pinCnt := 0, dirty := false,
             valid := true, refbit := false }],
         bufPool := [{ page_number := 0, data := 0 }, pg1],
         hashTable := { entries := [((some F, 1), 1)] },
         clockHand := 0,
         trace := [.readPage F 1] } : BufMgr), none) := by
    simp [BufMgr.allocBufIter, BufMgr.advanceClock]
  have hi2 : BufMgr.allocBufIter
      ({ numBufs := 2,
         bufDescTable :=
          [{ file := none, pageNo := 0, frameNo := 0, pinCnt := 0, dirty := false,
             valid := false, refbit := false },
           { file := some F, pageNo := 1, frameNo := 1, pinCnt := 0, dirty := false,
             valid := true, refbit := false }],
         bufPool := [{ page_number := 0, data := 0 }, pg1],
         hashTable := { entries := [((some F, 1), 1)] },
         clockHand := 0,
         trace := [.readPage F 1] } : BufMgr) st =
     (({ numBufs := 2,
         bufDescTable :=
          [{ file := none, pageNo := 0, frameNo := 0, pinCnt := 0, dirty := false,
             valid := false, refbit := false },
           { file := some F, pageNo := 1, frameNo := 1, pinCnt := 0, dirty := false,
             valid := true, refbit := false }],
         bufPool := [{ page_number := 0, data := 0 }, pg1],
         hashTable := { entries := [((some F, 1), 1)] },
         clockHand := 0,
         trace := [.readPage F 1] } : BufMgr), some (.ok 0)) := by
    simp [BufMgr.allocBufIter]
  have hab := (BufMgr.allocBuf_fuel _ st (2 + 1) (by norm_num [BufMgr.worst_num_rota])).trans
    ((BufMgr.allocBufLoop_succ_none 2 hi1).trans (BufMgr.allocBufLoop_succ_some 1 hi2))
  rw [BufMgr.readPage_miss st, BufMgr.readPageMiss_ok hab h2 _ rfl (by simp)]
  · simp [BufHashTbl.insert, BufDesc.Set]
  · simp [BufHashTbl.lookup]

/-- The fourth step of scenario A: `unPinPage(F,2,false)`. -/
theorem BufMgr.scenarioA_unpin2 (F : File) (pg1 pg2 : Page) :
    BufMgr.unPinPage
      ({ numBufs := 2,
         bufDescTable :=
          [{ file := some F, pageNo := 2, frameNo := 0, pinCnt := 1, dirty := false,
             valid := true, refbit := true },
           { file := some F, pageNo := 1, frameNo := 1, pinCnt := 0, dirty := false,
             valid := true, refbit := false }],
         bufPool := [pg2, pg1],
         hashTable := { entries := [((some F, 2), 0), ((some F, 1), 1)] },
         clockHand := 0,
         trace := [.readPage F 1, .readPage F 2] } : BufMgr) F 2 false =
     (({ numBufs := 2,
         bufDescTable :=
          [{ file := some F, pageNo := 2, frameNo := 0, pinCnt := 0, dirty := false,
             valid := true, refbit := true },
           { file := some F, pageNo := 1, frameNo := 1, pinCnt := 0, dirty := false,
             valid := true, refbit := false }],
         bufPool := [pg2, pg1],
         hashTable := { entries := [((some F, 2), 0), ((some F, 1), 1)] },
         clockHand := 0,
         trace := [.readPage F 1, .readPage F 2] } : BufMgr), .ok ()) := by
  simp [BufMgr.unPinPage, BufHashTbl.lookup]

/-- The last step of scenario A: `readPage(F,3)`; the sweep clears the reference
bit of frame 0 and evicts frame 1, which holds page 1, and page 3 is installed
in frame 1. -/
theorem BufMgr.scenarioA_read3 (st : PageStore) (F : File) (pg1 pg2 pg3 : Page)
    (h3 : st.readPage F 3 = some pg3) :
    BufMgr.readPage
      ({ numBufs := 2,
         bufDescTable :=
          [{ file := some F, pageNo := 2, frameNo := 0, pinCnt := 0, dirty := false,
             valid := true, refbit := true },
           { file := some F, pageNo := 1, frameNo := 1, pinCnt := 0, dirty := false,
             valid := true, refbit := false }],
         bufPool := [pg2, pg1],
         hashTable := { entries := [((some F, 2), 0), ((some F, 1), 1)] },
         clockHand := 0,
         trace := [.readPage F 1, .readPage F 2] } : BufMgr) st F 3 =
     (({ numBufs := 2,
         bufDescTable :=
          [{ file := some F, pageNo := 2, frameNo := 0, pinCnt := 0, dirty := false,
             valid := true, refbit := false },
           { file := some F, pageNo := 3, frameNo := 1, pinCnt := 1, dirty := false,
             valid := true, refbit := true }],
         bufPool := [pg2, pg3],
         hashTable := { entries := [((some F, 3), 1), ((some F, 2), 0)] },
         clockHand := 1,
         trace := [.readPage F 1, .readPage F 2, .readPage F 3] } : BufMgr), .ok 1) := by
  have hi1 : BufMgr.allocBufIter
      ({ numBufs := 2,
         bufDescTable :=
          [{ file := some F, pageNo := 2, frameNo := 0, pinCnt := 0, dirty := false,
             valid := true, refbit := true },
           { file := some F, pageNo := 1, frameNo := 1, pinCnt := 0, dirty := false,
             valid := true, refbit := false }],
         bufPool := [pg2, pg1],
         hashTable := { entries := [((some F, 2), 0), ((some F, 1), 1)] },
         clockHand := 0,
         trace := [.readPage F 1, .readPage F 2] } : BufMgr) st =
     (({ numBufs := 2,
         bufDescTable :=
          [{ file := some F, pageNo := 2, frameNo := 0, pinCnt := 0, dirty := false,
             valid := true, refbit := false },
           { file := some F, pageNo := 1, frameNo := 1, pinCnt := 0, dirty := false,
             valid := true, refbit := false }],
         bufPool := [pg2, pg1],
         hashTable := { entries := [((some F, 2), 0), ((some F, 1), 1)] },
         clockHand := 1,
         trace := [.readPage F 1, .readPage F 2] } : BufMgr), none) := by
    simp [BufMgr.allocBufIter, BufMgr.advanceClock]
  have hi2 : BufMgr.allocBufIter
      ({ numBufs := 2,
         bufDescTable :=
          [{ file := some F, pageNo := 2, frameNo := 0, pinCnt := 0, dirty := false,
             valid := true, refbit := false },
           { file := some F, pageNo := 1, frameNo := 1, pinCnt := 0, dirty := false,
             valid := true, refbit := false }],
         bufPool := [pg2, pg1],
         hashTable := { entries := [((some F, 2), 0), ((some F, 1), 1)] },
         clockHand := 1,
         trace := [.readPage F 1, .readPage F 2] } : BufMgr) st =
     (({ numBufs := 2,
         bufDescTable :=
          [{ file := some F, pageNo := 2, frameNo := 0, pinCnt := 0, dirty := false,
             valid := true, refbit := false },
           { file := none, pageNo := 1, frameNo := 1, pinCnt := 0, dirty := false,
             valid := false, refbit := false }],
         bufPool := [pg2, pg1],
         hashTable := { entries := [((some F, 2), 0)] },
         clockHand := 1,
         trace := [.readPage F 1, .readPage F 2] } : BufMgr), some (.ok 1)) := by
    simp [BufMgr.allocBufIter, BufMgr.allocBufEvict, BufHashTbl.remove, BufHashTbl.lookup,
      BufDesc.Clear]
  have hab := (BufMgr.allocBuf_fuel _ st (2 + 1) (by norm_num [BufMgr.worst_num_rota])).trans
    ((BufMgr.allocBufLoop_succ_none 2 hi1).trans (BufMgr.allocBufLoop_succ_some 1 hi2))
  rw [BufMgr.readPage_miss st, BufMgr.readPageMiss_ok hab h3 _ rfl (by simp)]
  · simp [BufHashTbl.insert, BufDesc.Set]
  · simp [BufHashTbl.lookup]

/-- When the loop of `allocBuf` ends with a `StoreException`, the iteration that
leaves the loop is the one started in the state `allocBufLastIter` gives. -/
theorem BufMgr.allocBufLastIter_storeException (st : PageStore) (n : Nat) (s s' : BufMgr)
    (h : BufMgr.allocBufLoop st n s = (s', .error .StoreException)) :
    (BufMgr.allocBufLastIter st n s).allocBufIter st =
      (s', some (.error .StoreException)) := by
  induction n generalizing s with
  | zero => unfold BufMgr.allocBufLoop at h; cases h
  | succ n ih =>
    unfold BufMgr.allocBufLoop at h
    unfold BufMgr.allocBufLastIter
    cases hit : s.allocBufIter st with
    | mk s1 o =>
      rw [hit] at h
      cases o with
      | none => exact ih s1 h
      | some r =>
        simp only at h ⊢
        cases h
        exact hit

/-- An iteration of the loop of `allocBuf` throws `StoreException` only when the
write of a dirty victim fails, and then nothing but the trace has changed: the
index entry is not removed and the descriptor is not cleared. -/
theorem BufMgr.allocBufIter_storeException {s s1 : BufMgr} {st : PageStore}
    (h : s.allocBufIter st = (s1, some (.error .StoreException))) :
    ∃ d F pg, s.bufDescTable[s.clockHand]? = some d ∧ d.valid = true ∧ d.dirty = true ∧
      d.file = some F ∧ s.bufPool[d.frameNo]? = some pg ∧ st.writePage F pg = false ∧
      s1 = { s with trace := s.trace ++ [.writePage F pg] } := by
  unfold BufMgr.allocBufIter at h
  split at h
  · cases h
  · next d hd =>
    by_cases hv : d.valid = false
    · rw [if_pos hv] at h; cases h
    · rw [if_neg hv] at h
      have hv' : d.valid = true := by simpa using hv
      by_cases hr : d.refbit = true
      · rw [if_pos hr] at h; cases h
      · rw [if_neg hr] at h
        by_cases hp : d.pinCnt > 0
        · rw [if_pos hp] at h; cases h
        · rw [if_neg hp] at h
          by_cases hdirty : d.dirty = true
          · rw [if_pos hdirty] at h
            split at h
            · next F pg hF hpg =>
              split at h
              · rcases BufMgr.allocBufEvict_spec h with ⟨ho, _⟩ | ⟨_, _, ho, _⟩
                · cases ho
                · cases ho
              · next hw =>
                cases h
                exact ⟨d, F, pg, hd, hv', hdirty, hF, hpg, by simpa using hw, rfl⟩
            · cases h
          · rw [if_neg hdirty] at h
            rcases BufMgr.allocBufEvict_spec h with ⟨ho, _⟩ | ⟨_, _, ho, _⟩
            · cases ho
            · cases ho

/-- What a successful `allocBufEvict` leaves behind: the index entry of the victim
is gone and its descriptor is cleared, and the entry was there before. -/
theorem BufMgr.allocBufEvict_ok {s s1 : BufMgr} {d : BufDesc} {f : FrameId}
    (h : s.allocBufEvict d = (s1, some (.ok f))) (hlt : s.clockHand < s.bufDescTable.length) :
    s.hashTable.lookup (d.file, d.pageNo) ≠ none ∧
    s1.hashTable.lookup (d.file, d.pageNo) = none ∧
    s1.bufDescTable[s.clockHand]? = some d.Clear ∧ s1.trace = s.trace := by
  rcases BufMgr.allocBufEvict_spec h with ⟨ho, _⟩ | ⟨h', hrm, _, rfl⟩
  · cases ho
  · refine ⟨?_, ?_, ?_, rfl⟩
    · intro hl
      rw [BufHashTbl.remove_eq_none.2 hl] at hrm
      cases hrm
    · show h'.lookup _ = none
      rw [BufHashTbl.lookup_remove hrm, if_pos rfl]
    · show (s.bufDescTable.set _ _)[_]? = _
      simp only [List.getElem?_set, hlt, if_true]

/-! ## The claims -/

/-- C1 (code defect): the sweep of `allocBuf` gives up although a frame is
unpinned.  In a pool of one frame, after `readPage(F,1)` and
`unPinPage(F,1,false)` the only frame is valid with `pinCnt = 0`, and both
`allocBuf` and `readPage(F,2)` throw `BufferExceededException`.  The same
happens in a pool of two frames when the hand is on a pinned frame and the
other frame is unpinned with its reference bit set. -/
theorem C1_allocBuf_fails_with_unpinned_frame :
    (((BufMgr.construct 1).run
        [.readPage PageStore.sample 5 1, .unPinPage 5 1 false]).bufDescTable.map
          (fun d => (d.valid, d.pinCnt)) = [(true, 0)] ∧
      (((BufMgr.construct 1).run
        [.readPage PageStore.sample 5 1, .unPinPage 5 1 false]).allocBuf PageStore.sample).2
          = .error .BufferExceededException ∧
      (((BufMgr.construct 1).run
        [.readPage PageStore.sample 5 1, .unPinPage 5 1 false]).readPage PageStore.sample 5 2).2
          = .error .BufferExceededException) ∧
    (((BufMgr.construct 2).run
        [.readPage PageStore.sample 5 1, .readPage PageStore.sample 5 2,
         .readPage PageStore.sample 5 1, .unPinPage 5 1 false,
         .unPinPage 5 1 false]).bufDescTable.map
          (fun d => (d.valid, d.pinCnt, d.refbit)) = [(true, 1, true), (true, 0, true)] ∧
      ((BufMgr.construct 2).run
        [.readPage PageStore.sample 5 1, .readPage PageStore.sample 5 2,
         .readPage PageStore.sample 5 1, .unPinPage 5 1 false,
         .unPinPage 5 1 false]).clockHand = 0 ∧
      (((BufMgr.construct 2).run
        [.readPage PageStore.sample 5 1, .readPage PageStore.sample 5 2,
         .readPage PageStore.sample 5 1, .unPinPage 5 1 false,
         .unPinPage 5 1 false]).readPage PageStore.sample 5 3).2
          = .error .BufferExceededException) := by
  decide

/-- C2: in every state in which the hand is on a frame of the pool and all frames
are valid and pinned, `allocBuf` throws `BufferExceededException`, and so does
`readPage` of every page that is not in the index. -/
theorem C2_all_pinned_capacity_exhausted (s : BufMgr) (st : PageStore)
    (hlen : s.bufDescTable.length = s.numBufs) (hhand : s.clockHand < s.numBufs)
    (hall : ∀ d ∈ s.bufDescTable, d.valid = true ∧ 0 < d.pinCnt) :
    (s.allocBuf st).2 = .error .BufferExceededException ∧
    ∀ (file : File) (pageNo : PageId), s.hashTable.lookup (some file, pageNo) = none →
      (s.readPage st file pageNo).2 = .error .BufferExceededException := by
  have h1 : (s.allocBuf st).2 = .error .BufferExceededException :=
    BufMgr.allocBufLoop_allPinned st _ s hlen hhand hall
  refine ⟨h1, fun file pageNo hl => ?_⟩
  rw [BufMgr.readPage_miss st hl]
  unfold BufMgr.readPageMiss
  split
  · next s1 e hab => rw [hab] at h1; exact h1
  · next s1 fid hab => rw [hab] at h1; cases h1

/-- Scenario B, as an instance of C2: in a pool of one frame whose page (page 1
of file 5) is pinned, `readPage` of page 2 throws `BufferExceededException`. -/
theorem C2_all_pinned_capacity_exhausted_witness :
    ((BufMgr.construct 1).run [.readPage PageStore.sample 5 1]).bufDescTable.map
        (fun d => (d.valid, d.pinCnt)) = [(true, 1)] ∧
      (((BufMgr.construct 1).run [.readPage PageStore.sample 5 1]).allocBuf
        PageStore.sample).2 = .error .BufferExceededException ∧
      (((BufMgr.construct 1).run [.readPage PageStore.sample 5 1]).readPage
        PageStore.sample 5 2).2 = .error .BufferExceededException :=
  ⟨by decide,
   (C2_all_pinned_capacity_exhausted
      ((BufMgr.construct 1).run [.readPage PageStore.sample 5 1]) PageStore.sample
      (by decide) (by decide) (by decide)).1,
   (C2_all_pinned_capacity_exhausted
      ((BufMgr.construct 1).run [.readPage PageStore.sample 5 1]) PageStore.sample
      (by decide) (by decide) (by decide)).2 5 2 (by decide)⟩

/-- C3: in every state reachable from construction by `readPage`, `unPinPage`,
`allocPage`, `disposePage` and `flushFile` (calls that throw included), when
`allocatePage` never returns a page number that is resident for that file, the
index and the descriptor table are consistent: a frame is valid exactly when
the index maps its `(file, pageNo)` to it, every index entry points to a valid
frame holding the key of the entry, no key has two entries and no two valid
frames hold the same `(file, pageNo)`. -/
theorem C3_index_table_consistent (bufs : Nat) (s : BufMgr) (h : ReachableFresh bufs s) :
    s.Consistent :=
  BufMgr.Consistent.of_inv_idx h.inv_idx.1 h.inv_idx.2

/-- An instance of C3: a pool of two frames after `allocPage` (the store hands out
page 7), a `readPage` that evicts nothing, a `disposePage` of a pinned page and
a `flushFile` that throws because page 7 is pinned. -/
theorem C3_index_table_consistent_witness :
    BufMgr.Consistent
      (((((BufMgr.construct 2).step (.allocPage PageStore.sample 5)).step
        (.readPage PageStore.sample 5 1)).step (.disposePage PageStore.sample 5 1)).step
        (.flushFile PageStore.sample (some 5))) :=
  C3_index_table_consistent 2 _
    ((((ReachableFresh.init.step (.allocPage PageStore.sample 5)
        (fun pg h => by cases h; decide)).step
      (.readPage PageStore.sample 5 1) trivial).step
      (.disposePage PageStore.sample 5 1) trivial).step
      (.flushFile PageStore.sample (some 5)) trivial)

/-- C4 as stated fails: in a pool of one frame `readPage(5,1)` returns frame 0,
and there is a sequence of calls in which no pin on `(5,1)` is released, namely
the single call `disposePage(5,1)`, after which frame 0 is no longer a valid,
pinned frame holding `(5,1)`. -/
theorem C4_counterexample_disposePage :
    ((BufMgr.construct 1).readPage PageStore.sample 5 1).2 = .ok 0 ∧
    ((BufMgr.construct 1).readPage PageStore.sample 5 1).1.bufDescTable.map
      (fun d => d.pinCnt) = [1] ∧
    ¬ ∀ ops : List Op, Op.held 5 1 1 ops →
        ∃ d, (((BufMgr.construct 1).readPage PageStore.sample 5 1).1.run ops).bufDescTable[0]?
            = some d ∧
          d.valid = true ∧ d.file = some 5 ∧ d.pageNo = 1 ∧ 0 < d.pinCnt := by
  refine ⟨by decide, by decide, fun h => ?_⟩
  obtain ⟨d, hd, hv, _⟩ := h [.disposePage PageStore.sample 5 1] ⟨by decide, trivial⟩
  have e : (((BufMgr.construct 1).readPage PageStore.sample 5 1).1.run
      [.disposePage PageStore.sample 5 1]).bufDescTable[0]? =
      some { file := none, pageNo := 1, frameNo := 0, pinCnt := 0, dirty := false,
             valid := false, refbit := false } := by decide
  rw [e] at hd
  cases hd
  cases hv

/-- C4 (amended): after `readPage(file, p)` has returned frame `f` in a reachable
state, frame `f` is valid, holds `(file, p)` and is pinned, and it stays so
through every sequence of calls of `readPage`, `allocPage`, `unPinPage`,
`flushFile` and `disposePage` of pages other than `(file, p)`, succeeding or
failing, during which the pins on `(file, p)` are never all released
(`Op.held`): no such call reuses or clears the frame. -/
theorem C4_pinned_frame_kept (bufs : Nat) (s : BufMgr) (hr : Reachable bufs s)
    (st : PageStore) (file : File) (p : PageId) (s1 : BufMgr) (f : FrameId)
    (hread : s.readPage st file p = (s1, .ok f)) :
    ∃ d1, s1.bufDescTable[f]? = some d1 ∧ d1.valid = true ∧ d1.file = some file ∧
      d1.pageNo = p ∧ 0 < d1.pinCnt ∧
      ∀ ops : List Op, (∀ op ∈ ops, op.isDisposeOf file p = false) →
        Op.held file p d1.pinCnt ops →
        ∃ d, (s1.run ops).bufDescTable[f]? = some d ∧ d.valid = true ∧ d.file = some file ∧
          d.pageNo = p ∧ 0 < d.pinCnt := by
  have hs := hr.inv
  have hs1 : s1.Inv := by
    have := hs.inv_readPage st file p
    rw [hread] at this; exact this
  obtain ⟨d1, hd1, hv, hf, hp, hpin⟩ := BufMgr.Holds.holds_of_readPage hs hread
  refine ⟨d1, hd1, hv, hf, hp, hpin, fun ops hnd hheld => ?_⟩
  have h0 : s1.Holds file p f d1.pinCnt := ⟨d1, hd1, hv, hf, hp, hpin, fun _ => le_refl _⟩
  obtain ⟨b', d, hd, hv', hf', hp', hpin', _⟩ := BufMgr.Holds.holds_run ops s1 _ hs1 h0 hnd hheld
  exact ⟨d, hd, hv', hf', hp', hpin'⟩

/-- An instance of C4 (amended): in a pool of two frames `readPage(5,1)` returns
frame 1; page `(5,1)` is read again and unpinned once, page 2 comes and goes,
page 3 is read (the sweep passes over frame 1 and evicts frame 0), `flushFile`
of file 5 throws, page 3 is disposed of and a new page is allocated: frame 1
still holds `(5,1)`, valid and pinned. -/
theorem C4_pinned_frame_kept_witness :
    ∃ d, (((BufMgr.construct 2).readPage PageStore.sample 5 1).1.run
        [.readPage PageStore.sample 5 1, .unPinPage 5 1 true, .readPage PageStore.sample 5 2,
         .unPinPage 5 2 false, .readPage PageStore.sample 5 3,
         .flushFile PageStore.sample (some 5), .disposePage PageStore.sample 5 3,
         .allocPage PageStore.sample 5]).bufDescTable[1]? = some d ∧
      d.valid = true ∧ d.file = some 5 ∧ d.pageNo = 1 ∧ 0 < d.pinCnt := by
  obtain ⟨d1, hd1, _, _, _, _, hall⟩ :=
    C4_pinned_frame_kept 2 (BufMgr.construct 2) Reachable.init PageStore.sample 5 1
      ((BufMgr.construct 2).readPage PageStore.sample 5 1).1 1 (by decide)
  have e : ((BufMgr.construct 2).readPage PageStore.sample 5 1).1.bufDescTable[1]? =
      some { file := some 5, pageNo := 1, frameNo := 1, pinCnt := 1, dirty := false,
             valid := true, refbit := true } := by decide
  rw [e] at hd1
  cases hd1
  exact hall _ (by decide) (by simp [Op.held, Op.pinDelta])

/-- C5: when `allocBuf` selects frame `f` in a reachable state, the hand is on
`f` at the instant of selection (the start of the iteration that leaves the
loop); if the frame is valid at that instant (an eviction victim) its pin count
is 0 and its reference bit is false; and in the state in which `allocBuf` was
called frame `f` was not pinned: the sweep never selects a frame with
`pinCnt > 0`. -/
theorem C5_victim_unpinned (bufs : Nat) (s : BufMgr) (hr : Reachable bufs s) (st : PageStore)
    (s' : BufMgr) (f : FrameId) (hab : s.allocBuf st = (s', .ok f)) :
    (∃ d, (BufMgr.allocBufLastIter st s.worst_num_rota s).bufDescTable[f]? = some d ∧
      (BufMgr.allocBufLastIter st s.worst_num_rota s).clockHand = f ∧
      (d.valid = true → d.pinCnt = 0 ∧ d.refbit = false)) ∧
    ∀ d0, s.bufDescTable[f]? = some d0 → ¬ 0 < d0.pinCnt := by
  have hs := hr.inv
  constructor
  · have hit := BufMgr.allocBufLastIter_spec st _ s s' f hab
    have ht : (BufMgr.allocBufLastIter st s.worst_num_rota s).Inv :=
      BufMgr.allocBufLastIter_rule st BufMgr.Inv (fun _ _ h1 h2 => h1.inv_allocBufIter_none h2) _ s hs
    generalize BufMgr.allocBufLastIter st s.worst_num_rota s = t at hit ht
    rcases BufMgr.allocBufIter_some hit with ⟨_, _, hr⟩ | ⟨d, hd, h2⟩
    · cases hr
    · have hfn := ht.frameNo _ d hd
      rcases h2 with ⟨hv, _, hr⟩ | ⟨hv, hrb, hp, _, _, h3⟩
      · cases hr
        rw [hfn]
        exact ⟨d, hd, rfl, fun h => by rw [hv] at h; cases h⟩
      · have h0 := ht.pin_nonneg _ d hd
        rcases h3 with ⟨_, hr, _⟩ | ⟨_, _, hr, _⟩
        · cases hr
        · cases hr
          rw [hfn]
          exact ⟨d, hd, rfl, fun _ => ⟨by omega, hrb⟩⟩
  · intro d0 hd0 hpin
    have hv0 := hs.pin_valid _ d0 hd0 hpin
    obtain ⟨_, _, _, hrel⟩ := BufMgr.allocBufLoop_rel st s.worst_num_rota s
    obtain ⟨h1, h2⟩ := hs.inv_allocBuf st
    have hab' : BufMgr.allocBufLoop st s.worst_num_rota s = (s', .ok f) := hab
    rw [hab] at h2
    rw [hab'] at hrel
    obtain ⟨_, d1, hd1, hinv⟩ := h2 f rfl
    obtain ⟨d', hd', hcase⟩ := hrel f d0 hd0
    rw [hd1] at hd'; cases hd'
    rcases hcase with (rfl | rfl) | ⟨_, hp, _⟩
    · rw [hv0] at hinv; cases hinv
    · have : d0.valid = false := hinv
      rw [hv0] at this; cases this
    · omega

/-- An instance of C5: with both frames of a pool of two unpinned, the sweep for
`readPage(5,3)` selects frame 1; at the instant of selection the hand is on
frame 1, which is valid and unpinned and whose reference bit is clear. -/
theorem C5_victim_unpinned_witness :
    ((BufMgr.construct 2).run
        [.readPage PageStore.sample 5 1, .unPinPage 5 1 false, .readPage PageStore.sample 5 2,
         .unPinPage 5 2 false]).bufDescTable.map (fun d => (d.valid, d.pinCnt, d.refbit)) =
      [(true, 0, true), (true, 0, false)] ∧
    (∃ d, (BufMgr.allocBufLastIter PageStore.sample 3 ((BufMgr.construct 2).run
        [.readPage PageStore.sample 5 1, .unPinPage 5 1 false, .readPage PageStore.sample 5 2,
         .unPinPage 5 2 false])).bufDescTable[1]? = some d ∧
      (BufMgr.allocBufLastIter PageStore.sample 3 ((BufMgr.construct 2).run
        [.readPage PageStore.sample 5 1, .unPinPage 5 1 false, .readPage PageStore.sample 5 2,
         .unPinPage 5 2 false])).clockHand = 1 ∧
      (d.valid = true → d.pinCnt = 0 ∧ d.refbit = false)) :=
  ⟨by decide,
   (C5_victim_unpinned 2 ((BufMgr.construct 2).run
        [.readPage PageStore.sample 5 1, .unPinPage 5 1 false, .readPage PageStore.sample 5 2,
         .unPinPage 5 2 false]) (Reachable.run Reachable.init _) PageStore.sample
      (((BufMgr.construct 2).run
        [.readPage PageStore.sample 5 1, .unPinPage 5 1 false, .readPage PageStore.sample 5 2,
         .unPinPage 5 2 false]).allocBuf PageStore.sample).1 1 (by decide)).1⟩

/-- C6: after every sequence of public operations (succeeding or failing) on a
freshly constructed pool, every frame has `pinCnt >= 0`, and a frame with
`pinCnt > 0` is valid. -/
theorem C6_pinCnt_nonneg_and_pinned_valid (bufs : Nat) (ops : List Op) (i : Nat) (d : BufDesc)
    (hd : ((BufMgr.construct bufs).run ops).bufDescTable[i]? = some d) :
    0 ≤ d.pinCnt ∧ (0 < d.pinCnt → d.valid = true) :=
  have hs := (Reachable.run (Reachable.init : Reachable bufs (BufMgr.construct bufs)) ops).inv
  ⟨hs.pin_nonneg i d hd, hs.pin_valid i d hd⟩

/-- An instance of C6: frame 1 of a pool of two frames after a miss, a hit, an
unpin, and an unpin of a page that is not resident. -/
theorem C6_pinCnt_nonneg_and_pinned_valid_witness :
    ((BufMgr.construct 2).run
        [.readPage PageStore.sample 5 1, .readPage PageStore.sample 5 1, .unPinPage 5 1 true,
         .unPinPage 5 9 false]).bufDescTable[1]? =
      some { file := some 5, pageNo := 1, frameNo := 1, pinCnt := 1, dirty := true,
             valid := true, refbit := true } ∧
    (0 : Int) ≤ 1 ∧ ((0 : Int) < 1 → true = true) :=
  ⟨by decide,
   C6_pinCnt_nonneg_and_pinned_valid 2
     [.readPage PageStore.sample 5 1, .readPage PageStore.sample 5 1, .unPinPage 5 1 true,
      .unPinPage 5 9 false] 1
     { file := some 5, pageNo := 1, frameNo := 1, pinCnt := 1, dirty := true,
       valid := true, refbit := true } (by decide)⟩

/-- C7: in a reachable state, `unPinPage(file, p, dirty)` throws
`PageNotPinnedException` exactly when `(file, p)` is in the index and the pin
count of its frame is 0; when `(file, p)` is not in the index it returns
normally; in both cases the state (descriptor table, index, clock hand, pool
and the calls made to the page store) is unchanged. -/
theorem C7_unPinPage_not_pinned (bufs : Nat) (s : BufMgr) (hr : Reachable bufs s)
    (file : File) (p : PageId) (dirty : Bool) :
    ((∃ fid, (s.unPinPage file p dirty).2 = .error (.PageNotPinnedException file p fid)) ↔
      ∃ fid d, s.hashTable.lookup (some file, p) = some fid ∧
        s.bufDescTable[fid]? = some d ∧ d.pinCnt = 0) ∧
    (s.hashTable.lookup (some file, p) = none → (s.unPinPage file p dirty).2 = .ok ()) ∧
    ((s.hashTable.lookup (some file, p) = none ∨
        ∃ fid d, s.hashTable.lookup (some file, p) = some fid ∧
          s.bufDescTable[fid]? = some d ∧ d.pinCnt = 0) →
      (s.unPinPage file p dirty).1 = s) := by
  have hs := hr.inv
  cases hl : s.hashTable.lookup (some file, p) with
  | none =>
    have e : s.unPinPage file p dirty = (s, .ok ()) := by
      unfold BufMgr.unPinPage; rw [hl]
    rw [e]
    refine ⟨⟨?_, ?_⟩, fun _ => rfl, fun _ => rfl⟩
    · rintro ⟨fid, h⟩; cases h
    · rintro ⟨fid, d, h, _⟩; cases h
  | some fid =>
    obtain ⟨d, hd, _, _⟩ := hs.index_sound _ _ hl
    have h0 := hs.pin_nonneg _ d hd
    by_cases hp : d.pinCnt ≤ 0
    · have e : s.unPinPage file p dirty = (s, .error (.PageNotPinnedException file p fid)) := by
        unfold BufMgr.unPinPage; rw [hl]; simp only [hd]; rw [if_pos hp]
      rw [e]
      refine ⟨⟨fun _ => ⟨fid, d, rfl, hd, by omega⟩, fun _ => ⟨fid, rfl⟩⟩, ?_, fun _ => rfl⟩
      intro h; cases h
    · have e : s.unPinPage file p dirty =
          ({ s with bufDescTable := s.bufDescTable.set fid ({ d with
              pinCnt := d.pinCnt - 1, dirty := if dirty = true then true else d.dirty }) },
            .ok ()) := by
        unfold BufMgr.unPinPage; rw [hl]; simp only [hd]; rw [if_neg hp]
      rw [e]
      refine ⟨⟨?_, ?_⟩, ?_, ?_⟩
      · rintro ⟨g, h⟩; cases h
      · rintro ⟨g, d', h1, h2, h3⟩
        cases h1; rw [hd] at h2; cases h2; omega
      · intro h; cases h
      · rintro (h | ⟨g, d', h1, h2, h3⟩)
        · cases h
        · cases h1; rw [hd] at h2; cases h2; omega

/-- An instance of C7: after `readPage(5,1)` and `unPinPage(5,1)` page `(5,1)` is
resident with pin count 0, a second `unPinPage(5,1)` throws
`PageNotPinnedException` and leaves the state as it was. -/
theorem C7_unPinPage_not_pinned_witness :
    (((BufMgr.construct 1).run [.readPage PageStore.sample 5 1, .unPinPage 5 1 false]).unPinPage
        5 1 true).2 = .error (.PageNotPinnedException 5 1 0) ∧
    (((BufMgr.construct 1).run [.readPage PageStore.sample 5 1, .unPinPage 5 1 false]).unPinPage
        5 1 true).1 =
      (BufMgr.construct 1).run [.readPage PageStore.sample 5 1, .unPinPage 5 1 false] :=
  ⟨by decide,
   (C7_unPinPage_not_pinned 1
      ((BufMgr.construct 1).run [.readPage PageStore.sample 5 1, .unPinPage 5 1 false])
      (Reachable.run Reachable.init _) 5 1 true).2.2
      (Or.inr ⟨0, { file := some 5, pageNo := 1, frameNo := 0, pinCnt := 0, dirty := false,
                    valid := true, refbit := true }, by decide, by decide, rfl⟩)⟩

/-- C8: when `(file, p)` is in the index and its frame `fid` has `pinCnt > 0`,
`unPinPage(file, p, dirty)` returns normally, decrements the pin count of that
frame by one and sets its dirty bit to `old dirty || dirty`; the other fields of
the descriptor, every other frame, the index, the clock hand and the pool are
unchanged, and no call to the page store is made. -/
theorem C8_unPinPage_effect (s : BufMgr) (file : File) (p : PageId) (dirty : Bool)
    (fid : FrameId) (d : BufDesc) (hl : s.hashTable.lookup (some file, p) = some fid)
    (hd : s.bufDescTable[fid]? = some d) (hp : 0 < d.pinCnt) :
    (s.unPinPage file p dirty).2 = .ok () ∧
    (s.unPinPage file p dirty).1.bufDescTable[fid]? =
      some { d with pinCnt := d.pinCnt - 1, dirty := d.dirty || dirty } ∧
    (∀ j, j ≠ fid → (s.unPinPage file p dirty).1.bufDescTable[j]? = s.bufDescTable[j]?) ∧
    (s.unPinPage file p dirty).1.bufDescTable.length = s.bufDescTable.length ∧
    (s.unPinPage file p dirty).1.hashTable = s.hashTable ∧
    (s.unPinPage file p dirty).1.clockHand = s.clockHand ∧
    (s.unPinPage file p dirty).1.bufPool = s.bufPool ∧
    (s.unPinPage file p dirty).1.numBufs = s.numBufs ∧
    (s.unPinPage file p dirty).1.trace = s.trace := by
  have hlt : fid < s.bufDescTable.length := by
    rcases List.getElem?_eq_some.1 hd with ⟨h, _⟩; exact h
  have e : s.unPinPage file p dirty =
      ({ s with bufDescTable := s.bufDescTable.set fid ({ d with
          pinCnt := d.pinCnt - 1, dirty := if dirty = true then true else d.dirty }) },
        .ok ()) := by
    unfold BufMgr.unPinPage; rw [hl]; simp only [hd]; rw [if_neg (by omega)]
  rw [e]
  refine ⟨rfl, ?_, ?_, ?_, rfl, rfl, rfl, rfl, rfl⟩
  · simp only [List.getElem?_set, hlt, if_true]
    cases dirty <;> cases hdd : d.dirty <;> simp
  · intro j hj
    simp only [List.getElem?_set_ne (fun h => hj h.symm)]
  · simp

/-- An instance of C8: a dirty page pinned twice is unpinned with `dirty = false`;
the pin count goes from 2 to 1 and the dirty bit stays set. -/
theorem C8_unPinPage_effect_witness :
    (((BufMgr.construct 1).run [.readPage PageStore.sample 5 1, .readPage PageStore.sample 5 1,
        .readPage PageStore.sample 5 1, .unPinPage 5 1 true]).unPinPage 5 1 false).1.bufDescTable[0]?
      = some { file := some 5, pageNo := 1, frameNo := 0, pinCnt := 1, dirty := true,
               valid := true, refbit := true } :=
  (C8_unPinPage_effect
    ((BufMgr.construct 1).run [.readPage PageStore.sample 5 1, .readPage PageStore.sample 5 1,
        .readPage PageStore.sample 5 1, .unPinPage 5 1 true]) 5 1 false 0
    { file := some 5, pageNo := 1, frameNo := 0, pinCnt := 2, dirty := true,
      valid := true, refbit := true } (by decide) (by decide) (by decide)).2.1

/-- C9: when `(file, p)` is in the index and maps to frame `fid`, `readPage(file,
p)` returns frame `fid`, sets its reference bit and increments its pin count by
one; the other fields of the descriptor, every other frame, the index, the
clock hand and the pool are unchanged, and no call to the page store is made. -/
theorem C9_readPage_hit_effect (s : BufMgr) (st : PageStore) (file : File) (p : PageId)
    (fid : FrameId) (d : BufDesc) (hl : s.hashTable.lookup (some file, p) = some fid)
    (hd : s.bufDescTable[fid]? = some d) :
    (s.readPage st file p).2 = .ok fid ∧
    (s.readPage st file p).1.bufDescTable[fid]? =
      some { d with refbit := true, pinCnt := d.pinCnt + 1 } ∧
    (∀ j, j ≠ fid → (s.readPage st file p).1.bufDescTable[j]? = s.bufDescTable[j]?) ∧
    (s.readPage st file p).1.bufDescTable.length = s.bufDescTable.length ∧
    (s.readPage st file p).1.hashTable = s.hashTable ∧
    (s.readPage st file p).1.clockHand = s.clockHand ∧
    (s.readPage st file p).1.bufPool = s.bufPool ∧
    (s.readPage st file p).1.numBufs = s.numBufs ∧
    (s.readPage st file p).1.trace = s.trace := by
  have hlt : fid < s.bufDescTable.length := by
    rcases List.getElem?_eq_some.1 hd with ⟨h, _⟩; exact h
  rw [BufMgr.readPage_hit st hl hd]
  refine ⟨rfl, ?_, ?_, ?_, rfl, rfl, rfl, rfl, rfl⟩
  · simp only [List.getElem?_set, hlt, if_true]
  · intro j hj
    simp only [List.getElem?_set_ne (fun h => hj h.symm)]
  · simp

/-- An instance of C9: a second `readPage(5,1)` in a pool of two frames is a hit
on frame 1, whose pin count becomes 2; the trace still holds the single read of
the first call. -/
theorem C9_readPage_hit_effect_witness :
    (((BufMgr.construct 2).run [.readPage PageStore.sample 5 1]).readPage
        PageStore.sample 5 1).2 = .ok 1 ∧
    (((BufMgr.construct 2).run [.readPage PageStore.sample 5 1]).readPage
        PageStore.sample 5 1).1.bufDescTable[1]? =
      some { file := some 5, pageNo := 1, frameNo := 1, pinCnt := 2, dirty := false,
             valid := true, refbit := true } ∧
    (((BufMgr.construct 2).run [.readPage PageStore.sample 5 1]).readPage
        PageStore.sample 5 1).1.trace = [.readPage 5 1] :=
  ⟨(C9_readPage_hit_effect ((BufMgr.construct 2).run [.readPage PageStore.sample 5 1])
      PageStore.sample 5 1 1
      { file := some 5, pageNo := 1, frameNo := 1, pinCnt := 1, dirty := false,
        valid := true, refbit := true } (by decide) (by decide)).1,
   by decide, by decide⟩

/-- C10: in a reachable state in which `(file, p)` is not in the index, when
`allocBuf` selects frame `f` and the store returns the page `pg` for
`readPage(p)`, `readPage(file, p)` returns `f`; afterwards frame `f` of the pool
holds `pg`, the index maps `(file, p)` to `f`, and the descriptor of `f` has
`valid = true`, `pinCnt = 1`, `refbit = true`, `dirty = false`, `file = file`
and `pageNo = p`. -/
theorem C10_readPage_miss_effect (bufs : Nat) (s : BufMgr) (hr : Reachable bufs s)
    (st : PageStore) (file : File) (p : PageId) (s1 : BufMgr) (f : FrameId) (pg : Page)
    (hl : s.hashTable.lookup (some file, p) = none)
    (hab : s.allocBuf st = (s1, .ok f)) (hrd : st.readPage file p = some pg) :
    (s.readPage st file p).2 = .ok f ∧
    (s.readPage st file p).1.bufPool[f]? = some pg ∧
    (s.readPage st file p).1.hashTable.lookup (some file, p) = some f ∧
    ∃ d, (s.readPage st file p).1.bufDescTable[f]? = some d ∧
      d.valid = true ∧ d.pinCnt = 1 ∧ d.refbit = true ∧ d.dirty = false ∧
      d.file = some file ∧ d.pageNo = p := by
  obtain ⟨h1, h2⟩ := hr.inv.inv_allocBuf st
  rw [hab] at h1 h2
  have h1' : BufMgr.Inv { s1 with trace := s1.trace ++ [.readPage file p] } :=
    h1.inv_frame rfl rfl rfl rfl h1.hand
  obtain ⟨s2, hin⟩ := BufMgr.install_isSome h1' (h2 f rfl).2 file p pg
  have e : s.readPage st file p = (s2, .ok f) := by
    rw [BufMgr.readPage_miss st hl]
    unfold BufMgr.readPageMiss
    rw [hab]
    simp only [hrd, hin]
  obtain ⟨d, hd, hlp, rfl⟩ := BufMgr.install_spec hin
  have hlt : f < s1.bufDescTable.length := by
    rcases List.getElem?_eq_some.1 hd with ⟨h, _⟩; exact h
  rw [e]
  refine ⟨rfl, ?_, ?_, d.Set (some file) p, ?_, rfl, rfl, rfl, rfl, rfl, rfl⟩
  · have hlp' : f < s1.bufPool.length := hlp
    simp only [List.getElem?_set, hlp', if_true]
  · simp only [BufHashTbl.lookup_insert, if_true]
  · have hd' : s1.bufDescTable[f]? = some d := hd
    simp only [List.getElem?_set, hlt, if_true]

/-- An instance of C10: the first `readPage(5,1)` on a fresh pool of two frames
is a miss; the sweep selects frame 1 and the page read from the store ends up
there. -/
theorem C10_readPage_miss_effect_witness :
    ((BufMgr.construct 2).readPage PageStore.sample 5 1).2 = .ok 1 ∧
    ((BufMgr.construct 2).readPage PageStore.sample 5 1).1.bufPool[1]? =
      some { page_number := 1, data := 101 } ∧
    ((BufMgr.construct 2).readPage PageStore.sample 5 1).1.hashTable.lookup (some 5, 1) =
      some 1 :=
  have h := C10_readPage_miss_effect 2 (BufMgr.construct 2) Reachable.init PageStore.sample 5 1
    (BufMgr.construct 2) 1 { page_number := 1, data := 101 } (by decide) (by decide) (by decide)
  ⟨h.1, h.2.1, h.2.2.1⟩

/-- C11: when `allocPage(file)` succeeds and returns page number `n` and frame
`f`, frame `f` of the pool holds the page the store handed out, and an
immediately following `readPage(file, n)` (whatever the store would answer)
returns frame `f`, leaves the pool as it is (the same bytes), makes no call to
the page store, and leaves frame `f` with `pinCnt = 2`. -/
theorem C11_allocPage_then_readPage_hit (s : BufMgr) (st st' : PageStore) (file : File)
    (s1 : BufMgr) (n : PageId) (f : FrameId) (h : s.allocPage st file = (s1, .ok (n, f))) :
    (∃ pg, st.allocatePage file = some pg ∧ pg.page_number = n ∧ s1.bufPool[f]? = some pg ∧
      (s1.readPage st' file n).1.bufPool[f]? = some pg) ∧
    (s1.readPage st' file n).2 = .ok f ∧
    (s1.readPage st' file n).1.bufPool = s1.bufPool ∧
    (s1.readPage st' file n).1.trace = s1.trace ∧
    ∃ d, (s1.readPage st' file n).1.bufDescTable[f]? = some d ∧ d.pinCnt = 2 ∧
      d.valid = true ∧ d.file = some file ∧ d.pageNo = n := by
  obtain ⟨pg, s0, d, hpg, hn, _, hd, hlt, rfl⟩ := BufMgr.allocPage_ok h
  have hlt' : f < s0.bufDescTable.length := by
    rcases List.getElem?_eq_some.1 hd with ⟨h, _⟩; exact h
  have hl : (s0.hashTable.insert (some file, n) f).lookup (some file, n) = some f := by
    rw [BufHashTbl.lookup_insert]; simp
  have hd1 : (s0.bufDescTable.set f (d.Set (some file) n))[f]? = some (d.Set (some file) n) := by
    simp only [List.getElem?_set, hlt', if_true]
  rw [BufMgr.readPage_hit st' hl hd1]
  refine ⟨⟨pg, hpg, hn, ?_, ?_⟩, rfl, rfl, rfl, ?_⟩
  · simp only [List.getElem?_set, hlt, if_true]
  · simp only [List.getElem?_set, hlt, if_true]
  · refine ⟨{ d.Set (some file) n with refbit := true, pinCnt := (d.Set (some file) n).pinCnt + 1 },
      ?_, ?_, rfl, rfl, rfl⟩
    · simp only [List.getElem?_set, List.length_set, hlt', if_true]
    · simp [BufDesc.Set]

/-- An instance of C11: on a fresh pool of two frames `allocPage(5)` returns page 7
in frame 1, and the following `readPage(5,7)` returns frame 1 with pin count 2;
the only call made to the store is the `allocatePage`. -/
theorem C11_allocPage_then_readPage_hit_witness :
    (((BufMgr.construct 2).allocPage PageStore.sample 5).1.readPage PageStore.sample 5 7).2
      = .ok 1 ∧
    (((BufMgr.construct 2).allocPage PageStore.sample 5).1.readPage
      PageStore.sample 5 7).1.trace = ((BufMgr.construct 2).allocPage PageStore.sample 5).1.trace ∧
    ((BufMgr.construct 2).allocPage PageStore.sample 5).1.trace = [.allocatePage 5] :=
  have h := C11_allocPage_then_readPage_hit (BufMgr.construct 2) PageStore.sample
    PageStore.sample 5 ((BufMgr.construct 2).allocPage PageStore.sample 5).1 7 1 (by decide)
  ⟨h.2.1, h.2.2.2.1, by decide⟩

/-- C12: consider a sweep of `allocBuf` in a reachable state, and the state at
the instant of selection (`allocBufLastIter`: the start of the iteration that
leaves the loop; no call to the page store has been made and the pool is
untouched until then).
When the sweep succeeds and selects frame `f`, the hand is on `f` at that
instant; let `d` be its descriptor there.  If `d` is valid and dirty, the sweep
makes exactly one call to the page store, `writePage` on the file of `d` with
the bytes of frame `f`; if `d` is invalid or clean it makes none.  If `d` is
valid, its index entry is present at the instant of selection and absent when
`allocBuf` returns, and the descriptor of `f` is cleared then; if `d` is
invalid, table and index are left as they are.
The write comes before the removal and the clearing: when the write of the
dirty victim fails, `allocBuf` throws with the write in the trace and with the
descriptor table and the index as they were at the instant of selection (the
victim still valid and dirty, its entry not removed).  The sweep never changes
the pool, and the only bytes it writes are those of the selected frame. -/
theorem C12_allocBuf_write_back (bufs : Nat) (s : BufMgr) (hr : Reachable bufs s)
    (st : PageStore) :
    (∀ (s' : BufMgr) (f : FrameId), s.allocBuf st = (s', .ok f) →
      s'.bufPool = s.bufPool ∧
      (BufMgr.allocBufLastIter st s.worst_num_rota s).trace = s.trace ∧
      ∃ d, (BufMgr.allocBufLastIter st s.worst_num_rota s).bufDescTable[f]? = some d ∧
        (BufMgr.allocBufLastIter st s.worst_num_rota s).clockHand = f ∧
        (d.valid = true → d.dirty = true →
          ∃ F pg, d.file = some F ∧ s.bufPool[f]? = some pg ∧
            st.writePage F pg = true ∧
            s'.trace = s.trace ++ [.writePage F pg] ∧
            BufMgr.allocBufEvict
              { BufMgr.allocBufLastIter st s.worst_num_rota s with
                trace := s.trace ++ [.writePage F pg] } d = (s', some (.ok f))) ∧
        ((d.valid = false ∨ d.dirty = false) → s'.trace = s.trace) ∧
        (d.valid = true →
          (BufMgr.allocBufLastIter st s.worst_num_rota s).hashTable.lookup
            (d.file, d.pageNo) ≠ none ∧
          s'.hashTable.lookup (d.file, d.pageNo) = none ∧
          s'.bufDescTable[f]? = some d.Clear ∧
          d.Clear.valid = false) ∧
        (d.valid = false →
          s'.bufDescTable = (BufMgr.allocBufLastIter st s.worst_num_rota s).bufDescTable ∧
          s'.hashTable = (BufMgr.allocBufLastIter st s.worst_num_rota s).hashTable)) ∧
    (∀ s' : BufMgr, s.allocBuf st = (s', .error .StoreException) →
      ∃ d F pg,
        (BufMgr.allocBufLastIter st s.worst_num_rota s).bufDescTable[
          (BufMgr.allocBufLastIter st s.worst_num_rota s).clockHand]? = some d ∧
        d.valid = true ∧ d.dirty = true ∧ d.file = some F ∧
        s.bufPool[(BufMgr.allocBufLastIter st s.worst_num_rota s).clockHand]? = some pg ∧
        st.writePage F pg = false ∧
        s'.trace = s.trace ++ [.writePage F pg] ∧
        s'.bufDescTable = (BufMgr.allocBufLastIter st s.worst_num_rota s).bufDescTable ∧
        s'.hashTable = (BufMgr.allocBufLastIter st s.worst_num_rota s).hashTable ∧
        s'.bufPool = s.bufPool) := by
  have hs := hr.inv
  have ht : (BufMgr.allocBufLastIter st s.worst_num_rota s).Inv :=
    BufMgr.allocBufLastIter_rule st BufMgr.Inv (fun _ _ h1 h2 => h1.inv_allocBufIter_none h2) _ s hs
  obtain ⟨htr, hpool⟩ := BufMgr.allocBufLastIter_trace st s.worst_num_rota s
  constructor
  · intro s' f hab
    have hit := BufMgr.allocBufLastIter_spec st _ s s' f hab
    have hrel := BufMgr.allocBufLoop_rel st s.worst_num_rota s
    have hab' : BufMgr.allocBufLoop st s.worst_num_rota s = (s', .ok f) := hab
    rw [hab'] at hrel
    refine ⟨hrel.2.1, htr, ?_⟩
    generalize BufMgr.allocBufLastIter st s.worst_num_rota s = t at hit ht htr hpool
    obtain ⟨d, hd, hf, hcase⟩ := BufMgr.allocBufIter_ok hit
    have hfn := ht.frameNo _ d hd
    have hhand : t.clockHand = f := by rw [hf, hfn]
    have hlt : t.clockHand < t.bufDescTable.length := by
      rcases List.getElem?_eq_some.1 hd with ⟨h, _⟩; exact h
    rw [hhand] at hd
    have hev : ∀ {u : BufMgr}, u.allocBufEvict d = (s', some (.ok f)) →
        u.bufDescTable = t.bufDescTable → u.hashTable = t.hashTable →
        u.clockHand = t.clockHand →
        t.hashTable.lookup (d.file, d.pageNo) ≠ none ∧
        s'.hashTable.lookup (d.file, d.pageNo) = none ∧
        s'.bufDescTable[f]? = some d.Clear ∧ s'.trace = u.trace := by
      intro u hu e1 e2 e3
      have h0 := BufMgr.allocBufEvict_ok hu (by rw [e3, e1]; exact hlt)
      rw [e2, e3, hhand] at h0
      exact h0
    refine ⟨d, hd, hhand, ?_, ?_, ?_, ?_⟩
    · intro hv hdirty
      rcases hcase with ⟨hv', _⟩ | ⟨_, hd', _⟩ | ⟨_, _, F, pg, hF, hpg, hw, he⟩
      · rw [hv] at hv'; cases hv'
      · rw [hdirty] at hd'; cases hd'
      · rw [← hf, hpool] at hpg
        rw [htr] at he
        exact ⟨F, pg, hF, hpg, hw, (hev he rfl rfl rfl).2.2.2, he⟩
    · intro hor
      rcases hcase with ⟨_, rfl⟩ | ⟨_, _, he⟩ | ⟨hv', hd', _⟩
      · exact htr
      · rw [(hev he rfl rfl rfl).2.2.2]; exact htr
      · rcases hor with h | h
        · rw [hv'] at h; cases h
        · rw [hd'] at h; cases h
    · intro hv
      rcases hcase with ⟨hv', _⟩ | ⟨_, _, he⟩ | ⟨_, _, F, pg, _, _, _, he⟩
      · rw [hv] at hv'; cases hv'
      · obtain ⟨h1, h2, h3, _⟩ := hev he rfl rfl rfl
        exact ⟨h1, h2, h3, rfl⟩
      · obtain ⟨h1, h2, h3, _⟩ := hev he rfl rfl rfl
        exact ⟨h1, h2, h3, rfl⟩
    · intro hv
      rcases hcase with ⟨_, rfl⟩ | ⟨hv', _⟩ | ⟨hv', _⟩
      · exact ⟨rfl, rfl⟩
      · rw [hv] at hv'; cases hv'
      · rw [hv] at hv'; cases hv'
  · intro s' hab
    have hit := BufMgr.allocBufLastIter_storeException st _ s s' hab
    generalize BufMgr.allocBufLastIter st s.worst_num_rota s = t at hit ht htr hpool
    obtain ⟨d, F, pg, hd, hv, hdirty, hF, hpg, hw, rfl⟩ := BufMgr.allocBufIter_storeException hit
    have hfn := ht.frameNo _ d hd
    rw [hfn, hpool] at hpg
    exact ⟨d, F, pg, hd, hv, hdirty, hF, hpg, hw, by rw [← htr], rfl, rfl, hpool⟩

/-- An instance of C12: in a pool of two frames page `(5,1)` sits in frame 1,
unpinned and dirty, and page `(5,2)` in frame 0, unpinned; the sweep clears the
reference bit of frame 0, selects frame 1 and writes the bytes of page 1 to
file 5: that write is the only call made to the page store.  With a store that
refuses the write, the sweep throws `StoreException` and frame 1 keeps its
descriptor and its index entry. -/
theorem C12_allocBuf_write_back_witness :
    (((BufMgr.construct 2).run
        [.readPage PageStore.sample 5 1, .unPinPage 5 1 true, .readPage PageStore.sample 5 2,
         .unPinPage 5 2 false]).allocBuf PageStore.sample).2 = .ok 1 ∧
    (((BufMgr.construct 2).run
        [.readPage PageStore.sample 5 1, .unPinPage 5 1 true, .readPage PageStore.sample 5 2,
         .unPinPage 5 2 false]).allocBuf PageStore.sample).1.trace =
      ((BufMgr.construct 2).run
        [.readPage PageStore.sample 5 1, .unPinPage 5 1 true, .readPage PageStore.sample 5 2,
         .unPinPage 5 2 false]).trace ++ [.writePage 5 { page_number := 1, data := 101 }] ∧
    (((BufMgr.construct 2).run
        [.readPage PageStore.sample 5 1, .unPinPage 5 1 true, .readPage PageStore.sample 5 2,
         .unPinPage 5 2 false]).allocBuf PageStore.failingWrites).2 = .error .StoreException ∧
    (((BufMgr.construct 2).run
        [.readPage PageStore.sample 5 1, .unPinPage 5 1 true, .readPage PageStore.sample 5 2,
         .unPinPage 5 2 false]).allocBuf PageStore.failingWrites).1.hashTable.lookup (some 5, 1)
      = some 1 ∧
    (((BufMgr.construct 2).run
        [.readPage PageStore.sample 5 1, .unPinPage 5 1 true, .readPage PageStore.sample 5 2,
         .unPinPage 5 2 false]).allocBuf PageStore.failingWrites).1.bufDescTable[1]? =
      some { file := some 5, pageNo := 1, frameNo := 1, pinCnt := 0, dirty := true,
             valid := true, refbit := false } := by
  refine ⟨by decide, ?_, by decide, by decide, by decide⟩
  obtain ⟨_, _, d, hd, _, hw, _⟩ := (C12_allocBuf_write_back 2
    ((BufMgr.construct 2).run
      [.readPage PageStore.sample 5 1, .unPinPage 5 1 true, .readPage PageStore.sample 5 2,
       .unPinPage 5 2 false]) (Reachable.run Reachable.init _) PageStore.sample).1
    (((BufMgr.construct 2).run
      [.readPage PageStore.sample 5 1, .unPinPage 5 1 true, .readPage PageStore.sample 5 2,
       .unPinPage 5 2 false]).allocBuf PageStore.sample).1 1 (by decide)
  have e : (BufMgr.allocBufLastIter PageStore.sample (BufMgr.worst_num_rota ((BufMgr.construct 2).run
      [.readPage PageStore.sample 5 1, .unPinPage 5 1 true, .readPage PageStore.sample 5 2,
       .unPinPage 5 2 false])) ((BufMgr.construct 2).run
      [.readPage PageStore.sample 5 1, .unPinPage 5 1 true, .readPage PageStore.sample 5 2,
       .unPinPage 5 2 false])).bufDescTable[1]? =
      some { file := some 5, pageNo := 1, frameNo := 1, pinCnt := 0, dirty := true,
             valid := true, refbit := false } := by decide
  rw [e] at hd
  cases hd
  obtain ⟨F, pg, hF, hpg, _, htr, _⟩ := hw rfl rfl
  cases hF
  have e2 : ((BufMgr.construct 2).run
      [.readPage PageStore.sample 5 1, .unPinPage 5 1 true, .readPage PageStore.sample 5 2,
       .unPinPage 5 2 false]).bufPool[1]? = some { page_number := 1, data := 101 } := by decide
  rw [e2] at hpg
  cases hpg
  exact htr

/-- C14 as stated fails: in a pool of three frames page `(5,3)` sits in frame 1,
unpinned and dirty, and page `(5,1)` in frame 2, pinned.  `flushFile(5)` throws
`PagePinnedException` for frame 2, but by then it has written page 3 to the
store, cleared frame 1 and removed its index entry: neither the descriptor
table nor the index is unchanged.  And in the reachable state in which the store
has handed out page 7 to two `allocPage(5)` calls, with page `(5,1)` pinned,
`flushFile(5)` does not throw `PagePinnedException` at all but
`HashNotFoundException`. -/
theorem C14_counterexample_earlier_frames_flushed :
    (((BufMgr.construct 3).run [.readPage PageStore.sample 5 1, .readPage PageStore.sample 6 2,
        .readPage PageStore.sample 5 3, .unPinPage 5 3 true]).flushFile
          PageStore.sample (some 5)).2 = .error (.PagePinnedException 5 1 2) ∧
    (((BufMgr.construct 3).run [.readPage PageStore.sample 5 1, .readPage PageStore.sample 6 2,
        .readPage PageStore.sample 5 3, .unPinPage 5 3 true]).flushFile
          PageStore.sample (some 5)).1.bufDescTable ≠
      ((BufMgr.construct 3).run [.readPage PageStore.sample 5 1, .readPage PageStore.sample 6 2,
        .readPage PageStore.sample 5 3, .unPinPage 5 3 true]).bufDescTable ∧
    ((BufMgr.construct 3).run [.readPage PageStore.sample 5 1, .readPage PageStore.sample 6 2,
        .readPage PageStore.sample 5 3, .unPinPage 5 3 true]).hashTable.lookup (some 5, 3)
      = some 1 ∧
    (((BufMgr.construct 3).run [.readPage PageStore.sample 5 1, .readPage PageStore.sample 6 2,
        .readPage PageStore.sample 5 3, .unPinPage 5 3 true]).flushFile
          PageStore.sample (some 5)).1.hashTable.lookup (some 5, 3) = none ∧
    (((BufMgr.construct 3).run [.readPage PageStore.sample 5 1, .readPage PageStore.sample 6 2,
        .readPage PageStore.sample 5 3, .unPinPage 5 3 true]).flushFile
          PageStore.sample (some 5)).1.trace =
      ((BufMgr.construct 3).run [.readPage PageStore.sample 5 1, .readPage PageStore.sample 6 2,
        .readPage PageStore.sample 5 3, .unPinPage 5 3 true]).trace ++
        [.writePage 5 { page_number := 3, data := 103 }] ∧
    (∃ d ∈ ((BufMgr.construct 3).run [.readPage PageStore.sample 5 1,
        .allocPage PageStore.sample 5, .unPinPage 5 7 true, .allocPage PageStore.sample 5,
        .unPinPage 5 7 false]).bufDescTable, d.file = some 5 ∧ 0 < d.pinCnt) ∧
    (((BufMgr.construct 3).run [.readPage PageStore.sample 5 1, .allocPage PageStore.sample 5,
        .unPinPage 5 7 true, .allocPage PageStore.sample 5,
        .unPinPage 5 7 false]).flushFile PageStore.sample (some 5)).2 =
      .error .HashNotFoundException := by
  decide

/-- C14 (amended): in a state reachable from construction (with `allocatePage`
handing out page numbers that are not resident), with a store that accepts the
writes, if some frame holds a page of `file` with `pinCnt > 0`, then
`flushFile(file)` throws `PagePinnedException` at the first such frame `m`.  It
has not written back, removed from the index or cleared frame `m`, any frame
after it, or any frame of another file; it has flushed exactly the frames of
`file` before `m` (`Flushed`).  So when no frame before `m` holds a page of
`file`, the descriptor table, the index and the trace of store calls are
unchanged. -/
theorem C14_flushFile_stops_at_first_pinned (bufs : Nat) (s : BufMgr) (hr : ReachableFresh bufs s)
    (st : PageStore) (file : File) (hw : ∀ f pg, st.writePage f pg = true)
    (hpin : ∃ d ∈ s.bufDescTable, d.file = some file ∧ 0 < d.pinCnt) :
    ∃ m dm, s.bufDescTable[m]? = some dm ∧ dm.file = some file ∧ 0 < dm.pinCnt ∧
      (∀ (j : Nat) (d : BufDesc), j < m → s.bufDescTable[j]? = some d → d.file = some file →
        d.pinCnt = 0) ∧
      (∃ p f, (s.flushFile st (some file)).2 = .error (.PagePinnedException file p f)) ∧
      s.Flushed (s.flushFile st (some file)).1 file 0 m ∧
      ((∀ (j : Nat) (d : BufDesc), j < m → s.bufDescTable[j]? = some d → d.file ≠ some file) →
        (s.flushFile st (some file)).1.bufDescTable = s.bufDescTable ∧
        (∀ k, (s.flushFile st (some file)).1.hashTable.lookup k = s.hashTable.lookup k) ∧
        (s.flushFile st (some file)).1.trace = s.trace) := by
  classical
  obtain ⟨hs, hx⟩ := hr.inv_idx
  have hf := hr.reachable.free
  have hex : ∃ m : Nat, ∃ d : BufDesc,
      s.bufDescTable[m]? = some d ∧ d.file = some file ∧ 0 < d.pinCnt := by
    obtain ⟨d, hd, h1, h2⟩ := hpin
    obtain ⟨m, hm⟩ := List.getElem?_of_mem hd
    exact ⟨m, d, hm, h1, h2⟩
  obtain ⟨dm, hdm, hF, hp⟩ := Nat.find_spec hex
  have hmin : ∀ (j : Nat) (d : BufDesc), j < Nat.find hex → s.bufDescTable[j]? = some d →
      d.file = some file → d.pinCnt = 0 := by
    intro j d hj hd hFd
    have h0 := hs.pin_nonneg j d hd
    have hn := Nat.find_min hex hj
    by_contra hne
    exact hn ⟨d, hd, hFd, by omega⟩
  have hm : Nat.find hex < s.numBufs := by
    rw [← hs.len_table]
    rcases List.getElem?_eq_some.1 hdm with ⟨h, _⟩; exact h
  obtain ⟨herr, hfl⟩ := BufMgr.flushFileLoop_pinned hw (Nat.find hex) dm hF hp s.numBufs 0 s
    hs hx hf (by omega) (Nat.zero_le _) (by omega) hdm
    (fun j d _ hj hd hFd => by rw [hmin j d hj hd hFd])
  have hfl' : s.Flushed (s.flushFile st (some file)).1 file 0 (Nat.find hex) := hfl
  refine ⟨Nat.find hex, dm, hdm, hF, hp, hmin, ⟨_, _, herr⟩, hfl', fun hno => ⟨?_, ?_, ?_⟩⟩
  · apply List.ext_getElem?
    intro j
    cases hd : s.bufDescTable[j]? with
    | some d =>
      refine hfl'.kept j d hd ?_
      by_cases hj : j < Nat.find hex
      · exact Or.inr (Or.inr (hno j d hj hd))
      · exact Or.inr (Or.inl (by omega))
    | none =>
      rw [List.getElem?_eq_none_iff] at hd ⊢
      rw [hfl'.length]; exact hd
  · intro k
    exact hfl'.index_kept k (fun j d hd _ hj hFd _ => hno j d hj hd hFd)
  · rw [hfl'.trace]
    have : (List.range' 0 (Nat.find hex - 0)).filterMap (s.flushWrite file) = [] := by
      rw [List.filterMap_eq_nil_iff]
      intro j hj
      rw [List.mem_range'_1] at hj
      have hjlt : j < s.bufDescTable.length := by rw [hs.len_table]; omega
      have hd0 : s.bufDescTable[j]? = some s.bufDescTable[j] := List.getElem?_eq_getElem hjlt
      have hne := hno j _ (by omega) hd0
      unfold BufMgr.flushWrite
      rw [hd0]
      split
      · next d pg h1 _ =>
        cases h1
        rw [if_neg (fun h => hne h.1)]
      · rfl
    rw [this, List.append_nil]

/-- An instance of C14 (amended): frame 2 of a pool of three frames holds page
`(5,1)`, pinned, and `flushFile(5)` throws `PagePinnedException`. -/
theorem C14_flushFile_stops_at_first_pinned_witness :
    ∃ p f, (((BufMgr.construct 3).run [.readPage PageStore.sample 5 1,
        .readPage PageStore.sample 6 2, .unPinPage 6 2 false]).flushFile
          PageStore.sample (some 5)).2 = .error (.PagePinnedException 5 p f) := by
  obtain ⟨_, _, _, _, _, _, h, _⟩ := C14_flushFile_stops_at_first_pinned 3
    ((BufMgr.construct 3).run [.readPage PageStore.sample 5 1, .readPage PageStore.sample 6 2,
      .unPinPage 6 2 false])
    (((ReachableFresh.init.step (.readPage PageStore.sample 5 1) trivial).step
      (.readPage PageStore.sample 6 2) trivial).step (.unPinPage 6 2 false) trivial)
    PageStore.sample 5 (fun _ _ => rfl) (by decide)
  exact h

/-- C16: when `(file, p)` is not in the index, `disposePage(file, p)` throws
`HashNotFoundException` and leaves the whole state as it was: the descriptor
table, the index, the clock hand and the pool are unchanged and no call is made
to the page store (no `deletePage` is added to the trace). -/
theorem C16_disposePage_not_resident (s : BufMgr) (st : PageStore) (file : File) (p : PageId)
    (hl : s.hashTable.lookup (some file, p) = none) :
    (s.disposePage st file p).2 = .error .HashNotFoundException ∧
    (s.disposePage st file p).1 = s ∧
    (s.disposePage st file p).1.trace = s.trace ∧
    ∀ q, StoreCall.deletePage file q ∉ (s.disposePage st file p).1.trace.drop s.trace.length := by
  have h : s.disposePage st file p = (s, .error .HashNotFoundException) := by
    unfold BufMgr.disposePage
    rw [hl]
  rw [h]
  refine ⟨rfl, rfl, rfl, fun q => ?_⟩
  simp

/-- Scenario D, as an instance of C16: on a fresh pool of two frames, with page
`(5,1)` resident, `disposePage(5,2)` of a page never read throws
`HashNotFoundException` and the trace still holds the single read. -/
theorem C16_disposePage_not_resident_witness :
    (((BufMgr.construct 2).run [.readPage PageStore.sample 5 1]).disposePage
      PageStore.sample 5 2).2 = .error .HashNotFoundException ∧
    (((BufMgr.construct 2).run [.readPage PageStore.sample 5 1]).disposePage
      PageStore.sample 5 2).1.trace = [.readPage 5 1] :=
  have h := C16_disposePage_not_resident
    ((BufMgr.construct 2).run [.readPage PageStore.sample 5 1]) PageStore.sample 5 2 (by decide)
  ⟨h.1, h.2.2.1.trans (by decide)⟩

/-- C17: when `(file, p)` is in the index and maps to frame `f`, whatever the pin
count and the dirty bit of the frame, `disposePage(file, p)` leaves frame `f`
cleared (`valid = false`, `pinCnt = 0`, `refbit = false`, `dirty = false`),
leaves no index entry for `(file, p)`, and makes exactly one call to the page
store, `deletePage(p)` on `file`, and no `writePage`.  The state left behind is
the same whether the delete succeeds or fails (the call then throws), so the
clear and the removal have taken effect when the store delete fails.  Every
other frame, the other index entries, the pool and the clock hand are
unchanged. -/
theorem C17_disposePage_resident (s : BufMgr) (st : PageStore) (file : File) (p : PageId)
    (f : FrameId) (d : BufDesc) (hl : s.hashTable.lookup (some file, p) = some f)
    (hd : s.bufDescTable[f]? = some d) :
    (s.disposePage st file p).2 =
      (if st.deletePage file p = true then .ok () else .error .StoreException) ∧
    (s.disposePage st file p).1.bufDescTable[f]? = some d.Clear ∧
    (d.Clear.valid = false ∧ d.Clear.pinCnt = 0 ∧ d.Clear.refbit = false ∧
      d.Clear.dirty = false) ∧
    (s.disposePage st file p).1.hashTable.lookup (some file, p) = none ∧
    (∀ k, k ≠ (some file, p) →
      (s.disposePage st file p).1.hashTable.lookup k = s.hashTable.lookup k) ∧
    (s.disposePage st file p).1.trace = s.trace ++ [.deletePage file p] ∧
    (∀ j, j ≠ f → (s.disposePage st file p).1.bufDescTable[j]? = s.bufDescTable[j]?) ∧
    (s.disposePage st file p).1.bufDescTable.length = s.bufDescTable.length ∧
    (s.disposePage st file p).1.bufPool = s.bufPool ∧
    (s.disposePage st file p).1.clockHand = s.clockHand ∧
    (s.disposePage st file p).1.numBufs = s.numBufs := by
  have hlt : f < s.bufDescTable.length := by
    rcases List.getElem?_eq_some.1 hd with ⟨h, _⟩; exact h
  obtain ⟨h', hr⟩ := BufHashTbl.remove_of_lookup hl
  have hlk := BufHashTbl.lookup_remove hr
  have h : s.disposePage st file p =
      ({ s with bufDescTable := s.bufDescTable.set f d.Clear, hashTable := h',
                trace := s.trace ++ [.deletePage file p] },
        if st.deletePage file p = true then .ok () else .error .StoreException) := by
    unfold BufMgr.disposePage
    rw [hl]
    simp only [hd, hr]
    split <;> rfl
  rw [h]
  refine ⟨rfl, ?_, ⟨rfl, rfl, rfl, rfl⟩, ?_, ?_, rfl, ?_, ?_, rfl, rfl, rfl⟩
  · simp only [List.getElem?_set, hlt, if_true]
  · show h'.lookup (some file, p) = none
    rw [hlk]; simp
  · intro k hk
    show h'.lookup k = _
    rw [hlk, if_neg hk]
  · intro j hj
    simp only [List.getElem?_set_ne (fun h => hj h.symm)]
  · simp

/-- An instance of C17: page `(5,1)` is resident in frame 1 of a pool of two
frames, pinned and dirty after a second read and an unpin with `dirty = true`;
`disposePage(5,1)` clears frame 1, removes the index entry and calls
`deletePage` once. -/
theorem C17_disposePage_resident_witness :
    (((BufMgr.construct 2).run [.readPage PageStore.sample 5 1, .readPage PageStore.sample 5 1,
        .unPinPage 5 1 true]).disposePage PageStore.sample 5 1).1.bufDescTable[1]? =
      some { file := none, pageNo := 1, frameNo := 1, pinCnt := 0, dirty := false,
             valid := false, refbit := false } ∧
    (((BufMgr.construct 2).run [.readPage PageStore.sample 5 1, .readPage PageStore.sample 5 1,
        .unPinPage 5 1 true]).disposePage PageStore.sample 5 1).1.hashTable.lookup (some 5, 1)
      = none ∧
    (((BufMgr.construct 2).run [.readPage PageStore.sample 5 1, .readPage PageStore.sample 5 1,
        .unPinPage 5 1 true]).disposePage PageStore.sample 5 1).1.trace =
      [.readPage 5 1, .deletePage 5 1] :=
  have h := C17_disposePage_resident
    ((BufMgr.construct 2).run [.readPage PageStore.sample 5 1, .readPage PageStore.sample 5 1,
      .unPinPage 5 1 true]) PageStore.sample 5 1 1
    { file := some 5, pageNo := 1, frameNo := 1, pinCnt := 1, dirty := true,
      valid := true, refbit := true } (by decide) (by decide)
  ⟨h.2.1, h.2.2.2.1, h.2.2.2.2.2.1.trans (by decide)⟩

/-- C18 as stated fails: on a fresh pool of two frames the first `readPage(5,1)`
uses frame 1, not frame 0 (the hand starts on frame 1 and the sweep inspects
the frame under the hand before it advances), `readPage(5,2)` then uses
frame 0, and `readPage(5,3)` evicts frame 1, so page 3 ends up in frame 1 and
page 2 stays in frame 0. -/
theorem C18_counterexample_frame_numbers :
    ((BufMgr.construct 2).readPage PageStore.sample 5 1).2 ≠ .ok 0 ∧
    (((BufMgr.construct 2).run [.readPage PageStore.sample 5 1,
        .unPinPage 5 1 false]).readPage PageStore.sample 5 2).2 ≠ .ok 1 ∧
    (((BufMgr.construct 2).run [.readPage PageStore.sample 5 1, .unPinPage 5 1 false,
        .readPage PageStore.sample 5 2, .unPinPage 5 2 false]).readPage
          PageStore.sample 5 3).2 ≠ .ok 0 ∧
    ((BufMgr.construct 2).run [.readPage PageStore.sample 5 1, .unPinPage 5 1 false,
        .readPage PageStore.sample 5 2, .unPinPage 5 2 false,
        .readPage PageStore.sample 5 3]).bufDescTable.map (fun d => (d.frameNo, d.pageNo)) =
      [(0, 2), (1, 3)] := by
  decide

/-- C18 (amended): Scenario A on a freshly constructed pool of two frames, for a
file `F` whose pages 1, 2 and 3 the store can read.  `readPage(F,1)` is a miss
that uses frame 1 and leaves `pinCnt = 1`; after `unPinPage(F,1,false)`,
`readPage(F,2)` is a miss whose sweep clears the reference bit of frame 1 and
uses frame 0; after `unPinPage(F,2,false)`, the sweep of `readPage(F,3)` clears
the reference bit of frame 0 and evicts frame 1, the frame holding page 1
(clean, so nothing is written), so page 3 ends up in frame 1 and page 2 stays
resident in frame 0. -/
theorem C18_scenario_A (st : PageStore) (F : File) (pg1 pg2 pg3 : Page)
    (h1 : st.readPage F 1 = some pg1) (h2 : st.readPage F 2 = some pg2)
    (h3 : st.readPage F 3 = some pg3) :
    (BufMgr.construct 2).readPage st F 1 =
      ({ numBufs := 2,
         bufDescTable :=
          [{ file := none, pageNo := 0, frameNo := 0, pinCnt := 0, dirty := false,
             valid := false, refbit := false },
           { file := some F, pageNo := 1, frameNo := 1, pinCnt := 1, dirty := false,
             valid := true, refbit := true }],
         bufPool := [{ page_number := 0, data := 0 }, pg1],
         hashTable := { entries := [((some F, 1), 1)] },
         clockHand := 1,
         trace := [.readPage F 1] }, .ok 1) ∧
    ((BufMgr.construct 2).run [.readPage st F 1, .unPinPage F 1 false]).readPage st F 2 =
      ({ numBufs := 2,
         bufDescTable :=
          [{ file := some F, pageNo := 2, frameNo := 0, pinCnt := 1, dirty := false,
             valid := true, refbit := true },
           { file := some F, pageNo := 1, frameNo := 1, pinCnt := 0, dirty := false,
             valid := true, refbit := false }],
         bufPool := [pg2, pg1],
         hashTable := { entries := [((some F, 2), 0), ((some F, 1), 1)] },
         clockHand := 0,
         trace := [.readPage F 1, .readPage F 2] }, .ok 0) ∧
    ((BufMgr.construct 2).run [.readPage st F 1, .unPinPage F 1 false, .readPage st F 2,
        .unPinPage F 2 false]).readPage st F 3 =
      ({ numBufs := 2,
         bufDescTable :=
          [{ file := some F, pageNo := 2, frameNo := 0, pinCnt := 0, dirty := false,
             valid := true, refbit := false },
           { file := some F, pageNo := 3, frameNo := 1, pinCnt := 1, dirty := false,
             valid := true, refbit := true }],
         bufPool := [pg2, pg3],
         hashTable := { entries := [((some F, 3), 1), ((some F, 2), 0)] },
         clockHand := 1,
         trace := [.readPage F 1, .readPage F 2, .readPage F 3] }, .ok 1) := by
  have e1 := BufMgr.scenarioA_read1 st F pg1 h1
  have e2 : (BufMgr.construct 2).run [.readPage st F 1, .unPinPage F 1 false] =
      (BufMgr.unPinPage ((BufMgr.construct 2).readPage st F 1).1 F 1 false).1 := rfl
  have e3 : (BufMgr.construct 2).run [.readPage st F 1, .unPinPage F 1 false, .readPage st F 2,
        .unPinPage F 2 false] =
      (BufMgr.unPinPage (BufMgr.readPage ((BufMgr.construct 2).run
        [.readPage st F 1, .unPinPage F 1 false]) st F 2).1 F 2 false).1 := rfl
  have both : ∀ {P Q : Prop}, P → (P → Q) → P ∧ Q := fun p f => ⟨p, f p⟩
  refine ⟨e1, both ?_ (fun r2 => ?_)⟩
  · rw [e2, e1]
    dsimp only
    rw [BufMgr.scenarioA_unpin1]
    exact BufMgr.scenarioA_read2 st F pg1 pg2 h2
  · rw [e3, r2]
    dsimp only
    rw [BufMgr.scenarioA_unpin2]
    exact BufMgr.scenarioA_read3 st F pg1 pg2 pg3 h3

/-- An instance of C18 (amended), with file 5 and the sample store: the third
read returns frame 1. -/
theorem C18_scenario_A_witness :
    (((BufMgr.construct 2).run [.readPage PageStore.sample 5 1, .unPinPage 5 1 false,
        .readPage PageStore.sample 5 2, .unPinPage 5 2 false]).readPage
          PageStore.sample 5 3).2 = .ok 1 :=
  congrArg Prod.snd (C18_scenario_A PageStore.sample 5 { page_number := 1, data := 101 }
    { page_number := 2, data := 102 } { page_number := 3, data := 103 } rfl rfl rfl).2.2

/-- C19: for a pool constructed with `1 ≤ bufs < 2^32` frames, in every
reachable state the clock hand is less than `bufs`, which is the length of the
descriptor table and of the pool; in every iteration of a sweep started there
(`allocBufLastIter` gives the state at the start of the iterations) the hand is
inside the descriptor table and the frame number found there is inside the
pool; `advanceClock` maps the hand `h` to `(h + 1) % bufs`; `unPinPage`,
`disposePage`, `flushFile` and a `readPage` that hits leave the hand alone, a
`readPage` that misses and `allocPage` leave it where their sweep left it; and
after a successful sweep the hand is the selected frame. -/
theorem C19_clockHand_in_range (bufs : Nat) (h1 : 1 ≤ bufs) (h32 : bufs < 2 ^ 32)
    (s : BufMgr) (hr : Reachable bufs s) :
    (s.clockHand < bufs ∧ s.bufDescTable.length = bufs ∧ s.bufPool.length = bufs) ∧
    (∀ (st : PageStore) (n : Nat),
      (BufMgr.allocBufLastIter st n s).clockHand <
        (BufMgr.allocBufLastIter st n s).bufDescTable.length ∧
      (∀ d, (BufMgr.allocBufLastIter st n s).bufDescTable[
          (BufMgr.allocBufLastIter st n s).clockHand]? = some d →
        d.frameNo < (BufMgr.allocBufLastIter st n s).bufPool.length) ∧
      (BufMgr.allocBufLastIter st n s).advanceClock.clockHand =
        ((BufMgr.allocBufLastIter st n s).clockHand + 1) % bufs) ∧
    s.advanceClock.clockHand = (s.clockHand + 1) % bufs ∧
    (∀ file p dirty, (s.unPinPage file p dirty).1.clockHand = s.clockHand) ∧
    (∀ st file p, (s.disposePage st file p).1.clockHand = s.clockHand) ∧
    (∀ st file, (s.flushFile st file).1.clockHand = s.clockHand) ∧
    (∀ st file p, s.hashTable.lookup (some file, p) ≠ none →
      (s.readPage st file p).1.clockHand = s.clockHand) ∧
    (∀ st file p, s.hashTable.lookup (some file, p) = none →
      (s.readPage st file p).1.clockHand = (s.allocBuf st).1.clockHand) ∧
    (∀ st file, st.allocatePage file = none →
      (s.allocPage st file).1.clockHand = s.clockHand) ∧
    (∀ st file, st.allocatePage file ≠ none → (s.allocPage st file).1.clockHand =
      (BufMgr.allocBuf { s with trace := s.trace ++ [.allocatePage file] } st).1.clockHand) ∧
    (∀ st s1 f, s.allocBuf st = (s1, .ok f) → s1.clockHand = f ∧ f < bufs) := by
  have hs := hr.inv
  have hn := hr.numBufs_eq
  have hpos : 0 < s.numBufs := by omega
  have hadv : ∀ t : BufMgr, t.Inv → t.numBufs = bufs →
      t.advanceClock.clockHand = (t.clockHand + 1) % bufs := by
    intro t ht htn
    have := t.advanceClock_hand (by omega) (ht.hand (by omega))
    rw [htn] at this
    exact this
  refine ⟨⟨?_, ?_, ?_⟩, ?_, hadv s hs hn, ?_, ?_, ?_, ?_, ?_, ?_, ?_, ?_⟩
  · rw [← hn]; exact hs.hand hpos
  · rw [hs.len_table, hn]
  · rw [hs.len_pool, hn]
  · intro st n
    have ht : (BufMgr.allocBufLastIter st n s).Inv :=
      BufMgr.allocBufLastIter_rule st BufMgr.Inv (fun _ _ h1 h2 => h1.inv_allocBufIter_none h2)
        n s hs
    have htn : (BufMgr.allocBufLastIter st n s).numBufs = bufs :=
      (BufMgr.allocBufLastIter_numBufs st n s).trans hn
    have hh := ht.hand (by omega)
    refine ⟨?_, ?_, hadv _ ht htn⟩
    · rw [ht.len_table]; exact hh
    · intro d hd
      rw [ht.frameNo _ d hd, ht.len_pool]; exact hh
  · intro file p dirty; exact (s.unPinPage_hand file p dirty).2
  · intro st file p; exact (s.disposePage_hand st file p).2
  · intro st file; exact (s.flushFile_hand st file).2
  · intro st file p hl
    cases hl' : s.hashTable.lookup (some file, p) with
    | none => exact absurd hl' hl
    | some fid =>
      obtain ⟨d, hd, _⟩ := hs.index_sound _ _ hl'
      rw [BufMgr.readPage_hit st hl' hd]
  · intro st file p hl
    rw [BufMgr.readPage_miss st hl]
    exact (s.readPageMiss_hand st file p).2
  · intro st file; exact (s.allocPage_hand st file).2.1
  · intro st file; exact (s.allocPage_hand st file).2.2
  · intro st s1 f hab
    obtain ⟨h1', h2⟩ := hs.inv_allocBuf st
    rw [hab] at h1' h2
    obtain ⟨hf, _⟩ := h2 f rfl
    have hn1 : s1.numBufs = bufs := by
      have := (BufMgr.allocBufLoop_rel st s.worst_num_rota s).1
      have hab' : BufMgr.allocBufLoop st s.worst_num_rota s = (s1, .ok f) := hab
      rw [hab'] at this
      exact this.trans hn
    have hh : s1.clockHand < s1.numBufs := h1'.hand (show 0 < s1.numBufs by omega)
    have hf' : f = s1.clockHand := hf
    exact ⟨hf'.symm, by rw [hf', ← hn1]; exact hh⟩

/-- An instance of C19: in a pool of two frames the hand starts on frame 1; the
sweep of the second `readPage` moves it to frame 0, the frame it selects, and
the calls that follow (a hit, an unpin, a failing flush) leave it there. -/
theorem C19_clockHand_in_range_witness :
    (BufMgr.construct 2).clockHand = 1 ∧
    ((BufMgr.construct 2).run [.readPage PageStore.sample 5 1,
        .readPage PageStore.sample 5 2]).clockHand = 0 ∧
    ((BufMgr.construct 2).run [.readPage PageStore.sample 5 1, .readPage PageStore.sample 5 2,
        .readPage PageStore.sample 5 2, .unPinPage 5 2 false,
        .flushFile PageStore.sample (some 5)]).clockHand < 2 :=
  ⟨by decide, by decide,
   (C19_clockHand_in_range 2 (by decide) (by decide)
     ((BufMgr.construct 2).run [.readPage PageStore.sample 5 1, .readPage PageStore.sample 5 2,
        .readPage PageStore.sample 5 2, .unPinPage 5 2 false,
        .flushFile PageStore.sample (some 5)])
     (Reachable.run Reachable.init _)).1.1⟩

/-- C20: in every state reachable from construction by public operations, every
invalid frame has no file association, and `flushFile` called with a real
(non-null) file, whatever the store answers, does not throw
`BadBufferException`. -/
theorem C20_flushFile_never_bad_buffer (bufs : Nat) (s : BufMgr) (hr : Reachable bufs s) :
    (∀ (i : Nat) (d : BufDesc), s.bufDescTable[i]? = some d → d.valid = false →
      d.file = none) ∧
    ∀ (st : PageStore) (file : File) (a : FrameId) (b c d : Bool),
      (s.flushFile st (some file)).2 ≠ .error (.BadBufferException a b c d) :=
  ⟨hr.free, fun st file a b c d =>
    BufMgr.flushFileLoop_not_bad st file a b c d s.numBufs 0 s hr.free⟩

/-- An instance of C20: in a pool of two frames, after a page of file 5 has been
evicted by the sweep, another disposed of and a third flushed, the invalid
frames have no file and `flushFile(5)` returns normally. -/
theorem C20_flushFile_never_bad_buffer_witness :
    ((BufMgr.construct 2).run [.readPage PageStore.sample 5 1, .unPinPage 5 1 false,
        .readPage PageStore.sample 5 2, .unPinPage 5 2 false, .readPage PageStore.sample 5 3,
        .disposePage PageStore.sample 5 3, .flushFile PageStore.sample (some 5)]).bufDescTable.map
          (fun d => (d.valid, d.file)) = [(false, none), (false, none)] ∧
    (((BufMgr.construct 2).run [.readPage PageStore.sample 5 1, .unPinPage 5 1 false,
        .readPage PageStore.sample 5 2, .unPinPage 5 2 false, .readPage PageStore.sample 5 3,
        .disposePage PageStore.sample 5 3, .flushFile PageStore.sample (some 5)]).flushFile
          PageStore.sample (some 5)).2 ≠ .error (.BadBufferException 0 false false false) :=
  ⟨by decide,
   (C20_flushFile_never_bad_buffer 2 _ (Reachable.run Reachable.init _)).2
     PageStore.sample 5 0 false false false⟩

end badgerdb
